import Mathlib

/-!
# Smart energy meter: the latest-reading store of `backend/server.js`

A shallow embedding of the two REST handlers of `src/backend/server.js`
(`POST /readings`, `GET /latest`) together with the JavaScript built-ins they
rely on (`parseFloat`, `parseInt`, `ToString`, `||`, `Map`, `JSON.stringify`).

Numbers.  A JavaScript number is an IEEE-754 binary64 value.  It is modelled
by `JSNum`: `nan`, the two infinities, or a finite value carried as the exact
rational it denotes.  `roundDouble` is round-to-nearest, ties-to-even, into
binary64 (subnormals and overflow included).  Negative zero is identified
with zero: every place of the handlers that could see `-0` either replaces it
through `|| 0`, normalises it (`Map` keys) or prints it as `0`
(`JSON.stringify`, `ToString`).
-/

namespace EnergyMeter

/-! ## Numbers -/

/-- A JavaScript number: NaN, an infinity, or a finite binary64 value given by
the rational it denotes. -/
inductive JSNum where
  | nan
  | inf (neg : Bool)
  | fin (q : ℚ)
  deriving DecidableEq

/-- Nearest integer to `n / d`, ties to the even neighbour (`d > 0`). -/
def roundHalfEven (n d : Nat) : Nat :=
  let k := n / d
  let r := n % d
  if 2 * r < d then k
  else if d < 2 * r then k + 1
  else if k % 2 = 0 then k else k + 1

/-- Bit length by repeated halving; the first argument bounds the steps. -/
def bitLenAux : Nat → Nat → Nat
  | 0, _ => 0
  | fuel + 1, n => if n = 0 then 0 else bitLenAux fuel (n / 2) + 1

/-- Number of binary digits of `n` (`0` for `0`). -/
def bitLen (n : Nat) : Nat := bitLenAux n n

/-- The binary exponent `e` with `2 ^ e ≤ n / d < 2 ^ (e + 1)`, for `n, d > 0`. -/
def binade (n d : Nat) : Int :=
  let e0 : Int := (bitLen n : Int) - (bitLen d : Int)
  if d * 2 ^ e0.toNat ≤ n * 2 ^ (-e0).toNat then e0 else e0 - 1

/-- The binary64 value nearest to the real number `q` (round to nearest, ties
to even): 53 significant bits, exponents from `-1022` (below which values are
subnormal, spaced `2 ^ (-1074)`) to `1023` (above which the result is an
infinity). -/
def roundDouble (q : ℚ) : JSNum :=
  if q = 0 then .fin 0
  else
    let n := q.num.natAbs
    let d := q.den
    let e := max (binade n d) (-1022)
    let p := e - 52
    let m := roundHalfEven (n * 2 ^ (-p).toNat) (d * 2 ^ p.toNat)
    if 1023 < e ∨ (e = 1023 ∧ 2 ^ 53 ≤ m) then .inf (decide (q < 0))
    else .fin (mkRat (q.num.sign * ((m * 2 ^ p.toNat : Nat) : Int)) (2 ^ (-p).toNat))

/-- The rational `m * 10 ^ e`. -/
def scale10 (m : Nat) (e : Int) : ℚ :=
  mkRat ((m * 10 ^ e.toNat : Nat) : Int) (10 ^ (-e).toNat)

/-- JavaScript truthiness of a number: `0` and `NaN` are falsy. -/
def JSNum.truthy : JSNum → Bool
  | .nan => false
  | .inf _ => true
  | .fin q => decide (q ≠ 0)

/-- The expression `x || 0` on numbers. -/
def JSNum.orZero (x : JSNum) : JSNum :=
  if x.truthy then x else .fin 0

/-- Whether the number is finite. -/
def JSNum.isFinite : JSNum → Bool
  | .fin _ => true
  | _ => false

/-- Whether the number is a (finite) integer, as `Number.isInteger`. -/
def JSNum.isInteger : JSNum → Bool
  | .fin q => decide (q.den = 1)
  | _ => false

/-! ## Number to text (`Number::toString`, radix 10) -/

/-- Decimal digits of `n`, most significant first; the first argument bounds
the steps. -/
def digitsAux : Nat → Nat → List Char → List Char
  | 0, _, acc => acc
  | fuel + 1, n, acc =>
    if n < 10 then Char.ofNat (48 + n) :: acc
    else digitsAux fuel (n / 10) (Char.ofNat (48 + n % 10) :: acc)

/-- The decimal numeral of a natural number. -/
def natDigits (n : Nat) : List Char := digitsAux (n + 1) n []

/-- Searches upwards from `j` for the first `j` with `den ≤ num * 10 ^ (j + 1)`. -/
def leadingZerosAux : Nat → Nat → Nat → Nat → Nat
  | 0, _, _, j => j
  | fuel + 1, num, den, j =>
    if den ≤ num * 10 ^ (j + 1) then j else leadingZerosAux fuel num den (j + 1)

/-- The decimal exponent `n` with `10 ^ (n - 1) ≤ q < 10 ^ n`, for `q > 0`. -/
def decExponent (q : ℚ) : Int :=
  let num := q.num.natAbs
  if q.den ≤ num then ((natDigits (num / q.den)).length : Int)
  else - (leadingZerosAux q.den num q.den 0 : Int)

/-- The candidates with `k` digits for printing `q` (with decimal exponent
`n`): the pairs `(s, n)` around `q` whose value `s * 10 ^ (n - k)` is read
back as `q`, the closest first (on a tie the even one). -/
def digitCandidates (q : ℚ) (n : Int) (k : Nat) : List (Nat × Int) :=
  let t := q / scale10 1 (n - k)
  let lo := t.num.natAbs / t.den
  let hi := lo + 1
  let okLo := decide (roundDouble (scale10 lo (n - k)) = .fin q)
  let okHi := decide (roundDouble (scale10 hi (n - k)) = .fin q)
  let hiPair : Nat × Int := if hi = 10 ^ k then (10 ^ (k - 1), n + 1) else (hi, n)
  let dLo := q - scale10 lo (n - k)
  let dHi := scale10 hi (n - k) - q
  let loFirst := decide (dLo < dHi) || (decide (dLo = dHi) && decide (lo % 2 = 0))
  match okLo, okHi with
  | true, true => if loFirst then [(lo, n), hiPair] else [hiPair, (lo, n)]
  | true, false => [(lo, n)]
  | false, true => [hiPair]
  | false, false => []

/-- Tries `k`, `k + 1`, ... digits, at most `fuel` times, and returns the first
candidate found: the shortest digit string that reads back as `q`. -/
def shortestAux : Nat → ℚ → Int → Nat → Nat × Int
  | 0, q, n, k => ((q / scale10 1 (n - k)).num.natAbs / (q / scale10 1 (n - k)).den, n)
  | fuel + 1, q, n, k =>
    match digitCandidates q n k with
    | c :: _ => c
    | [] => shortestAux fuel q n (k + 1)

/-- The digits `s` and the exponent `n` of `Number::toString` for a finite
`q > 0`: `s` has as few digits as possible (at most 17 are ever needed for a
binary64 value). -/
def shortestDigits (q : ℚ) : List Char × Int :=
  let r := shortestAux 17 q (decExponent q) 1
  (natDigits r.1, r.2)

/-- The text of `Number::toString` for a finite `q > 0`, from its digits and
decimal exponent. -/
def formatPositive (ds : List Char) (n : Int) : List Char :=
  let k : Int := ds.length
  if k ≤ n ∧ n ≤ 21 then ds ++ List.replicate (n - k).toNat '0'
  else if 0 < n ∧ n ≤ 21 then ds.take n.toNat ++ '.' :: ds.drop n.toNat
  else if -6 < n ∧ n ≤ 0 then '0' :: '.' :: (List.replicate (-n).toNat '0' ++ ds)
  else
    let e := n - 1
    let ex := (if e < 0 then '-' else '+') :: natDigits e.natAbs
    match ds with
    | [d] => d :: 'e' :: ex
    | d :: rest => d :: '.' :: (rest ++ 'e' :: ex)
    | [] => 'e' :: ex

/-- The text of a number, as `Number::toString` produces it. -/
def numToString : JSNum → List Char
  | .nan => "NaN".toList
  | .inf false => "Infinity".toList
  | .inf true => "-Infinity".toList
  | .fin q =>
    if q = 0 then ['0']
    else
      let r := shortestDigits |q|
      let body := formatPositive r.1 r.2
      if q < 0 then '-' :: body else body

/-! ## JavaScript values of a parsed JSON body -/

/-- A value as `express.json()` (that is, `JSON.parse`) hands it to the
handler.  Numbers are binary64 values (`JSON.parse` yields finite numbers, or
an infinity for a literal beyond the binary64 range, never NaN).  An object
is the list of its members as they stand in the JSON text; when a key is
repeated the last member wins, as in `JSON.parse`.  The order in which
JavaScript enumerates the members of an object is not modelled beyond this
list. -/
inductive Json where
  | null
  | bool (b : Bool)
  | num (x : JSNum)
  | str (s : String)
  | arr (xs : List Json)
  | obj (kvs : List (String × Json))

/-- Property lookup on a parsed object: the last member with that key, or
`none` (JavaScript `undefined`) when there is none. -/
def getField (k : String) : List (String × Json) → Option Json
  | [] => none
  | (k', v) :: rest =>
    match getField k rest with
    | some w => some w
    | none => if k' = k then some v else none

/-- Joins the texts of array elements with commas (`Array.prototype.join`). -/
def joinComma : List (List Char) → List Char
  | [] => []
  | [x] => x
  | x :: y :: rest => x ++ ',' :: joinComma (y :: rest)

mutual
/-- The abstract operation `ToString` on a parsed value; `none` stands for the
`TypeError` it throws.  An array is the comma-joined text of its elements
(`null` elements give the empty text).  An object without a member named
`toString` inherits `Object.prototype.toString` and is `[object Object]`; with
such a member (never callable, coming from JSON) the conversion falls through
to `valueOf`, which does not give a primitive either, and throws.  The depth
of nesting is unbounded here: the stack limit of the engine is not modelled. -/
def Json.toStr : Json → Option (List Char)
  | .null => some "null".toList
  | .bool true => some "true".toList
  | .bool false => some "false".toList
  | .num x => some (numToString x)
  | .str s => some s.toList
  | .arr xs => (elemsToStr xs).map joinComma
  | .obj kvs =>
    match getField "toString" kvs with
    | some _ => none
    | none => some "[object Object]".toList
/-- The texts of the elements of an array, in order; `none` when one throws. -/
def elemsToStr : List Json → Option (List (List Char))
  | [] => some []
  | x :: rest =>
    let here : Option (List Char) :=
      match x with
      | .null => some []
      | y => y.toStr
    match here, elemsToStr rest with
    | some a, some as => some (a :: as)
    | _, _ => none
end

/-- The operation `ToString` on an argument that may be `undefined`. -/
def argToStr : Option Json → Option (List Char)
  | none => some "undefined".toList
  | some v => v.toStr

/-- JavaScript truthiness (`ToBoolean`) of a parsed value. -/
def Json.truthy : Json → Bool
  | .null => false
  | .bool b => b
  | .num x => x.truthy
  | .str s => decide (s ≠ "")
  | .arr _ => true
  | .obj _ => true

/-! ## `parseFloat` and `parseInt` -/

/-- White space and line terminators, the characters `TrimString` removes. -/
def isJsSpace (c : Char) : Bool :=
  let n := c.toNat
  n = 0x09 || n = 0x0A || n = 0x0B || n = 0x0C || n = 0x0D || n = 0x20 ||
  n = 0xA0 || n = 0x1680 || (0x2000 ≤ n && n ≤ 0x200A) || n = 0x2028 ||
  n = 0x2029 || n = 0x202F || n = 0x205F || n = 0x3000 || n = 0xFEFF

/-- Removes leading white space. -/
def trimStart : List Char → List Char
  | [] => []
  | c :: cs => if isJsSpace c then trimStart cs else c :: cs

/-- Whether `c` is one of the decimal digits `0` to `9`. -/
def isDecDigit (c : Char) : Bool := 48 ≤ c.toNat && c.toNat ≤ 57

/-- The longest prefix of decimal digits, and what follows it. -/
def spanDigits : List Char → List Char × List Char
  | [] => ([], [])
  | c :: cs =>
    if isDecDigit c then ((spanDigits cs).1.cons c, (spanDigits cs).2)
    else ([], c :: cs)

/-- The value of a string of decimal digits, given the value of what was read
before it. -/
def digitsValue : List Char → Nat → Nat
  | [], acc => acc
  | c :: cs, acc => digitsValue cs (acc * 10 + (c.toNat - 48))

/-- Splits off an optional leading sign; the flag says whether it was `-`. -/
def takeSign : List Char → Bool × List Char
  | '-' :: cs => (true, cs)
  | '+' :: cs => (false, cs)
  | cs => (false, cs)

/-- Whether the text starts with the word `Infinity`. -/
def startsInfinity : List Char → Bool
  | 'I' :: 'n' :: 'f' :: 'i' :: 'n' :: 'i' :: 't' :: 'y' :: _ => true
  | _ => false

/-- The exponent of an `ExponentPart` at the head of the text (`e` or `E`,
an optional sign, at least one digit); `0` when there is none. -/
def exponentPart : List Char → Int
  | c :: cs =>
    if c = 'e' ∨ c = 'E' then
      let ds := spanDigits (takeSign cs).2
      if ds.1 = [] then 0
      else if (takeSign cs).1 then - (digitsValue ds.1 0 : Int) else (digitsValue ds.1 0 : Int)
    else 0
  | [] => 0

/-- The function `parseFloat` on text: skip leading white space, take the
longest prefix that is a `StrDecimalLiteral` (optional sign, then `Infinity`
or digits with an optional fraction and an optional exponent) and return the
binary64 value nearest to it; `NaN` when no prefix qualifies. -/
def parseFloatChars (cs : List Char) : JSNum :=
  let s := takeSign (trimStart cs)
  if startsInfinity s.2 then .inf s.1
  else
    let ip := spanDigits s.2
    let fp : List Char × List Char :=
      match ip.2 with
      | '.' :: r => spanDigits r
      | r => ([], r)
    if ip.1 = [] ∧ fp.1 = [] then .nan
    else
      let v := scale10 (digitsValue (ip.1 ++ fp.1) 0) (exponentPart fp.2 - (fp.1.length : Int))
      roundDouble (if s.1 then -v else v)

/-- The value of a hexadecimal digit, if `c` is one. -/
def hexDigit? (c : Char) : Option Nat :=
  let n := c.toNat
  if 48 ≤ n ∧ n ≤ 57 then some (n - 48)
  else if 97 ≤ n ∧ n ≤ 102 then some (n - 87)
  else if 65 ≤ n ∧ n ≤ 70 then some (n - 55)
  else none

/-- Reads the longest prefix of hexadecimal digits: how many were read and
their value, given the count and value so far. -/
def readHex : List Char → Nat → Nat → Nat × Nat
  | [], cnt, acc => (cnt, acc)
  | c :: cs, cnt, acc =>
    match hexDigit? c with
    | some d => readHex cs (cnt + 1) (acc * 16 + d)
    | none => (cnt, acc)

/-- The function `parseInt` on text, called without a radix: skip leading
white space, take an optional sign, switch to radix 16 after a `0x` or `0X`
prefix and to radix 10 otherwise, read the longest prefix of digits of that
radix and return the binary64 value nearest to the integer they denote; `NaN`
when there is no digit. -/
def parseIntChars (cs : List Char) : JSNum :=
  let s := takeSign (trimStart cs)
  match s.2 with
  | '0' :: x :: rest =>
    if x = 'x' ∨ x = 'X' then
      let r := readHex rest 0 0
      if r.1 = 0 then .nan
      else roundDouble (if s.1 then -(r.2 : ℚ) else (r.2 : ℚ))
    else
      let n := digitsValue (spanDigits s.2).1 0
      roundDouble (if s.1 then -(n : ℚ) else (n : ℚ))
  | _ =>
    let ds := (spanDigits s.2).1
    if ds = [] then .nan
    else roundDouble (if s.1 then -(digitsValue ds 0 : ℚ) else (digitsValue ds 0 : ℚ))

/-- The call `parseFloat(v)` on a destructured field: `ToString` first (which
may throw, `none`), then the text is parsed. -/
def parseFloatArg (v : Option Json) : Option JSNum :=
  (argToStr v).map parseFloatChars

/-- The call `parseInt(v)` on a destructured field. -/
def parseIntArg (v : Option Json) : Option JSNum :=
  (argToStr v).map parseIntChars

/-! ## Decidable equality of parsed values -/

mutual
/-- Structural equality test on parsed values. -/
def Json.decEq : (a b : Json) → Decidable (a = b)
  | .null, .null => isTrue rfl
  | .bool a, .bool b =>
    if h : a = b then isTrue (by rw [h]) else isFalse (by intro e; cases e; exact h rfl)
  | .num a, .num b =>
    if h : a = b then isTrue (by rw [h]) else isFalse (by intro e; cases e; exact h rfl)
  | .str a, .str b =>
    if h : a = b then isTrue (by rw [h]) else isFalse (by intro e; cases e; exact h rfl)
  | .arr a, .arr b =>
    match decEqElems a b with
    | isTrue h => isTrue (by rw [h])
    | isFalse h => isFalse (by intro e; cases e; exact h rfl)
  | .obj a, .obj b =>
    match decEqMembers a b with
    | isTrue h => isTrue (by rw [h])
    | isFalse h => isFalse (by intro e; cases e; exact h rfl)
  | .null, .bool _ | .null, .num _ | .null, .str _ | .null, .arr _ | .null, .obj _
  | .bool _, .null | .bool _, .num _ | .bool _, .str _ | .bool _, .arr _ | .bool _, .obj _
  | .num _, .null | .num _, .bool _ | .num _, .str _ | .num _, .arr _ | .num _, .obj _
  | .str _, .null | .str _, .bool _ | .str _, .num _ | .str _, .arr _ | .str _, .obj _
  | .arr _, .null | .arr _, .bool _ | .arr _, .num _ | .arr _, .str _ | .arr _, .obj _
  | .obj _, .null | .obj _, .bool _ | .obj _, .num _ | .obj _, .str _ | .obj _, .arr _ =>
    isFalse (by intro e; cases e)
/-- Structural equality test on lists of parsed values. -/
def decEqElems : (as bs : List Json) → Decidable (as = bs)
  | [], [] => isTrue rfl
  | [], _ :: _ => isFalse (by intro e; cases e)
  | _ :: _, [] => isFalse (by intro e; cases e)
  | a :: as, b :: bs =>
    match Json.decEq a b, decEqElems as bs with
    | isTrue h, isTrue h' => isTrue (by rw [h, h'])
    | isFalse h, _ => isFalse (by intro e; cases e; exact h rfl)
    | _, isFalse h => isFalse (by intro e; cases e; exact h rfl)
/-- Structural equality test on member lists. -/
def decEqMembers : (as bs : List (String × Json)) → Decidable (as = bs)
  | [], [] => isTrue rfl
  | [], _ :: _ => isFalse (by intro e; cases e)
  | _ :: _, [] => isFalse (by intro e; cases e)
  | (k, a) :: as, (l, b) :: bs =>
    if hk : k = l then
      match Json.decEq a b, decEqMembers as bs with
      | isTrue h, isTrue h' => isTrue (by rw [hk, h, h'])
      | isFalse h, _ => isFalse (by intro e; cases e; exact h rfl)
      | _, isFalse h => isFalse (by intro e; cases e; exact h rfl)
    else isFalse (by intro e; cases e; exact hk rfl)
end

instance : DecidableEq Json := Json.decEq

/-! ## The store: `latestReadings`, a `Map` -/

/-- A `Map` key under `SameValueZero`: primitives compare by value, while an
array or object compares by identity and is represented by the serial number
of its allocation. -/
inductive Key where
  | null
  | bool (b : Bool)
  | num (x : JSNum)
  | str (s : String)
  | ref (id : Nat)
  deriving DecidableEq

/-- One stored reading: the object literal built by `POST /readings`.
`deviceId` and `timestamp` are kept as received; the four measurements are
numbers. -/
structure Reading where
  deviceId : Json
  voltage : JSNum
  current : JSNum
  power : JSNum
  rawAdc : JSNum
  timestamp : Json
  deriving DecidableEq

/-- The process state: the entries of the `latestReadings` map of line 18 in
insertion order, and the number of arrays and objects used as keys so far
(the next fresh identity). -/
structure Store where
  latestReadings : List (Key × Reading)
  nextRef : Nat
  deriving DecidableEq

/-- The state at process start: `new Map()`. -/
def Store.empty : Store := ⟨[], 0⟩

/-- The method `Map.prototype.get`. -/
def mapGet (k : Key) : List (Key × Reading) → Option Reading
  | [] => none
  | (k', r) :: rest => if k' = k then some r else mapGet k rest

/-- The method `Map.prototype.set`: replace the value of an existing key in
place, or append a new entry. -/
def mapSet (k : Key) (r : Reading) : List (Key × Reading) → List (Key × Reading)
  | [] => [(k, r)]
  | (k', r') :: rest => if k' = k then (k, r) :: rest else (k', r') :: mapSet k r rest

/-- The key under which a value is filed; `fresh` is the identity given to it
when it is an array or an object. -/
def keyOf (fresh : Nat) : Json → Key
  | .null => .null
  | .bool b => .bool b
  | .num x => .num x
  | .str s => .str s
  | .arr _ => .ref fresh
  | .obj _ => .ref fresh

/-- Whether a value is an array or an object (and so consumes an identity). -/
def Json.isRef : Json → Bool
  | .arr _ => true
  | .obj _ => true
  | _ => false

/-! ## Serialisation: `res.json`, that is `JSON.stringify` -/

/-- A number as `JSON.stringify` writes it: non-finite numbers become `null`. -/
def wireNum (x : JSNum) : Json :=
  if x.isFinite then .num x else .null

mutual
/-- A value as it reads back from the text `JSON.stringify` writes. -/
def Json.wire : Json → Json
  | .num x => wireNum x
  | .arr xs => .arr (wireElems xs)
  | .obj kvs => .obj (wireMembers kvs)
  | v => v
/-- Serialisation of array elements. -/
def wireElems : List Json → List Json
  | [] => []
  | x :: rest => x.wire :: wireElems rest
/-- Serialisation of object members. -/
def wireMembers : List (String × Json) → List (String × Json)
  | [] => []
  | (k, v) :: rest => (k, v.wire) :: wireMembers rest
end

/-- The response body of `res.json(reading)`: the six members in the order of
the object literal. -/
def Reading.toJson (r : Reading) : Json :=
  .obj [("deviceId", r.deviceId.wire), ("voltage", wireNum r.voltage),
        ("current", wireNum r.current), ("power", wireNum r.power),
        ("rawAdc", wireNum r.rawAdc), ("timestamp", r.timestamp.wire)]

/-! ## The handlers -/

/-- The fixed default device identifier. -/
def defaultDeviceId : String := "esp32_1"

/-- What a handler call ends with: a body sent with `res.json`, or an
exception thrown out of the handler (no `res.json` is reached). -/
inductive Outcome where
  | sent (body : Json)
  | threw
  deriving DecidableEq

/-- The body of `res.json({ ok: true })`. -/
def okBody : Json := .obj [("ok", .bool true)]

/-- The destructuring default of line 25: `deviceId = 'esp32_1'` applies when
the member is missing (`undefined`), and only then. -/
def bodyDeviceId (body : List (String × Json)) : Json :=
  match getField "deviceId" body with
  | some v => v
  | none => .str defaultDeviceId

/-- The expression `timestamp || Date.now()` of line 34; `now` is the value of
`Date.now()`, in milliseconds. -/
def pickTimestamp (now : Nat) : Option Json → Json
  | some t => if t.truthy then t else .num (.fin now)
  | none => .num (.fin now)

/-- The object literal of lines 28 to 35, when none of the four conversions
throws. -/
def buildReading (now : Nat) (body : List (String × Json)) : Option Reading :=
  match parseFloatArg (getField "voltage" body), parseFloatArg (getField "current" body),
        parseFloatArg (getField "power" body), parseIntArg (getField "rawAdc" body) with
  | some v, some c, some p, some a =>
    some { deviceId := bodyDeviceId body
           voltage := v.orZero
           current := c.orZero
           power := p.orZero
           rawAdc := a.orZero
           timestamp := pickTimestamp now (getField "timestamp" body) }
  | _, _, _, _ => none

/-- The handler `app.post('/readings')` on a JSON object body: build the
reading, `latestReadings.set(deviceId, reading)`, log (the template literal
converts `deviceId` to text, which may throw), then `res.json({ ok: true })`. -/
def postReadings (now : Nat) (body : List (String × Json)) (st : Store) : Store × Outcome :=
  match buildReading now body with
  | none => (st, .threw)
  | some r =>
    let st' : Store :=
      { latestReadings := mapSet (keyOf st.nextRef r.deviceId) r st.latestReadings
        nextRef := if r.deviceId.isRef then st.nextRef + 1 else st.nextRef }
    match r.deviceId.toStr with
    | none => (st', .threw)
    | some _ => (st', .sent okBody)

/-- The expression `req.query.deviceId || 'esp32_1'` of line 44, for a query
parameter that is absent or a string. -/
def queryDeviceId : Option String → String
  | some s => if s ≠ "" then s else defaultDeviceId
  | none => defaultDeviceId

/-- The handler `app.get('/latest')`: the stored reading of the device as
JSON, or the empty object. -/
def getLatest (query : Option String) (st : Store) : Store × Json :=
  match mapGet (.str (queryDeviceId query)) st.latestReadings with
  | some r => (st, r.toJson)
  | none => (st, .obj [])

/-- One request to the service. -/
inductive Request where
  | post (now : Nat) (body : List (String × Json))
  | get (query : Option String)

/-- The store after one request. -/
def step (st : Store) : Request → Store
  | .post now body => (postReadings now body st).1
  | .get query => (getLatest query st).1

/-- The store after a sequence of requests, oldest first. -/
def run (st : Store) (reqs : List Request) : Store :=
  reqs.foldl step st

/-- The responses of `n` consecutive `GET /latest` calls with the same query,
and the store after them. -/
def getRepeated (query : Option String) : Nat → Store → Store × List Json
  | 0, st => (st, [])
  | n + 1, st =>
    let first := getLatest query st
    let others := getRepeated query n first.1
    (others.1, first.2 :: others.2)

/-! ## The dashboard script: arithmetic and number formatting -/

/-- The comparison `val >= c` against a numeric literal `c`: false for NaN. -/
def JSNum.ge (x : JSNum) (c : ℚ) : Bool :=
  match x with
  | .nan => false
  | .inf neg => !neg
  | .fin q => decide (c ≤ q)

/-- The quotient `val / c` by a positive numeric literal `c`, rounded to
binary64. -/
def JSNum.divBy (x : JSNum) (c : ℚ) : JSNum :=
  match x with
  | .nan => .nan
  | .inf neg => .inf neg
  | .fin q => roundDouble (q / c)

/-- The integer nearest to `x * 10 ^ fd` for `x ≥ 0`, the larger one on a
tie. -/
def nearestScaled (fd : Nat) (x : ℚ) : Nat :=
  (x * 10 ^ fd + 1 / 2).floor.toNat

/-- The digits of `n` with a point before the last `fd` of them, padded with
leading zeros to at least `fd + 1` digits. -/
def fixedDigits (fd : Nat) (n : Nat) : List Char :=
  let m := natDigits n
  let padded := List.replicate (fd + 1 - m.length) '0' ++ m
  if fd = 0 then padded
  else padded.take (padded.length - fd) ++ '.' :: padded.drop (padded.length - fd)

/-- The method `Number.prototype.toFixed(fd)`: the text of a non-finite number
or of a number of magnitude `10 ^ 21` or more is that of `Number::toString`;
otherwise the nearest multiple of `10 ^ (-fd)` is written with `fd` digits
after the point, with a minus sign when the number is negative. -/
def toFixed (fd : Nat) : JSNum → List Char
  | .fin q =>
    if (10 : ℚ) ^ 21 ≤ |q| then numToString (.fin q)
    else if q < 0 then '-' :: fixedDigits fd (nearestScaled fd (-q))
    else fixedDigits fd (nearestScaled fd q)
  | x => numToString x

/-- Removes trailing white space. -/
def trimEnd (cs : List Char) : List Char := (trimStart cs.reverse).reverse

/-- What follows an `ExponentPart` at the head of the text; the text itself
when there is none. -/
def afterExponent : List Char → List Char
  | c :: cs =>
    if c = 'e' ∨ c = 'E' then
      let ds := spanDigits (takeSign cs).2
      if ds.1 = [] then c :: cs else ds.2
    else c :: cs
  | [] => []

/-- What follows the longest `StrDecimalLiteral` at the head of the text;
`none` when the text does not start with one. -/
def afterDecimalLiteral (cs : List Char) : Option (List Char) :=
  let s := takeSign cs
  if startsInfinity s.2 then some (s.2.drop 8)
  else
    let ip := spanDigits s.2
    let fp : List Char × List Char :=
      match ip.2 with
      | '.' :: r => spanDigits r
      | r => ([], r)
    if ip.1 = [] ∧ fp.1 = [] then none
    else some (afterExponent fp.2)

/-- The value of a digit in the radix `r` (at most 16), if `c` is one. -/
def radixDigit? (r : Nat) (c : Char) : Option Nat :=
  match hexDigit? c with
  | some d => if d < r then some d else none
  | none => none

/-- The value of a non-empty run of digits of radix `r` that makes up the
whole text, given the value read so far. -/
def readRadix (r : Nat) : List Char → Nat → Option Nat
  | [], _ => none
  | [c], acc => (radixDigit? r c).map (fun d => acc * r + d)
  | c :: d :: rest, acc =>
    match radixDigit? r c with
    | some v => readRadix r (d :: rest) (acc * r + v)
    | none => none

/-- The value of a `NonDecimalIntegerLiteral` that makes up the whole text:
`0x`, `0o` or `0b` (in either case) followed by digits of that radix. -/
def nonDecimalLiteral : List Char → Option Nat
  | '0' :: x :: rest =>
    if x = 'x' ∨ x = 'X' then readRadix 16 rest 0
    else if x = 'o' ∨ x = 'O' then readRadix 8 rest 0
    else if x = 'b' ∨ x = 'B' then readRadix 2 rest 0
    else none
  | _ => none

/-- The operation `StringToNumber`: white space is trimmed at both ends; the
empty text is `0`; a text that is a `StrDecimalLiteral` as a whole has its
decimal value, one that is a `NonDecimalIntegerLiteral` its integer value;
any other text is `NaN`. -/
def stringToNumber (cs : List Char) : JSNum :=
  let t := trimEnd (trimStart cs)
  if t = [] then .fin 0
  else
    match afterDecimalLiteral t with
    | some [] => parseFloatChars t
    | _ =>
      match nonDecimalLiteral t with
      | some n => roundDouble (n : ℚ)
      | none => .nan

/-- The operation `ToNumber` on a parsed value; `none` stands for the
`TypeError` thrown when an array or object cannot be converted to a
primitive (the same values on which `ToString` throws). -/
def Json.toNumber : Json → Option JSNum
  | .null => some (.fin 0)
  | .bool true => some (.fin 1)
  | .bool false => some (.fin 0)
  | .num x => some x
  | .str s => some (stringToNumber s.toList)
  | .arr xs => ((Json.arr xs).toStr).map stringToNumber
  | .obj kvs => ((Json.obj kvs).toStr).map stringToNumber

/-! ## The dashboard script: `formatUnit` and `updateDashboard` -/

/-- The `switch (type)` of `formatUnit` (lines 342 to 373): the scaled value
and the unit for a quantity type; an unknown type leaves the value as it is
and the unit empty. -/
def scaleUnit (type : String) (val : JSNum) : JSNum × String :=
  if type = "power" then
    if val.ge 1000 then (val.divBy 1000, "kW") else (val, "W")
  else if type = "current" then
    if val.ge 1000 then (val.divBy 1000, "A") else (val, "mA")
  else if type = "voltage" then (val, "V")
  else if type = "energy" then
    if val.ge 1000000 then (val.divBy 1000000, "kWh")
    else if val.ge 1000 then (val.divBy 1000, "Wh")
    else (val, "mWh")
  else (val, "")

/-- The helper `formatUnit(value, type)` of lines 336 to 375; `value` is
`none` for `undefined`, and the result is `none` when `isNaN(value)` throws.
The result pairs the `value` string with the `unit`. -/
def formatUnit (value : Option Json) (type : String) : Option (String × String) :=
  match value with
  | none => some ("0.0", "")
  | some .null => some ("0.0", "")
  | some v =>
    match v.toNumber, v.toStr with
    | some x, some t =>
      if x = .nan then some ("0.0", "")
      else
        let r := scaleUnit type (parseFloatChars t)
        some (String.mk (toFixed 1 r.1), r.2)
    | _, _ => none

/-- The expression `a || b` on two values that may be `undefined`. -/
def orElse (a b : Option Json) : Option Json :=
  match a with
  | some v => if v.truthy then some v else b
  | none => b

/-- The `data` object passed to `updateDashboard`: the five properties the
function reads, each `none` when `undefined`. -/
structure DashboardData where
  totalCurrent : Option Json
  totalPower : Option Json
  voltage : Option Json
  lineVoltage : Option Json
  todayEnergy : Option Json

/-- The element with id `connection-status`: its text and its class. -/
structure StatusEl where
  textContent : String
  className : String
  deriving DecidableEq

/-- The part of the page the script writes to: for each element id, the
`textContent` of the element, or `none` when the page has no such element.
The `last-updated` element, which only receives a locale-formatted clock
time, is left out. -/
structure Page where
  connectionStatus : Option StatusEl
  totalPower : Option String
  totalCurrent : Option String
  lineVoltage : Option String
  todayEnergy : Option String
  totalPowerLabel : Option String
  totalCurrentLabel : Option String
  lineVoltageLabel : Option String
  todayEnergyLabel : Option String
  deriving DecidableEq

/-- Assigns to `textContent` of an element that may be missing (the guard
`if (label) label.textContent = ...`). -/
def setText (el : Option String) (text : String) : Option String :=
  el.map (fun _ => text)

/-- Lines 377 to 381: the total-power widget. `none` when `formatUnit` throws. -/
def showPower (data : DashboardData) (p : Page) : Option Page :=
  if p.totalPower.isSome ∧ data.totalPower.isSome then
    match formatUnit data.totalPower "power" with
    | none => none
    | some r =>
      some { p with totalPower := some r.1
                    totalPowerLabel := setText p.totalPowerLabel ("Total Power (" ++ r.2 ++ ")") }
  else some p

/-- Lines 383 to 387: the total-current widget. -/
def showCurrent (data : DashboardData) (p : Page) : Option Page :=
  if p.totalCurrent.isSome ∧ data.totalCurrent.isSome then
    match formatUnit data.totalCurrent "current" with
    | none => none
    | some r =>
      some { p with totalCurrent := some r.1
                    totalCurrentLabel :=
                      setText p.totalCurrentLabel ("Total Current (" ++ r.2 ++ ")") }
  else some p

/-- Lines 389 to 397: the line-voltage widget, written with two decimals when
`parseFloat(data.voltage || data.lineVoltage)` is not NaN. -/
def showVoltage (data : DashboardData) (p : Page) : Option Page :=
  if p.lineVoltage.isSome ∧ (data.lineVoltage.isSome ∨ data.voltage.isSome) then
    match parseFloatArg (orElse data.voltage data.lineVoltage) with
    | none => none
    | some voltageValue =>
      if voltageValue = .nan then some p
      else
        some { p with lineVoltage := some (String.mk (toFixed 2 voltageValue))
                      lineVoltageLabel := setText p.lineVoltageLabel "Line Voltage (V)" }
  else some p

/-- Lines 399 to 403: the today-energy widget. -/
def showEnergy (data : DashboardData) (p : Page) : Option Page :=
  if p.todayEnergy.isSome ∧ data.todayEnergy.isSome then
    match formatUnit data.todayEnergy "energy" with
    | none => none
    | some r =>
      some { p with todayEnergy := some r.1
                    todayEnergyLabel :=
                      setText p.todayEnergyLabel ("Today\x27s Energy Usage (" ++ r.2 ++ ")") }
  else some p

/-- The function `updateDashboard(data)`: the four widgets in order.  The
result is the page as written so far and whether the function returned
(`true`) or threw (`false`); what was written before a throw stays. -/
def updateDashboard (data : DashboardData) (p : Page) : Page × Bool :=
  match showPower data p with
  | none => (p, false)
  | some p1 =>
    match showCurrent data p1 with
    | none => (p1, false)
    | some p2 =>
      match showVoltage data p2 with
      | none => (p2, false)
      | some p3 =>
        match showEnergy data p3 with
        | none => (p3, false)
        | some p4 => (p4, true)

/-! ## The dashboard script: connection status and polling -/

/-- The `connectionStatus` object of lines 12 to 16; `lastDataTimestamp` is
`null` or a time in milliseconds. -/
structure ConnectionStatus where
  connected : Bool
  usingESP32 : Bool
  lastDataTimestamp : Option Int
  deriving DecidableEq

/-- The state of the dashboard script: the connection status and the page. -/
structure Dashboard where
  status : ConnectionStatus
  page : Page
  deriving DecidableEq

/-- The staleness window of line 29, in milliseconds. -/
def stalenessWindow : Int := 10000

/-- The text shown while live. -/
def liveEl : StatusEl := ⟨"🟢 Live (ESP32)", "connection-status connected"⟩

/-- The text shown when live data went stale. -/
def disconnectedEl : StatusEl := ⟨"🔴 ESP32 Disconnected", "connection-status disconnected"⟩

/-- The text shown while offline. -/
def offlineEl : StatusEl := ⟨"🔴 Offline", "connection-status disconnected"⟩

/-- Lines 25 to 27: `lastDataTimestamp ? (now - lastDataTimestamp) : Infinity`;
`none` stands for `Infinity`.  A timestamp of `0` is falsy. -/
def timeSinceLastData (now : Int) : Option Int → Option Int
  | some t => if t ≠ 0 then some (now - t) else none
  | none => none

/-- The comparison `timeSinceLastData < 10000` of line 29. -/
def stillLive : Option Int → Bool
  | some d => decide (d < stalenessWindow)
  | none => false

/-- The function `updateConnectionStatus()`; `now` is the value `Date.now()`
returns if it is called.  Nothing happens when the page has no
`connection-status` element. -/
def updateConnectionStatus (now : Int) (s : Dashboard) : Dashboard :=
  match s.page.connectionStatus with
  | none => s
  | some _ =>
    if s.status.usingESP32 && s.status.connected then
      if stillLive (timeSinceLastData now s.status.lastDataTimestamp) then
        { s with page := { s.page with connectionStatus := some liveEl } }
      else
        { status := { s.status with usingESP32 := false, connected := false }
          page := { s.page with connectionStatus := some disconnectedEl } }
    else
      { s with page := { s.page with connectionStatus := some offlineEl } }

/-- How a poll of `GET /latest` ends: `fetch` rejects (network failure), or a
response arrives with a status code and a body that is JSON or is not
(`none`, on which `response.json()` rejects). -/
inductive Poll where
  | failed
  | answered (status : Nat) (body : Option Json)

/-- The condition of line 60: `data` is truthy, has a key, and one of
`voltage`, `current`, `power` is not `undefined`.  Only an object has such
properties. -/
def hasTelemetry : Json → Bool
  | .obj kvs =>
    (getField "voltage" kvs).isSome || (getField "current" kvs).isSome ||
      (getField "power" kvs).isSome
  | _ => false

/-- The expression `x || 0` on a property that may be `undefined`. -/
def orZeroValue (v : Option Json) : Json :=
  match v with
  | some w => if w.truthy then w else .num (.fin 0)
  | none => .num (.fin 0)

/-- The property `name` of the response `data`. -/
def dataField (name : String) : Json → Option Json
  | .obj kvs => getField name kvs
  | _ => none

/-- The `dashboardData` object of lines 62 to 68. -/
def dashboardData (data : Json) : DashboardData :=
  { totalCurrent := some (orZeroValue (dataField "current" data))
    totalPower := some (orZeroValue (dataField "power" data))
    voltage := some (orZeroValue (dataField "voltage" data))
    lineVoltage := some (orZeroValue (dataField "voltage" data))
    todayEnergy := some (.num (.fin 0)) }

/-- The two branches that end offline (lines 80 to 84 and 86 to 92): both
flags are cleared and the status is recomputed, which reads no clock. -/
def markOffline (s : Dashboard) : Dashboard :=
  updateConnectionStatus 0
    { s with status := { s.status with connected := false, usingESP32 := false } }

/-- The data the `try` block works on: the body of a response whose status is
in the range 200 to 299 and whose body is JSON; `none` when the block throws
before line 60. -/
def pollData : Poll → Option Json
  | .answered status (some data) => if 200 ≤ status ∧ status ≤ 299 then some data else none
  | _ => none

/-- The function `fetchLatestReading`, from the moment the poll has ended:
`receivedAt` is the time of `new Date()` on line 72 and `checkedAt` the value
of `Date.now()` inside the `updateConnectionStatus()` of line 79.  Every
exception of the `try` block is caught, and the `catch` block throws none. -/
def fetchLatestReading (poll : Poll) (receivedAt checkedAt : Int) (s : Dashboard) : Dashboard :=
  match pollData poll with
  | none => markOffline s
  | some data =>
    if hasTelemetry data then
      match updateDashboard (dashboardData data) s.page with
      | (p, false) => markOffline { s with page := p }
      | (p, true) =>
        updateConnectionStatus checkedAt
          { status := { connected := true, usingESP32 := true,
                        lastDataTimestamp := some receivedAt }
            page := p }
    else markOffline s

/-- The value of `connectionStatus` when the script is loaded. -/
def ConnectionStatus.initial : ConnectionStatus := ⟨false, false, none⟩

/-- What happens to the dashboard, one event at a time: a recomputation of the
status (from the interval of line 105 or at page load) or the end of a poll. -/
inductive Event where
  | statusCheck (now : Int)
  | pollDone (poll : Poll) (receivedAt checkedAt : Int)

/-- The dashboard after one event. -/
def stepEvent (s : Dashboard) : Event → Dashboard
  | .statusCheck now => updateConnectionStatus now s
  | .pollDone poll receivedAt checkedAt => fetchLatestReading poll receivedAt checkedAt s

/-- The dashboard after a sequence of events, oldest first. -/
def runEvents (s : Dashboard) (events : List Event) : Dashboard :=
  events.foldl stepEvent s

/-! ## Notions used to state the properties -/

mutual
/-- Whether `ToString` succeeds on a value by its shape: no object with a
member named `toString` is met, directly or through arrays (`null` elements
of an array are skipped by `join`, objects nested inside objects are never
visited). -/
def Json.textual : Json → Bool
  | .arr xs => allTextual xs
  | .obj kvs => (getField "toString" kvs).isNone
  | _ => true
/-- Whether every element of an array is textual. -/
def allTextual : List Json → Bool
  | [] => true
  | x :: rest => x.textual && allTextual rest
end

/-- Textuality of a field that may be missing. -/
def argTextual : Option Json → Bool
  | none => true
  | some v => v.textual

/-- Whether a text is numeric in the lenient sense of the coercion policy:
after leading white space and an optional sign it starts with a decimal
digit, with a point followed by a digit, or with the word `Infinity`. -/
def startsNumeric (cs : List Char) : Bool :=
  match (takeSign (trimStart cs)).2 with
  | [] => false
  | c :: rest =>
    isDecDigit c || startsInfinity (c :: rest) ||
      (c == '.' && (match rest with
        | d :: _ => isDecDigit d
        | [] => false))

/-- The fields the coercion policy calls missing or non-numeric: a missing
field, `null`, a boolean, a string or an array whose text is not numeric, and
an object (whose text is `[object Object]`).  Numbers are numeric. -/
def nonNumeric : Option Json → Bool
  | none => true
  | some .null => true
  | some (.bool _) => true
  | some (.num _) => false
  | some (.str s) => !startsNumeric s.toList
  | some (.arr xs) =>
    match (Json.arr xs).toStr with
    | some t => !startsNumeric t
    | none => false
  | some (.obj kvs) => (getField "toString" kvs).isNone

/-- The number a run of decimal digits denotes, by positional notation. -/
def numeralValue : List Char → Nat
  | [] => 0
  | c :: cs => (c.toNat - 48) * 10 ^ cs.length + numeralValue cs

/-- A decimal-number string: an optional minus sign, a run of integer digits
and, after a point, a run of fraction digits (`fp` is empty when the string
has no point). -/
structure Decimal where
  neg : Bool
  ip : List Char
  fp : List Char

/-- The integer part is a non-empty run of digits and the fraction part is a
run of digits. -/
def Decimal.wellFormed (d : Decimal) : Bool :=
  !d.ip.isEmpty && d.ip.all isDecDigit && d.fp.all isDecDigit

/-- The characters of the string. -/
def Decimal.chars (d : Decimal) : List Char :=
  (if d.neg then ['-'] else []) ++ (d.ip ++ (if d.fp.isEmpty then [] else '.' :: d.fp))

/-- The string itself. -/
def Decimal.text (d : Decimal) : String := String.mk d.chars

/-- The rational number the string denotes. -/
def Decimal.value (d : Decimal) : ℚ :=
  if d.neg then -((numeralValue d.ip : ℚ) + (numeralValue d.fp : ℚ) / 10 ^ d.fp.length)
  else (numeralValue d.ip : ℚ) + (numeralValue d.fp : ℚ) / 10 ^ d.fp.length

/-- The JavaScript number the string denotes: the binary64 value nearest to
its rational value. -/
def Decimal.number (d : Decimal) : JSNum := roundDouble d.value

/-- Whether a field has no leading integer digits for `parseInt`: it is
missing, or its text, after leading white space and an optional sign, does not
start with a decimal digit. -/
def noLeadingDigit (v : Option Json) : Bool :=
  match v with
  | none => true
  | some w =>
    match w.toStr with
    | none => false
    | some t =>
      match (takeSign (trimStart t)).2 with
      | [] => true
      | c :: _ => !isDecDigit c

/-- A text that starts with an integer numeral in base ten: white space `ws`,
a sign `sg` (nothing, `+` or `-`), a non-empty run of digits `ds`, and a rest
that does not continue the digits and does not make `ds` the `0` of a `0x`
prefix. -/
def LeadingDecimal (ws sg ds rest : List Char) : Prop :=
  (∀ c ∈ ws, isJsSpace c = true) ∧ (sg = [] ∨ sg = ['+'] ∨ sg = ['-']) ∧
  ds ≠ [] ∧ (∀ c ∈ ds, isDecDigit c = true) ∧
  (∀ c tl, rest = c :: tl → isDecDigit c = false) ∧
  ¬ (ds = ['0'] ∧ ∃ x tl, rest = x :: tl ∧ (x = 'x' ∨ x = 'X'))

/-- A poll that brings no data: it failed, was answered outside the status
range 200 to 299 or with a body that is not JSON, or its body is the empty
object or any value without `voltage`, `current` and `power`. -/
def noDataPoll (poll : Poll) : Bool :=
  match pollData poll with
  | some data => !hasTelemetry data
  | none => true

/-- An event that brings no data: a status recomputation or the end of a poll
without data. -/
def Event.bringsNoData : Event → Bool
  | .statusCheck _ => true
  | .pollDone poll _ _ => noDataPoll poll

/-- Two poll responses that differ at most in their `timestamp` member: two
objects with the same value (or absence) for every other key, or two equal
values. -/
def sameExceptTimestamp (a b : Json) : Prop :=
  match a, b with
  | .obj k1, .obj k2 => ∀ name : String, name ≠ "timestamp" → getField name k1 = getField name k2
  | _, _ => a = b

/-- The text `s` is a decimal numeral with exactly `fd` digits after the
point, and no multiple of `10 ^ (-fd)` is nearer to `x` than the number it
denotes: `x` rounded to `fd` decimal places. -/
def RoundsTo (fd : Nat) (x : ℚ) (s : List Char) : Prop :=
  ∃ d : Decimal, d.wellFormed = true ∧ d.fp.length = fd ∧ s = d.chars ∧
    ∀ m : ℤ, |d.value - x| ≤ |(m : ℚ) / 10 ^ fd - x|

/-- The text `s` is a decimal numeral with exactly `fd` digits after the
point. -/
def HasDecimals (fd : Nat) (s : List Char) : Prop :=
  ∃ d : Decimal, d.wellFormed = true ∧ d.fp.length = fd ∧ s = d.chars

/-- A finite number that `parseFloat` reads back from its own text.  Every
binary64 value does: `Number::toString` chooses digits that denote it. -/
def readsBack (q : ℚ) : Prop :=
  parseFloatChars (numToString (.fin q)) = .fin q

/-- An event whose receipt time, if it is the end of a poll, is a wall-clock
time after the epoch. -/
def Event.receivedAfterEpoch : Event → Bool
  | .statusCheck _ => true
  | .pollDone _ receivedAt _ => decide (0 < receivedAt)

/-! ## Lemmas on the store and the handlers -/

theorem mapGet_mapSet_same (k : Key) (r : Reading) (m : List (Key × Reading)) :
    mapGet k (mapSet k r m) = some r := by
  induction m with
  | nil => simp [mapSet, mapGet]
  | cons e rest ih =>
    obtain ⟨k', r'⟩ := e
    by_cases h : k' = k
    · simp [mapSet, mapGet, h]
    · simp [mapSet, mapGet, h, ih]

theorem mapGet_mapSet_other (k k' : Key) (r : Reading) (m : List (Key × Reading))
    (h : k' ≠ k) : mapGet k (mapSet k' r m) = mapGet k m := by
  induction m with
  | nil => simp [mapSet, mapGet, h]
  | cons e rest ih =>
    obtain ⟨k'', r''⟩ := e
    by_cases h1 : k'' = k'
    · subst h1
      simp [mapSet, mapGet, h]
    · simp only [mapSet, h1, if_false, mapGet, ih]

theorem keyOf_eq_str (n : Nat) (v : Json) (d : String) :
    keyOf n v = .str d ↔ v = .str d := by
  cases v <;> simp [keyOf]

theorem buildReading_deviceId {now : Nat} {body : List (String × Json)} {r : Reading}
    (h : buildReading now body = some r) : r.deviceId = bodyDeviceId body := by
  unfold buildReading at h
  split at h
  · simp only [Option.some.injEq] at h
    rw [← h]
  · exact absurd h (by simp)

theorem postReadings_of_none {now : Nat} {body : List (String × Json)} (st : Store)
    (h : buildReading now body = none) : postReadings now body st = (st, .threw) := by
  simp [postReadings, h]

theorem postReadings_entries {now : Nat} {body : List (String × Json)} {r : Reading}
    (st : Store) (h : buildReading now body = some r) :
    (postReadings now body st).1.latestReadings
      = mapSet (keyOf st.nextRef r.deviceId) r st.latestReadings := by
  simp only [postReadings, h]
  split <;> rfl

theorem postReadings_sent {now : Nat} {body : List (String × Json)} {st : Store} {j : Json}
    (h : (postReadings now body st).2 = .sent j) :
    ∃ r, buildReading now body = some r ∧ j = okBody ∧ r.deviceId.toStr ≠ none := by
  cases hb : buildReading now body with
  | none => rw [postReadings_of_none st hb] at h; exact absurd h (by simp)
  | some r =>
    refine ⟨r, rfl, ?_⟩
    simp only [postReadings, hb] at h
    split at h
    · exact absurd h (by simp)
    · rename_i t ht
      simp only [Outcome.sent.injEq] at h
      exact ⟨h.symm, by simp [ht]⟩

theorem getLatest_store (query : Option String) (st : Store) :
    (getLatest query st).1 = st := by
  unfold getLatest
  split <;> rfl

theorem queryDeviceId_some {d : String} (hd : d ≠ "") : queryDeviceId (some d) = d := by
  simp [queryDeviceId, hd]

/-- After a push with string device id `d` that built the reading `r`, the
entry of `d` is `r`. -/
theorem mapGet_after_post {now : Nat} {body : List (String × Json)} {r : Reading}
    (st : Store) (d : String) (h : buildReading now body = some r)
    (hd : bodyDeviceId body = .str d) :
    mapGet (.str d) (postReadings now body st).1.latestReadings = some r := by
  rw [postReadings_entries st h, buildReading_deviceId h, hd]
  exact mapGet_mapSet_same _ _ _

end EnergyMeter

namespace EnergyMeter

/-! ## Lemmas on sequences of requests -/

theorem step_absent (st : Store) (req : Request) (d : String)
    (h0 : mapGet (.str d) st.latestReadings = none)
    (hreq : ∀ now body, req = .post now body → bodyDeviceId body = .str d →
      buildReading now body = none) :
    mapGet (.str d) (step st req).latestReadings = none := by
  cases req with
  | get q => simpa [step, getLatest_store] using h0
  | post now body =>
    cases hb : buildReading now body with
    | none => simpa [step, postReadings_of_none st hb] using h0
    | some r =>
      have hne : bodyDeviceId body ≠ .str d := by
        intro he
        have := hreq now body rfl he
        rw [hb] at this
        exact absurd this (by simp)
      have hk : keyOf st.nextRef r.deviceId ≠ .str d := by
        rw [buildReading_deviceId hb]
        intro hk
        exact hne ((keyOf_eq_str _ _ _).1 hk)
      simp only [step]
      rw [postReadings_entries st hb, mapGet_mapSet_other _ _ _ _ hk]
      exact h0

theorem run_absent (reqs : List Request) (st : Store) (d : String)
    (h0 : mapGet (.str d) st.latestReadings = none)
    (hreq : ∀ now body, Request.post now body ∈ reqs → bodyDeviceId body = .str d →
      buildReading now body = none) :
    mapGet (.str d) (run st reqs).latestReadings = none := by
  induction reqs generalizing st with
  | nil => simpa [run] using h0
  | cons req rest ih =>
    have h1 : mapGet (.str d) (step st req).latestReadings = none :=
      step_absent st req d h0 (fun now body he => hreq now body (by simp [he]))
    have := ih (step st req) h1 (fun now body hm => hreq now body (by simp [hm]))
    simpa [run] using this

theorem step_present (st : Store) (req : Request) (k : Key)
    (h0 : mapGet k st.latestReadings ≠ none) : mapGet k (step st req).latestReadings ≠ none := by
  cases req with
  | get q => simpa [step, getLatest_store] using h0
  | post now body =>
    cases hb : buildReading now body with
    | none => simpa [step, postReadings_of_none st hb] using h0
    | some r =>
      simp only [step]
      rw [postReadings_entries st hb]
      by_cases hk : keyOf st.nextRef r.deviceId = k
      · rw [hk, mapGet_mapSet_same]
        simp
      · rw [mapGet_mapSet_other _ _ _ _ hk]
        exact h0

theorem run_present (reqs : List Request) (st : Store) (k : Key)
    (h0 : mapGet k st.latestReadings ≠ none) : mapGet k (run st reqs).latestReadings ≠ none := by
  induction reqs generalizing st with
  | nil => simpa [run] using h0
  | cons req rest ih =>
    have := ih (step st req) (step_present st req k h0)
    simpa [run] using this

theorem run_stored (reqs : List Request) (st : Store) (d : String)
    (h : ∃ now body, Request.post now body ∈ reqs ∧ bodyDeviceId body = .str d ∧
      buildReading now body ≠ none) :
    mapGet (.str d) (run st reqs).latestReadings ≠ none := by
  induction reqs generalizing st with
  | nil =>
    obtain ⟨now, body, hm, _⟩ := h
    exact absurd hm (by simp)
  | cons req rest ih =>
    obtain ⟨now, body, hm, hd, hb⟩ := h
    have hrun : run st (req :: rest) = run (step st req) rest := by simp [run]
    rw [hrun]
    rcases List.mem_cons.1 hm with he | hin
    · apply run_present
      rw [← he]
      cases hb' : buildReading now body with
      | none => exact absurd hb' hb
      | some r =>
        simp only [step]
        rw [mapGet_after_post st d hb' hd]
        simp
    · exact ih (step st req) ⟨now, body, hin, hd, hb⟩

theorem getRepeated_spec (query : Option String) (n : Nat) (st : Store) :
    getRepeated query n st = (st, List.replicate n (getLatest query st).2) := by
  induction n with
  | zero => rfl
  | succ n ih =>
    simp only [getRepeated, getLatest_store, ih, List.replicate_succ]

end EnergyMeter

namespace EnergyMeter

/-! ## Properties of the latest-reading store -/

/-- C1, last write wins.  For every store state, every non-empty string `d`
and every two bodies `P1`, `P2` whose `deviceId` is `d`: once `POST /readings`
has handled `P1` and then answered `P2` with `{ok: true}`, `GET /latest` for `d`
returns the JSON of the reading built from `P2` alone (its coerced fields at
the clock value of that push); nothing of `P1` or of the earlier store is in
it. -/
theorem last_write_wins (st : Store) (now1 now2 : Nat) (P1 P2 : List (String × Json))
    (d : String) (hd : d ≠ "")
    (h1 : getField "deviceId" P1 = some (.str d))
    (h2 : getField "deviceId" P2 = some (.str d))
    (hok : (postReadings now2 P2 (postReadings now1 P1 st).1).2 = .sent okBody) :
    ∃ r, buildReading now2 P2 = some r ∧ r.deviceId = .str d ∧
      (getLatest (some d) (postReadings now2 P2 (postReadings now1 P1 st).1).1).2
        = r.toJson := by
  have _ := h1
  obtain ⟨r, hr, _, _⟩ := postReadings_sent hok
  have hid : bodyDeviceId P2 = .str d := by simp [bodyDeviceId, h2]
  refine ⟨r, hr, by rw [buildReading_deviceId hr, hid], ?_⟩
  simp only [getLatest, queryDeviceId_some hd, mapGet_after_post _ d hr hid]

/-- Witness of C1: the second push omits every measurement that the first
one carried, and the read shows the defaults of the second push. -/
theorem last_write_wins_witness :
    ∃ r, buildReading 2000 [("deviceId", .str "m1")] = some r ∧ r.deviceId = .str "m1" ∧
      (getLatest (some "m1")
        (postReadings 2000 [("deviceId", .str "m1")]
          (postReadings 1000
            [("deviceId", .str "m1"), ("voltage", .num (.fin 5)), ("timestamp", .num (.fin 7))]
            Store.empty).1).1).2 = r.toJson :=
  last_write_wins Store.empty 1000 2000
    [("deviceId", .str "m1"), ("voltage", .num (.fin 5)), ("timestamp", .num (.fin 7))]
    [("deviceId", .str "m1")] "m1" (by decide) (by decide) (by decide) (by decide!)

/-- C2, absence is the empty object.  Let `d` be the device id a `GET /latest`
is for (its `deviceId` parameter, or `esp32_1` when that is missing or empty).
Start from any store state with no entry for `d` and run any sequence of
requests.  If no push with `deviceId` `d` was stored, the `GET` returns the
empty object `{}`; if some push with `deviceId` `d` was stored, it returns an
object with exactly the six members `deviceId`, `voltage`, `current`, `power`,
`rawAdc`, `timestamp`, the JSON of a stored reading. -/
theorem latest_absent_or_six_fields (st : Store) (reqs : List Request)
    (query : Option String)
    (h0 : mapGet (.str (queryDeviceId query)) st.latestReadings = none) :
    ((∀ now body, Request.post now body ∈ reqs →
        bodyDeviceId body = .str (queryDeviceId query) → buildReading now body = none) →
      (getLatest query (run st reqs)).2 = .obj []) ∧
    ((∃ now body, Request.post now body ∈ reqs ∧
        bodyDeviceId body = .str (queryDeviceId query) ∧ buildReading now body ≠ none) →
      ∃ r : Reading, (getLatest query (run st reqs)).2 =
        .obj [("deviceId", r.deviceId.wire), ("voltage", wireNum r.voltage),
              ("current", wireNum r.current), ("power", wireNum r.power),
              ("rawAdc", wireNum r.rawAdc), ("timestamp", r.timestamp.wire)]) := by
  constructor
  · intro h
    simp only [getLatest, run_absent reqs st _ h0 h]
  · intro h
    have hp := run_stored reqs st _ h
    cases hg : mapGet (.str (queryDeviceId query)) (run st reqs).latestReadings with
    | none => exact absurd hg hp
    | some r => exact ⟨r, by simp only [getLatest, hg, Reading.toJson]⟩

/-- Witness of C2: on the empty store, after a push for `m1` only, the device
`m2` reads as `{}` and the device `m1` reads as a six-member object. -/
theorem latest_absent_or_six_fields_witness :
    (getLatest (some "m2") (run Store.empty [.post 1000 [("deviceId", .str "m1")]])).2
        = .obj [] ∧
    ∃ r : Reading,
      (getLatest (some "m1") (run Store.empty [.post 1000 [("deviceId", .str "m1")]])).2 =
        .obj [("deviceId", r.deviceId.wire), ("voltage", wireNum r.voltage),
              ("current", wireNum r.current), ("power", wireNum r.power),
              ("rawAdc", wireNum r.rawAdc), ("timestamp", r.timestamp.wire)] :=
  ⟨(latest_absent_or_six_fields Store.empty [.post 1000 [("deviceId", .str "m1")]]
      (some "m2") (by decide)).1
      (fun now body hm hid => by
        simp only [List.mem_singleton, Request.post.injEq] at hm
        rw [hm.2] at hid
        exact absurd hid (by decide)),
   (latest_absent_or_six_fields Store.empty [.post 1000 [("deviceId", .str "m1")]]
      (some "m1") (by decide)).2
      ⟨1000, [("deviceId", .str "m1")], by simp, by decide, by decide!⟩⟩

end EnergyMeter

namespace EnergyMeter

/-! ## Conversions that throw, and the numeric defaults -/

theorem elemsToStr_cons_isSome (x : Json) (rest : List Json) :
    (elemsToStr (x :: rest)).isSome = (x.toStr.isSome && (elemsToStr rest).isSome) := by
  cases x <;> simp only [elemsToStr] <;>
    first
    | (cases elemsToStr rest <;> rfl)
    | (generalize Json.toStr _ = t; cases t <;> cases elemsToStr rest <;> rfl)

mutual
theorem toStr_isSome : ∀ v : Json, v.toStr.isSome = v.textual
  | .null => rfl
  | .bool true => rfl
  | .bool false => rfl
  | .num _ => rfl
  | .str _ => rfl
  | .arr xs => by
    have h := elemsToStr_isSome xs
    simp only [Json.toStr, Json.textual, Option.isSome_map, ← h]
    cases elemsToStr xs <;> rfl
  | .obj kvs => by
    simp only [Json.toStr, Json.textual]
    cases getField "toString" kvs <;> rfl
termination_by v => sizeOf v
theorem elemsToStr_isSome : ∀ xs : List Json, (elemsToStr xs).isSome = allTextual xs
  | [] => rfl
  | x :: rest => by
    have hx := toStr_isSome x
    have hr := elemsToStr_isSome rest
    rw [elemsToStr_cons_isSome, hx, hr, allTextual]
termination_by xs => sizeOf xs
end

theorem argToStr_isSome (v : Option Json) : (argToStr v).isSome = argTextual v := by
  cases v with
  | none => rfl
  | some w => exact toStr_isSome w

theorem parseFloatArg_of_textual {v : Option Json} (h : argTextual v = true) :
    ∃ x, parseFloatArg v = some x := by
  rw [← argToStr_isSome] at h
  obtain ⟨t, ht⟩ := Option.isSome_iff_exists.1 h
  exact ⟨parseFloatChars t, by simp [parseFloatArg, ht]⟩

theorem parseIntArg_of_textual {v : Option Json} (h : argTextual v = true) :
    ∃ x, parseIntArg v = some x := by
  rw [← argToStr_isSome] at h
  obtain ⟨t, ht⟩ := Option.isSome_iff_exists.1 h
  exact ⟨parseIntChars t, by simp [parseIntArg, ht]⟩

end EnergyMeter

namespace EnergyMeter

theorem spanDigits_of_not_digit (c : Char) (cs : List Char) (h : isDecDigit c = false) :
    spanDigits (c :: cs) = ([], c :: cs) := by
  simp [spanDigits, h]

theorem parseFloatChars_of_not_numeric (t : List Char) (h : startsNumeric t = false) :
    parseFloatChars t = .nan := by
  unfold startsNumeric at h
  unfold parseFloatChars
  generalize (takeSign (trimStart t)) = s at h ⊢
  obtain ⟨sg, body⟩ := s
  cases body with
  | nil => simp [startsInfinity, spanDigits]
  | cons c rest =>
    simp only [Bool.or_eq_false_iff, Bool.and_eq_false_iff] at h
    obtain ⟨⟨hdig, hinf⟩, hdot⟩ := h
    simp only [hinf, spanDigits_of_not_digit c rest hdig]
    by_cases hc : c = '.'
    · subst hc
      cases rest with
      | nil => simp [spanDigits]
      | cons d rr =>
        have hd : isDecDigit d = false := by simpa using hdot
        simp [spanDigits_of_not_digit d rr hd]
    · have : (match c :: rest with
          | '.' :: r => spanDigits r
          | r => ([], r)) = ([], c :: rest) := by
        split
        · rename_i heq
          simp only [List.cons.injEq] at heq
          exact absurd heq.1 hc
        · rfl
      simp [this]

theorem parseFloatArg_of_nonNumeric (v : Option Json) (h : nonNumeric v = true) :
    parseFloatArg v = some .nan := by
  unfold parseFloatArg
  match v, h with
  | none, _ => simp only [argToStr, Option.map_some']; congr 1
  | some .null, _ => simp only [argToStr, Json.toStr, Option.map_some']; congr 1
  | some (.bool true), _ => simp only [argToStr, Json.toStr, Option.map_some']; congr 1
  | some (.bool false), _ => simp only [argToStr, Json.toStr, Option.map_some']; congr 1
  | some (.str s), h =>
    simp only [nonNumeric, Bool.not_eq_true'] at h
    simp only [argToStr, Json.toStr, Option.map_some', parseFloatChars_of_not_numeric _ h]
  | some (.arr xs), h =>
    simp only [nonNumeric] at h
    simp only [argToStr]
    cases ht : (Json.arr xs).toStr with
    | none => rw [ht] at h; exact absurd h (by simp)
    | some t =>
      rw [ht] at h
      simp only [Bool.not_eq_true'] at h
      simp only [Option.map_some', parseFloatChars_of_not_numeric _ h]
  | some (.obj kvs), h =>
    simp only [nonNumeric, Option.isNone_iff_eq_none] at h
    simp only [argToStr, Json.toStr, h, Option.map_some']
    congr 1

theorem orZero_nan : JSNum.orZero .nan = .fin 0 := rfl

end EnergyMeter

namespace EnergyMeter

/-! ## Properties of `POST /readings` -/

/-- C3 as stated fails: a body whose `voltage` is an object with a member named
`toString` makes `parseFloat` throw, so nothing is stored and no `{ok: true}`
is sent; and a `deviceId` of that shape is stored, after which the log line
throws before the response. -/
theorem post_never_fails_counterexample :
    postReadings 1000 [("voltage", .obj [("toString", .num (.fin 1))])] Store.empty
        = (Store.empty, .threw) ∧
    (postReadings 1000 [("deviceId", .obj [("toString", .null)])] Store.empty).2
        = .threw := by
  constructor <;> decide!

/-- C3, amended.  For every JSON object body in which `voltage`, `current`,
`power`, `rawAdc` and `deviceId` are textual (missing, or a value in which no
object with a member named `toString` is met directly or through arrays),
whatever else the fields hold, the handler throws nothing, stores the reading
under the device key and responds `{ok: true}`. -/
theorem post_answers_ok_of_textual (now : Nat) (body : List (String × Json)) (st : Store)
    (hv : argTextual (getField "voltage" body) = true)
    (hc : argTextual (getField "current" body) = true)
    (hp : argTextual (getField "power" body) = true)
    (ha : argTextual (getField "rawAdc" body) = true)
    (hd : (bodyDeviceId body).textual = true) :
    (postReadings now body st).2 = .sent okBody ∧
    ∃ r, buildReading now body = some r ∧
      mapGet (keyOf st.nextRef (bodyDeviceId body)) (postReadings now body st).1.latestReadings
        = some r := by
  obtain ⟨v, hv'⟩ := parseFloatArg_of_textual hv
  obtain ⟨c, hc'⟩ := parseFloatArg_of_textual hc
  obtain ⟨p, hp'⟩ := parseFloatArg_of_textual hp
  obtain ⟨a, ha'⟩ := parseIntArg_of_textual ha
  have hb : ∃ r, buildReading now body = some r := by
    simp [buildReading, hv', hc', hp', ha']
  obtain ⟨r, hr⟩ := hb
  have hid := buildReading_deviceId hr
  rw [← toStr_isSome, ← hid] at hd
  obtain ⟨t, ht⟩ := Option.isSome_iff_exists.1 hd
  refine ⟨by simp [postReadings, hr, ht], r, hr, ?_⟩
  rw [postReadings_entries st hr, ← hid]
  exact mapGet_mapSet_same _ _ _

/-- Witness of C3, amended: a body mixing a missing field, `null`, a string,
a boolean, an array and a nested object. -/
theorem post_answers_ok_of_textual_witness :
    (postReadings 1000
        [("voltage", .null), ("current", .str "abc"), ("power", .arr [.bool true, .obj []]),
         ("timestamp", .obj [("toString", .null)])] Store.empty).2 = .sent okBody ∧
    ∃ r, buildReading 1000
        [("voltage", .null), ("current", .str "abc"), ("power", .arr [.bool true, .obj []]),
         ("timestamp", .obj [("toString", .null)])] = some r ∧
      mapGet (keyOf Store.empty.nextRef (bodyDeviceId
        [("voltage", .null), ("current", .str "abc"), ("power", .arr [.bool true, .obj []]),
         ("timestamp", .obj [("toString", .null)])]))
        (postReadings 1000
        [("voltage", .null), ("current", .str "abc"), ("power", .arr [.bool true, .obj []]),
         ("timestamp", .obj [("toString", .null)])] Store.empty).1.latestReadings = some r :=
  post_answers_ok_of_textual 1000
    [("voltage", .null), ("current", .str "abc"), ("power", .arr [.bool true, .obj []]),
     ("timestamp", .obj [("toString", .null)])] Store.empty
    (by decide) (by decide) (by decide) (by decide) (by decide)

/-- C4, coercion to zero.  In every reading built from a body, each of
`voltage`, `current` and `power` that is missing or non-numeric in the body
(`null`, a boolean, an object, a string or array whose text does not start
with a number) is the number `0`. -/
theorem non_numeric_stored_as_zero (now : Nat) (body : List (String × Json)) (r : Reading)
    (h : buildReading now body = some r) :
    (nonNumeric (getField "voltage" body) = true → r.voltage = .fin 0) ∧
    (nonNumeric (getField "current" body) = true → r.current = .fin 0) ∧
    (nonNumeric (getField "power" body) = true → r.power = .fin 0) := by
  unfold buildReading at h
  split at h
  · rename_i v c p a hv hc hp ha
    simp only [Option.some.injEq] at h
    subst h
    refine ⟨fun hn => ?_, fun hn => ?_, fun hn => ?_⟩
    · rw [parseFloatArg_of_nonNumeric _ hn] at hv
      simp only [Option.some.injEq] at hv
      simp only [← hv, orZero_nan]
    · rw [parseFloatArg_of_nonNumeric _ hn] at hc
      simp only [Option.some.injEq] at hc
      simp only [← hc, orZero_nan]
    · rw [parseFloatArg_of_nonNumeric _ hn] at hp
      simp only [Option.some.injEq] at hp
      simp only [← hp, orZero_nan]
  · exact absurd h (by simp)

/-- Witness of C4: pushing `{voltage: "abc", current: null, power: true}`
stores voltage, current and power `0`. -/
theorem non_numeric_stored_as_zero_witness :
    buildReading 1000 [("voltage", .str "abc"), ("current", .null), ("power", .bool true)]
      = some ⟨.str "esp32_1", .fin 0, .fin 0, .fin 0, .fin 0, .num (.fin 1000)⟩ ∧
    (⟨.str "esp32_1", .fin 0, .fin 0, .fin 0, .fin 0, .num (.fin 1000)⟩ : Reading).voltage
      = .fin 0 :=
  ⟨by decide!,
   (non_numeric_stored_as_zero 1000
      [("voltage", .str "abc"), ("current", .null), ("power", .bool true)]
      ⟨.str "esp32_1", .fin 0, .fin 0, .fin 0, .fin 0, .num (.fin 1000)⟩ (by decide!)).1
      (by decide)⟩

/-- C7 at the failing input: a push that supplies `timestamp: 0` (with the
server clock at 1700000000000) is stored with the server time, not with the
supplied `0`; a supplied `5` is kept and a missing timestamp gives the server
time. -/
theorem timestamp_zero_is_replaced :
    (buildReading 1700000000000 [("timestamp", .num (.fin 0))]).map Reading.timestamp
        = some (.num (.fin 1700000000000)) ∧
    (buildReading 1700000000000 [("timestamp", .num (.fin 5))]).map Reading.timestamp
        = some (.num (.fin 5)) ∧
    (buildReading 1700000000000 []).map Reading.timestamp
        = some (.num (.fin 1700000000000)) := by
  refine ⟨?_, ?_, ?_⟩ <;> decide!

/-- C8, the default device id end to end.  For every body without a `deviceId`
member that `POST /readings` answers, the reading built from it has
`deviceId` equal to `esp32_1`, is the entry of the key `esp32_1`, and is what a
following `GET /latest` without a `deviceId` parameter returns. -/
theorem default_device_id (now : Nat) (body : List (String × Json)) (st : Store)
    (h : getField "deviceId" body = none)
    (hok : (postReadings now body st).2 = .sent okBody) :
    ∃ r, buildReading now body = some r ∧ r.deviceId = .str "esp32_1" ∧
      mapGet (.str "esp32_1") (postReadings now body st).1.latestReadings = some r ∧
      (getLatest none (postReadings now body st).1).2 = r.toJson := by
  obtain ⟨r, hr, _, _⟩ := postReadings_sent hok
  have hid : bodyDeviceId body = .str "esp32_1" := by simp [bodyDeviceId, h, defaultDeviceId]
  have hget := mapGet_after_post st "esp32_1" hr hid
  refine ⟨r, hr, by rw [buildReading_deviceId hr, hid], hget, ?_⟩
  simp only [getLatest, queryDeviceId, defaultDeviceId, hget]

/-- Witness of C8: a body with a voltage only. -/
theorem default_device_id_witness :
    ∃ r, buildReading 1000 [("voltage", .num (.fin 5))] = some r ∧
      r.deviceId = .str "esp32_1" ∧
      mapGet (.str "esp32_1")
        (postReadings 1000 [("voltage", .num (.fin 5))] Store.empty).1.latestReadings = some r ∧
      (getLatest none (postReadings 1000 [("voltage", .num (.fin 5))] Store.empty).1).2
        = r.toJson :=
  default_device_id 1000 [("voltage", .num (.fin 5))] Store.empty (by decide) (by decide!)

/-- C9 as stated fails: a reading pushed with the empty string as `deviceId`,
or with the number `5`, is stored and answered, yet `GET /latest?deviceId=`
and `GET /latest?deviceId=5` return the empty object. -/
theorem push_then_get_counterexample :
    (postReadings 1000 [("deviceId", .str ""), ("voltage", .num (.fin 5))] Store.empty).2
        = .sent okBody ∧
    (getLatest (some "")
      (postReadings 1000 [("deviceId", .str ""), ("voltage", .num (.fin 5))] Store.empty).1).2
        = .obj [] ∧
    (postReadings 1000 [("deviceId", .num (.fin 5)), ("voltage", .num (.fin 5))]
      Store.empty).2 = .sent okBody ∧
    (getLatest (some "5")
      (postReadings 1000 [("deviceId", .num (.fin 5)), ("voltage", .num (.fin 5))]
        Store.empty).1).2 = .obj [] := by
  refine ⟨?_, ?_, ?_, ?_⟩ <;> decide!

/-- C9, amended.  For every store state and every non-empty string `d`: after
`POST /readings` has answered a body whose `deviceId` is `d`, a following
`GET /latest?deviceId=d` returns the JSON of the reading just built from that
body. -/
theorem push_then_get (now : Nat) (body : List (String × Json)) (st : Store) (d : String)
    (hd : d ≠ "") (h : getField "deviceId" body = some (.str d))
    (hok : (postReadings now body st).2 = .sent okBody) :
    ∃ r, buildReading now body = some r ∧
      (getLatest (some d) (postReadings now body st).1).2 = r.toJson := by
  obtain ⟨r, hr, _, _⟩ := postReadings_sent hok
  have hid : bodyDeviceId body = .str d := by simp [bodyDeviceId, h]
  refine ⟨r, hr, ?_⟩
  simp only [getLatest, queryDeviceId_some hd, mapGet_after_post st d hr hid]

/-- Witness of C9, amended. -/
theorem push_then_get_witness :
    ∃ r, buildReading 1000 [("deviceId", .str "m1"), ("voltage", .num (.fin 5))] = some r ∧
      (getLatest (some "m1")
        (postReadings 1000 [("deviceId", .str "m1"), ("voltage", .num (.fin 5))]
          Store.empty).1).2 = r.toJson :=
  push_then_get 1000 [("deviceId", .str "m1"), ("voltage", .num (.fin 5))] Store.empty "m1"
    (by decide) (by decide) (by decide!)

/-- C10, reads are idempotent.  For every store state and every query,
`GET /latest` leaves the store as it was, and `n` consecutive calls leave the
store as it was and return `n` times the same response. -/
theorem reads_idempotent (st : Store) (query : Option String) (n : Nat) :
    (getLatest query st).1 = st ∧
    getRepeated query n st = (st, List.replicate n (getLatest query st).2) :=
  ⟨getLatest_store query st, getRepeated_spec query n st⟩

end EnergyMeter

namespace EnergyMeter

/-! ## Lemmas on binary64 rounding -/

theorem roundDouble_ne_nan (q : ℚ) : roundDouble q ≠ .nan := by
  unfold roundDouble
  dsimp only
  split_ifs <;> simp

theorem roundHalfEven_one (n : Nat) : roundHalfEven n 1 = n := by
  simp [roundHalfEven, Nat.mod_one]

theorem bitLenAux_le (fuel : Nat) : ∀ n k : Nat, n < 2 ^ k → bitLenAux fuel n ≤ k := by
  induction fuel with
  | zero => intro n k _; simp [bitLenAux]
  | succ f ih =>
    intro n k h
    unfold bitLenAux
    split_ifs with h0
    · exact Nat.zero_le _
    · cases k with
      | zero => simp at h; exact absurd h h0
      | succ k =>
        have : n / 2 < 2 ^ k := by
          rw [Nat.div_lt_iff_lt_mul (by norm_num)]
          rw [pow_succ] at h
          exact h
        have := ih (n / 2) k this
        omega

theorem binade_one_le (n : Nat) (h : n < 2 ^ 53) : binade n 1 ≤ 52 := by
  have hb : bitLen n ≤ 53 := bitLenAux_le n n 53 h
  have h1 : bitLen 1 = 1 := by decide
  unfold binade
  simp only [h1]
  split_ifs <;> omega

/-- The finite result of rounding an integer, as an integer. -/
theorem mkRat_round_int (s : ℤ) (n : Nat) (p : ℤ) :
    ∃ w : ℤ, mkRat (s * ((roundHalfEven (n * 2 ^ (-p).toNat) (1 * 2 ^ p.toNat)
      * 2 ^ p.toNat : Nat) : ℤ)) (2 ^ (-p).toNat) = (w : ℚ) ∧ (p ≤ 0 → w = s * n) := by
  rcases lt_or_le 0 p with hp | hp
  · have : (-p).toNat = 0 := by omega
    rw [this, pow_zero, Rat.mkRat_one]
    exact ⟨_, rfl, fun h => by omega⟩
  · have : p.toNat = 0 := by omega
    rw [this, pow_zero, Nat.mul_one, Nat.mul_one, roundHalfEven_one]
    refine ⟨s * (n : ℤ), ?_, fun _ => rfl⟩
    have hk : (2 ^ (-p).toNat : Nat) ≠ 0 := (pow_pos (by norm_num) _).ne'
    have key := Rat.mkRat_mul_right (n := s * (n : ℤ)) (d := 1) hk
    rw [Nat.one_mul, Rat.mkRat_one] at key
    rw [Nat.cast_mul, ← mul_assoc, key]

/-- Rounding an integer gives an infinity or an integer. -/
theorem roundDouble_int (z : ℤ) :
    (∃ b, roundDouble (z : ℚ) = .inf b) ∨ ∃ w : ℤ, roundDouble (z : ℚ) = .fin (w : ℚ) := by
  unfold roundDouble
  dsimp only
  split_ifs with h0 hov
  · exact Or.inr ⟨0, by simp⟩
  · exact Or.inl ⟨_, rfl⟩
  · right
    simp only [Rat.intCast_num, Rat.intCast_den]
    obtain ⟨w, hw, _⟩ := mkRat_round_int z.sign z.natAbs (max (binade z.natAbs 1) (-1022) - 52)
    exact ⟨w, by rw [hw]⟩

/-- Integers below `2 ^ 53` in magnitude are binary64 values. -/
theorem roundDouble_int_exact (z : ℤ) (h : z.natAbs < 2 ^ 53) :
    roundDouble (z : ℚ) = .fin (z : ℚ) := by
  have hb := binade_one_le z.natAbs h
  unfold roundDouble
  dsimp only
  split_ifs with h0 hov
  · simp [h0]
  · exfalso
    simp only [Rat.intCast_num, Rat.intCast_den] at hov
    omega
  · simp only [Rat.intCast_num, Rat.intCast_den]
    obtain ⟨w, hw, hw'⟩ := mkRat_round_int z.sign z.natAbs (max (binade z.natAbs 1) (-1022) - 52)
    rw [hw, hw' (by omega), Int.sign_mul_natAbs]

/-! ## Lemmas on the scanners -/

theorem not_space_of_digit {c : Char} (h : isDecDigit c = true) : isJsSpace c = false := by
  simp only [isDecDigit, Bool.and_eq_true, decide_eq_true_eq] at h
  simp only [isJsSpace, Bool.or_eq_false_iff, Bool.and_eq_false_iff, decide_eq_false_iff_not]
  omega

theorem digit_ne {c : Char} (h : isDecDigit c = true) :
    c ≠ '-' ∧ c ≠ '+' ∧ c ≠ '.' ∧ c ≠ 'I' ∧ c ≠ 'x' ∧ c ≠ 'X' := by
  refine ⟨?_, ?_, ?_, ?_, ?_, ?_⟩ <;> (intro he; subst he; exact absurd h (by decide))

theorem trimStart_cons {c : Char} (cs : List Char) (h : isJsSpace c = false) :
    trimStart (c :: cs) = c :: cs := by
  simp [trimStart, h]

theorem trimStart_append (ws t : List Char) (hws : ∀ c ∈ ws, isJsSpace c = true)
    (ht : ∀ c tl, t = c :: tl → isJsSpace c = false) : trimStart (ws ++ t) = t := by
  induction ws with
  | nil =>
    cases t with
    | nil => rfl
    | cons c tl => exact trimStart_cons tl (ht c tl rfl)
  | cons w ws ih =>
    have hw : isJsSpace w = true := hws w (by simp)
    simp only [List.cons_append, trimStart, hw, if_true]
    exact ih (fun c hc => hws c (by simp [hc]))

theorem takeSign_digit {c : Char} (cs : List Char) (h : isDecDigit c = true) :
    takeSign (c :: cs) = (false, c :: cs) := by
  obtain ⟨h1, h2, _⟩ := digit_ne h
  unfold takeSign
  split
  · rename_i heq; simp only [List.cons.injEq] at heq; exact absurd heq.1 h1
  · rename_i heq; simp only [List.cons.injEq] at heq; exact absurd heq.1 h2
  · rfl

theorem startsInfinity_digit {c : Char} (cs : List Char) (h : isDecDigit c = true) :
    startsInfinity (c :: cs) = false := by
  obtain ⟨_, _, _, h4, _⟩ := digit_ne h
  unfold startsInfinity
  split
  · rename_i heq; simp only [List.cons.injEq] at heq; exact absurd heq.1 h4
  · rfl

theorem spanDigits_append (ds rest : List Char) (hds : ∀ c ∈ ds, isDecDigit c = true)
    (hrest : ∀ c tl, rest = c :: tl → isDecDigit c = false) :
    spanDigits (ds ++ rest) = (ds, rest) := by
  induction ds with
  | nil =>
    cases rest with
    | nil => rfl
    | cons c tl => exact spanDigits_of_not_digit c tl (hrest c tl rfl)
  | cons d ds ih =>
    have hd : isDecDigit d = true := hds d (by simp)
    have := ih (fun c hc => hds c (by simp [hc]))
    simp [spanDigits, hd, this]

theorem digitsValue_eq (ds : List Char) :
    ∀ acc, digitsValue ds acc = acc * 10 ^ ds.length + numeralValue ds := by
  induction ds with
  | nil =>
    intro acc
    simp only [digitsValue, numeralValue, List.length_nil, pow_zero, Nat.mul_one, Nat.add_zero]
  | cons c cs ih =>
    intro acc
    simp only [digitsValue, ih, numeralValue, List.length_cons, pow_succ]
    ring

theorem digitsValue_zero (ds : List Char) : digitsValue ds 0 = numeralValue ds := by
  rw [digitsValue_eq, Nat.zero_mul, Nat.zero_add]

theorem numeralValue_append (a b : List Char) :
    numeralValue (a ++ b) = numeralValue a * 10 ^ b.length + numeralValue b := by
  induction a with
  | nil => simp only [List.nil_append, numeralValue, Nat.zero_mul, Nat.zero_add]
  | cons c cs ih =>
    rw [List.cons_append]
    simp only [numeralValue, ih, List.length_append, pow_add]
    ring

theorem scale10_neg_length (m L : Nat) :
    scale10 m (0 - (L : Int)) = (m : ℚ) / 10 ^ L := by
  unfold scale10
  have h1 : (0 - (L : Int)).toNat = 0 := by omega
  have h2 : (-(0 - (L : Int))).toNat = L := by omega
  rw [h1, h2, pow_zero, Nat.mul_one, Rat.mkRat_eq_div]
  push_cast
  rfl

theorem decimal_fraction_scan (fp : List Char) (hfp : ∀ c ∈ fp, isDecDigit c = true) :
    (match (if fp.isEmpty then [] else '.' :: fp) with
      | '.' :: r => spanDigits r
      | r => ([], r)) = (fp, []) := by
  cases fp with
  | nil => rfl
  | cons c cs =>
    have := spanDigits_append (c :: cs) [] hfp (fun _ _ h => by cases h)
    rw [List.append_nil] at this
    simp only [List.isEmpty_cons, Bool.false_eq_true, if_false, this]

theorem decimal_value_eq (ip fp : List Char) :
    scale10 (digitsValue (ip ++ fp) 0) (0 - (fp.length : Int))
      = (numeralValue ip : ℚ) + (numeralValue fp : ℚ) / 10 ^ fp.length := by
  rw [scale10_neg_length, digitsValue_zero, numeralValue_append]
  have h10 : ((10 : ℚ) ^ fp.length) ≠ 0 := pow_ne_zero _ (by norm_num)
  push_cast
  field_simp

/-- On a decimal-number string `parseFloat` returns the number it denotes. -/
theorem parseFloatChars_decimal (d : Decimal) (h : d.wellFormed = true) :
    parseFloatChars d.chars = d.number := by
  obtain ⟨neg, ip, fp⟩ := d
  simp only [Decimal.wellFormed, Bool.and_eq_true, Bool.not_eq_true', List.all_eq_true] at h
  obtain ⟨⟨hne, hip⟩, hfp⟩ := h
  cases ip with
  | nil => simp at hne
  | cons c ip' =>
    have hc : isDecDigit c = true := hip c (by simp)
    have htail : ∀ x tl, (if fp.isEmpty then [] else '.' :: fp) = x :: tl →
        isDecDigit x = false := by
      intro x tl hx
      split_ifs at hx with he
      cases hx
      decide
    have hspan := spanDigits_append (c :: ip') _ hip htail
    have hsign : takeSign (trimStart (Decimal.chars ⟨neg, c :: ip', fp⟩))
        = (neg, (c :: ip') ++ (if fp.isEmpty then [] else '.' :: fp)) := by
      cases neg with
      | true =>
        simp only [Decimal.chars, if_true, List.singleton_append]
        rw [trimStart_cons _ (by decide)]
        rfl
      | false =>
        simp only [Decimal.chars, Bool.false_eq_true, if_false, List.nil_append,
          List.cons_append]
        rw [trimStart_cons _ (not_space_of_digit hc), takeSign_digit _ hc]
    unfold parseFloatChars
    dsimp only
    rw [hsign]
    dsimp only
    rw [hspan]
    dsimp only
    rw [decimal_fraction_scan fp hfp]
    dsimp only
    rw [List.cons_append, startsInfinity_digit _ hc]
    simp only [Bool.false_eq_true, if_false, reduceCtorEq, false_and, exponentPart]
    rw [decimal_value_eq]
    rfl

theorem signed_cast (b : Bool) (n : Nat) :
    (if b = true then -(n : ℚ) else (n : ℚ)) = (((if b = true then -(n : ℤ) else (n : ℤ)) : ℤ) : ℚ) := by
  cases b <;> simp

/-- Whatever the text, `parseInt` gives NaN or the rounding of an integer. -/
theorem parseIntChars_cases (t : List Char) :
    parseIntChars t = .nan ∨ ∃ z : ℤ, parseIntChars t = roundDouble (z : ℚ) := by
  have hneg : ∀ n : ℕ, ∃ z : ℤ, roundDouble (-(n : ℚ)) = roundDouble (z : ℚ) :=
    fun n => ⟨-(n : ℤ), by push_cast; rfl⟩
  have hpos : ∀ n : ℕ, ∃ z : ℤ, roundDouble (n : ℚ) = roundDouble (z : ℚ) :=
    fun n => ⟨(n : ℤ), by push_cast; rfl⟩
  unfold parseIntChars
  dsimp only
  split <;> split_ifs <;>
    first
    | exact Or.inl rfl
    | exact Or.inr (hneg _)
    | exact Or.inr (hpos _)

theorem parseIntChars_of_noDigit (t : List Char)
    (h : ∀ c tl, (takeSign (trimStart t)).2 = c :: tl → isDecDigit c = false) :
    parseIntChars t = .nan := by
  unfold parseIntChars
  dsimp only
  split
  · rename_i x rest heq
    exact absurd (h _ _ heq) (by decide)
  · cases hs : (takeSign (trimStart t)).2 with
    | nil => simp [spanDigits]
    | cons c tl => simp [spanDigits_of_not_digit c tl (h c tl hs)]

theorem takeSign_prefix (sg t : List Char) (hsg : sg = [] ∨ sg = ['+'] ∨ sg = ['-'])
    (ht : ∀ c tl, t = c :: tl → isDecDigit c = true) (hne : t ≠ []) :
    takeSign (sg ++ t) = (decide (sg = ['-']), t) := by
  rcases hsg with h | h | h <;> subst h
  · cases t with
    | nil => exact absurd rfl hne
    | cons c tl =>
      rw [List.nil_append, takeSign_digit tl (ht c tl rfl)]
      rfl
  · rfl
  · rfl

/-- On a text that starts with an integer numeral in base ten, `parseInt`
returns the rounding of the integer the numeral denotes. -/
theorem parseIntChars_leading (ws sg ds rest : List Char) (h : LeadingDecimal ws sg ds rest) :
    parseIntChars (ws ++ (sg ++ (ds ++ rest)))
      = roundDouble (if sg = ['-'] then -(numeralValue ds : ℚ) else (numeralValue ds : ℚ)) := by
  obtain ⟨hws, hsg, hne, hds, hrest, hhex⟩ := h
  cases ds with
  | nil => exact absurd rfl hne
  | cons c ds' =>
    have hc : isDecDigit c = true := hds c (by simp)
    have htrim : trimStart (ws ++ (sg ++ (c :: ds' ++ rest))) = sg ++ (c :: ds' ++ rest) := by
      apply trimStart_append _ _ hws
      intro x tl hx
      rcases hsg with h | h | h <;> subst h
      · simp only [List.nil_append, List.cons_append, List.cons.injEq] at hx
        rw [← hx.1]
        exact not_space_of_digit hc
      · simp only [List.singleton_append, List.cons.injEq] at hx
        rw [← hx.1]
        decide
      · simp only [List.singleton_append, List.cons.injEq] at hx
        rw [← hx.1]
        decide
    have hsign : takeSign (sg ++ (c :: ds' ++ rest))
        = (decide (sg = ['-']), c :: ds' ++ rest) := by
      apply takeSign_prefix _ _ hsg
      · intro x tl hx
        simp only [List.cons_append, List.cons.injEq] at hx
        rw [← hx.1]
        exact hc
      · simp
    have hspan := spanDigits_append (c :: ds') rest hds hrest
    unfold parseIntChars
    dsimp only
    rw [htrim, hsign]
    dsimp only
    split
    · rename_i x rest' heq
      simp only [List.cons_append, List.cons.injEq] at heq
      obtain ⟨hc0, htl⟩ := heq
      by_cases hx : x = 'x' ∨ x = 'X'
      · exfalso
        cases ds' with
        | nil =>
          simp only [List.nil_append] at htl
          exact hhex ⟨by rw [hc0], x, rest', htl, hx⟩
        | cons e es =>
          simp only [List.cons_append, List.cons.injEq] at htl
          have he : isDecDigit e = true := hds e (by simp)
          obtain ⟨_, _, _, _, h5, h6⟩ := digit_ne he
          rcases hx with hx | hx
          · exact h5 (by rw [htl.1, hx])
          · exact h6 (by rw [htl.1, hx])
      · rw [if_neg hx, hspan, digitsValue_zero]
        simp only [decide_eq_true_eq]
    · rw [hspan]
      simp only [reduceCtorEq, if_false, digitsValue_zero, decide_eq_true_eq]

theorem orZero_roundDouble_int (z : ℤ) :
    (roundDouble (z : ℚ)).orZero ≠ .nan ∧
    ((roundDouble (z : ℚ)).orZero.isInteger = true ∨
      ∃ b, (roundDouble (z : ℚ)).orZero = .inf b) := by
  rcases roundDouble_int z with ⟨b, hb⟩ | ⟨w, hw⟩
  · rw [hb]
    exact ⟨by simp [JSNum.orZero, JSNum.truthy], Or.inr ⟨b, rfl⟩⟩
  · rw [hw]
    unfold JSNum.orZero
    split_ifs
    · exact ⟨by simp, Or.inl (by simp [JSNum.isInteger])⟩
    · exact ⟨by simp, Or.inl (by simp [JSNum.isInteger])⟩

theorem orZero_fin (q : ℚ) : (JSNum.fin q).orZero = .fin q := by
  unfold JSNum.orZero JSNum.truthy
  split_ifs with h
  · rfl
  · simp only [ne_eq, decide_eq_true_eq, not_not] at h
    rw [h]

theorem orZero_roundDouble (q : ℚ) : (roundDouble q).orZero = roundDouble q := by
  cases h : roundDouble q with
  | nan => exact absurd h (roundDouble_ne_nan q)
  | inf b => rfl
  | fin r => exact orZero_fin r

end EnergyMeter

namespace EnergyMeter

/-! ## Properties of the numeric fields -/

theorem parseFloatArg_decimal (d : Decimal) (h : d.wellFormed = true) :
    (parseFloatArg (some (.str d.text))).map JSNum.orZero = some d.number := by
  have : (Json.str d.text).toStr = some d.chars := rfl
  simp only [parseFloatArg, argToStr, this, Option.map_some', parseFloatChars_decimal d h,
    Decimal.number, orZero_roundDouble]

theorem parseIntArg_integer (d : Decimal) (h : d.wellFormed = true) (hi : d.fp = []) :
    (parseIntArg (some (.str d.text))).map JSNum.orZero = some d.number := by
  obtain ⟨neg, ip, fp⟩ := d
  simp only at hi
  subst hi
  simp only [Decimal.wellFormed, Bool.and_eq_true, Bool.not_eq_true', List.all_eq_true,
    List.isEmpty_eq_false] at h
  have hlead : LeadingDecimal [] (if neg then ['-'] else []) ip [] := by
    refine ⟨by simp, ?_, h.1.1, h.1.2, fun _ _ hx => (by cases hx), fun hh => ?_⟩
    · cases neg <;> simp
    · obtain ⟨_, _, _, hx, _⟩ := hh
      cases hx
  have hp := parseIntChars_leading _ _ _ _ hlead
  have htext : (Json.str (Decimal.text ⟨neg, ip, []⟩)).toStr
      = some ([] ++ ((if neg then ['-'] else []) ++ (ip ++ []))) := by
    simp only [Json.toStr, Decimal.text, Decimal.chars, List.isEmpty_nil, if_true,
      List.nil_append, String.toList]
  simp only [parseIntArg, argToStr, htext, Option.map_some', hp, orZero_roundDouble,
    Decimal.number, Decimal.value]
  cases neg <;> simp [numeralValue]

theorem buildReading_rawAdc {now : Nat} {body : List (String × Json)} {r : Reading}
    (h : buildReading now body = some r) :
    ∃ t, argToStr (getField "rawAdc" body) = some t ∧ r.rawAdc = (parseIntChars t).orZero := by
  unfold buildReading at h
  split at h
  · rename_i v c p a hv hc hp ha
    simp only [Option.some.injEq] at h
    subst h
    simp only [parseIntArg, Option.map_eq_some'] at ha
    obtain ⟨t, ht, hta⟩ := ha
    exact ⟨t, ht, by rw [← hta]⟩
  · exact absurd h (by simp)

/-- C5 as stated fails.  With the four measurements given as decimal strings:
a `timestamp` that is a string is stored as that string, not as a number; a
`voltage` numeral of 310 digits is beyond the binary64 range and is read back
as `null`; and with the empty string as `deviceId` the read for that device
returns the empty object. -/
theorem decimal_strings_counterexample :
    (buildReading 1000
        [("deviceId", .str "esp32_1"), ("voltage", .str "120.5"), ("current", .str "250"),
         ("power", .str "30"), ("rawAdc", .str "512"), ("timestamp", .str "soon")]).map
        Reading.timestamp = some (.str "soon") ∧
    (getLatest (some "esp32_1")
      (postReadings 1000
        [("deviceId", .str "esp32_1"),
         ("voltage", .str (String.mk ('1' :: List.replicate 309 '0'))),
         ("current", .str "250"), ("power", .str "30"), ("rawAdc", .str "512")]
        Store.empty).1).2
      = .obj [("deviceId", .str "esp32_1"), ("voltage", .null), ("current", .num (.fin 250)),
              ("power", .num (.fin 30)), ("rawAdc", .num (.fin 512)),
              ("timestamp", .num (.fin 1000))] ∧
    (getLatest (some "")
      (postReadings 1000
        [("deviceId", .str ""), ("voltage", .str "120.5"), ("current", .str "250"),
         ("power", .str "30"), ("rawAdc", .str "512")] Store.empty).1).2 = .obj [] := by
  refine ⟨?_, ?_, ?_⟩ <;> decide!

/-- C5, amended.  For every push whose `deviceId` is a non-empty string, whose
`voltage`, `current` and `power` are decimal-number strings, whose `rawAdc` is
an integer string and whose `timestamp` is missing or a number: the push is
answered, the stored reading holds the numbers those strings denote (the
binary64 values nearest to them), the pushed `deviceId` and a numeric
timestamp, and `GET /latest` for that device returns these six members, a
number that is not finite being written `null`. -/
theorem decimal_strings_are_parsed (now : Nat) (body : List (String × Json)) (st : Store)
    (d : String) (dv dc dp da : Decimal) (hd : d ≠ "")
    (hid : getField "deviceId" body = some (.str d))
    (hv : getField "voltage" body = some (.str dv.text)) (hvw : dv.wellFormed = true)
    (hc : getField "current" body = some (.str dc.text)) (hcw : dc.wellFormed = true)
    (hp : getField "power" body = some (.str dp.text)) (hpw : dp.wellFormed = true)
    (ha : getField "rawAdc" body = some (.str da.text)) (haw : da.wellFormed = true)
    (hai : da.fp = [])
    (hts : getField "timestamp" body = none ∨
      ∃ x, getField "timestamp" body = some (.num x)) :
    ∃ ts : JSNum,
      buildReading now body
        = some ⟨.str d, dv.number, dc.number, dp.number, da.number, .num ts⟩ ∧
      (postReadings now body st).2 = .sent okBody ∧
      (getLatest (some d) (postReadings now body st).1).2
        = .obj [("deviceId", .str d), ("voltage", wireNum dv.number),
                ("current", wireNum dc.number), ("power", wireNum dp.number),
                ("rawAdc", wireNum da.number), ("timestamp", wireNum ts)] := by
  have hts' : ∃ ts : JSNum, pickTimestamp now (getField "timestamp" body) = .num ts := by
    rcases hts with h | ⟨x, h⟩
    · exact ⟨.fin now, by rw [h]; rfl⟩
    · rw [h]
      by_cases hx : (Json.num x).truthy = true
      · exact ⟨x, by simp only [pickTimestamp, hx, if_true]⟩
      · exact ⟨.fin now, by simp [pickTimestamp, hx]⟩
  obtain ⟨ts, hts'⟩ := hts'
  have hbid : bodyDeviceId body = .str d := by simp [bodyDeviceId, hid]
  have e1 := parseFloatArg_decimal dv hvw
  have e2 := parseFloatArg_decimal dc hcw
  have e3 := parseFloatArg_decimal dp hpw
  have e4 := parseIntArg_integer da haw hai
  simp only [Option.map_eq_some'] at e1 e2 e3 e4
  obtain ⟨v, hv1, hv2⟩ := e1
  obtain ⟨c, hc1, hc2⟩ := e2
  obtain ⟨p, hp1, hp2⟩ := e3
  obtain ⟨a, ha1, ha2⟩ := e4
  have hb : buildReading now body
      = some ⟨.str d, dv.number, dc.number, dp.number, da.number, .num ts⟩ := by
    simp only [buildReading, hv, hc, hp, ha, hv1, hc1, hp1, ha1, hv2, hc2, hp2, ha2, hbid,
      hts']
  refine ⟨ts, hb, ?_, ?_⟩
  · simp only [postReadings, hb, Json.toStr]
  · simp only [getLatest, queryDeviceId_some hd, mapGet_after_post st d hb hbid,
      Reading.toJson, Json.wire]

/-- Witness of C5, amended: the `esp32_1` scenario of the specification, read
back as 120.5, 250, 30 and 512 with the server time as timestamp. -/
theorem decimal_strings_are_parsed_witness :
    ∃ ts : JSNum,
      buildReading 1700000000000
          [("deviceId", .str "esp32_1"), ("voltage", .str "120.5"), ("current", .str "250"),
           ("power", .str "30"), ("rawAdc", .str "512")]
        = some ⟨.str "esp32_1", Decimal.number ⟨false, "120".toList, "5".toList⟩,
            Decimal.number ⟨false, "250".toList, []⟩, Decimal.number ⟨false, "30".toList, []⟩,
            Decimal.number ⟨false, "512".toList, []⟩, .num ts⟩ ∧
      (postReadings 1700000000000
          [("deviceId", .str "esp32_1"), ("voltage", .str "120.5"), ("current", .str "250"),
           ("power", .str "30"), ("rawAdc", .str "512")] Store.empty).2 = .sent okBody ∧
      (getLatest (some "esp32_1") (postReadings 1700000000000
          [("deviceId", .str "esp32_1"), ("voltage", .str "120.5"), ("current", .str "250"),
           ("power", .str "30"), ("rawAdc", .str "512")] Store.empty).1).2
        = .obj [("deviceId", .str "esp32_1"),
                ("voltage", wireNum (Decimal.number ⟨false, "120".toList, "5".toList⟩)),
                ("current", wireNum (Decimal.number ⟨false, "250".toList, []⟩)),
                ("power", wireNum (Decimal.number ⟨false, "30".toList, []⟩)),
                ("rawAdc", wireNum (Decimal.number ⟨false, "512".toList, []⟩)),
                ("timestamp", wireNum ts)] :=
  decimal_strings_are_parsed 1700000000000
    [("deviceId", .str "esp32_1"), ("voltage", .str "120.5"), ("current", .str "250"),
     ("power", .str "30"), ("rawAdc", .str "512")] Store.empty "esp32_1"
    ⟨false, "120".toList, "5".toList⟩ ⟨false, "250".toList, []⟩ ⟨false, "30".toList, []⟩
    ⟨false, "512".toList, []⟩ (by decide) (by decide) (by decide) (by decide) (by decide)
    (by decide) (by decide) (by decide) (by decide) (by decide) rfl (Or.inl (by decide))

/-- The numbers of the `esp32_1` scenario: the strings `120.5`, `250`, `30`
and `512` denote 120.5, 250, 30 and 512. -/
theorem scenario_numbers :
    Decimal.number ⟨false, "120".toList, "5".toList⟩ = .fin (241 / 2) ∧
    Decimal.number ⟨false, "250".toList, []⟩ = .fin 250 ∧
    Decimal.number ⟨false, "30".toList, []⟩ = .fin 30 ∧
    Decimal.number ⟨false, "512".toList, []⟩ = .fin 512 := by
  refine ⟨?_, ?_, ?_, ?_⟩ <;> decide!

end EnergyMeter

namespace EnergyMeter

theorem parseIntArg_of_noLeadingDigit {v : Option Json} {t : List Char}
    (h : noLeadingDigit v = true) (ht : argToStr v = some t) : parseIntChars t = .nan := by
  cases v with
  | none =>
    simp only [argToStr, Option.some.injEq] at ht
    rw [← ht]
    rfl
  | some w =>
    simp only [argToStr] at ht
    simp only [noLeadingDigit, ht] at h
    apply parseIntChars_of_noDigit
    intro c tl hc
    rw [hc] at h
    simpa using h

/-- C6 as stated fails.  A `rawAdc` numeral of 400 digits is stored as
`Infinity`, which is not an integer; the numeral of `2 ^ 53 + 1` is stored as
`2 ^ 53`; the text `0x1F`, whose leading decimal digits are `0`, is stored as
31; and the number `10 ^ 21`, whose text is `1e+21`, is stored as 1. -/
theorem rawAdc_integer_counterexample :
    (buildReading 1000 [("rawAdc", .str (String.mk (List.replicate 400 '9')))]).map
        Reading.rawAdc = some (.inf false) ∧
    (JSNum.inf false).isInteger = false ∧
    (buildReading 1000 [("rawAdc", .str "9007199254740993")]).map Reading.rawAdc
        = some (.fin 9007199254740992) ∧
    (buildReading 1000 [("rawAdc", .str "0x1F")]).map Reading.rawAdc = some (.fin 31) ∧
    (buildReading 1000 [("rawAdc", .num (.fin (10 ^ 21)))]).map Reading.rawAdc
        = some (.fin 1) := by
  refine ⟨?_, ?_, ?_, ?_, ?_⟩ <;> decide!

/-- C6, amended.  In every reading built from a body, `rawAdc` is never NaN and
is an integer or an infinity; it is `0` when the field is missing or its text
has no leading decimal digit; and when its text starts, after white space and
an optional sign, with a run of decimal digits that is not the `0` of a `0x`
prefix and denotes an integer below `2 ^ 53`, `rawAdc` is exactly that integer
with its sign (so `12.7` gives 12). -/
theorem rawAdc_integer_or_infinite (now : Nat) (body : List (String × Json)) (r : Reading)
    (h : buildReading now body = some r) :
    r.rawAdc ≠ .nan ∧
    (r.rawAdc.isInteger = true ∨ ∃ b, r.rawAdc = .inf b) ∧
    (noLeadingDigit (getField "rawAdc" body) = true → r.rawAdc = .fin 0) ∧
    (∀ ws sg ds rest : List Char, LeadingDecimal ws sg ds rest →
      argToStr (getField "rawAdc" body) = some (ws ++ (sg ++ (ds ++ rest))) →
      numeralValue ds < 2 ^ 53 →
      r.rawAdc = .fin (if sg = ['-'] then -(numeralValue ds : ℚ) else (numeralValue ds : ℚ))) := by
  obtain ⟨t, ht, hr⟩ := buildReading_rawAdc h
  refine ⟨?_, ?_, ?_, ?_⟩
  · rcases parseIntChars_cases t with hn | ⟨z, hz⟩
    · rw [hr, hn]; simp [JSNum.orZero, JSNum.truthy]
    · rw [hr, hz]; exact (orZero_roundDouble_int z).1
  · rcases parseIntChars_cases t with hn | ⟨z, hz⟩
    · rw [hr, hn]; exact Or.inl (by simp [JSNum.orZero, JSNum.truthy, JSNum.isInteger])
    · rw [hr, hz]; exact (orZero_roundDouble_int z).2
  · intro hno
    rw [hr, parseIntArg_of_noLeadingDigit hno ht]
    rfl
  · intro ws sg ds rest hl htext hlt
    rw [ht, Option.some.injEq] at htext
    rw [hr, htext, parseIntChars_leading ws sg ds rest hl, orZero_roundDouble]
    have hz := roundDouble_int_exact (if sg = ['-'] then -(numeralValue ds : ℤ)
      else (numeralValue ds : ℤ)) (by split_ifs <;> simpa using hlt)
    split_ifs at hz ⊢ with hs
    · simpa using hz
    · simpa using hz

/-- Witness of C6, amended: the fractional number 12.7, whose text is `12.7`,
is stored as 12. -/
theorem rawAdc_integer_or_infinite_witness :
    buildReading 1000 [("rawAdc", .num (roundDouble (127 / 10)))]
      = some ⟨.str "esp32_1", .fin 0, .fin 0, .fin 0, .fin 12, .num (.fin 1000)⟩ ∧
    (⟨.str "esp32_1", .fin 0, .fin 0, .fin 0, .fin 12, .num (.fin 1000)⟩ : Reading).rawAdc
      = .fin (if (([] : List Char) = ['-']) then -(numeralValue ['1', '2'] : ℚ)
          else (numeralValue ['1', '2'] : ℚ)) :=
  ⟨by decide!,
   (rawAdc_integer_or_infinite 1000 [("rawAdc", .num (roundDouble (127 / 10)))]
      ⟨.str "esp32_1", .fin 0, .fin 0, .fin 0, .fin 12, .num (.fin 1000)⟩
      (by decide!)).2.2.2 [] [] ['1', '2'] ['.', '7']
      ⟨by simp, Or.inl rfl, by simp, by decide, fun c tl hx => (by cases hx; decide),
        fun hh => absurd hh.1 (by decide)⟩
      (by decide!) (by decide)⟩

end EnergyMeter

namespace EnergyMeter

/-! ## Companion facts -/

/-- The lenient parse keeps a numeric prefix: the string `12abc` is stored as
12, the array `[5]` (whose text is `5`) as 5, and the string `Infinity` as the
infinity. -/
theorem lenient_prefix_examples :
    (buildReading 1000 [("voltage", .str "12abc")]).map Reading.voltage = some (.fin 12) ∧
    (buildReading 1000 [("voltage", .arr [.num (.fin 5)])]).map Reading.voltage
      = some (.fin 5) ∧
    (buildReading 1000 [("voltage", .str "Infinity")]).map Reading.voltage
      = some (.inf false) := by
  refine ⟨?_, ?_, ?_⟩ <;> decide!

/-- A missing timestamp is replaced by the server time. -/
theorem pickTimestamp_missing (now : Nat) : pickTimestamp now none = .num (.fin now) := rfl

/-- A supplied truthy timestamp is kept unchanged. -/
theorem pickTimestamp_truthy (now : Nat) (t : Json) (h : t.truthy = true) :
    pickTimestamp now (some t) = t := by
  simp [pickTimestamp, h]

/-- A supplied non-zero number is kept unchanged. -/
theorem pickTimestamp_nonzero (now : Nat) (q : ℚ) (h : q ≠ 0) :
    pickTimestamp now (some (.num (.fin q))) = .num (.fin q) :=
  pickTimestamp_truthy now _ (by simp [Json.truthy, JSNum.truthy, h])

theorem argTextual_of_parseFloatArg {v : Option Json} {x : JSNum}
    (h : parseFloatArg v = some x) : argTextual v = true := by
  rw [← argToStr_isSome]
  simp only [parseFloatArg, Option.map_eq_some'] at h
  obtain ⟨t, ht, _⟩ := h
  simp [ht]

theorem argTextual_of_parseIntArg {v : Option Json} {x : JSNum}
    (h : parseIntArg v = some x) : argTextual v = true := by
  rw [← argToStr_isSome]
  simp only [parseIntArg, Option.map_eq_some'] at h
  obtain ⟨t, ht, _⟩ := h
  simp [ht]

/-- The handler answers only the bodies whose five converted fields are
textual. -/
theorem textual_of_post_answered (now : Nat) (body : List (String × Json)) (st : Store)
    (hok : (postReadings now body st).2 = .sent okBody) :
    argTextual (getField "voltage" body) = true ∧
    argTextual (getField "current" body) = true ∧
    argTextual (getField "power" body) = true ∧
    argTextual (getField "rawAdc" body) = true ∧
    (bodyDeviceId body).textual = true := by
  obtain ⟨r, hr, _, hd⟩ := postReadings_sent hok
  have hid := buildReading_deviceId hr
  rw [hid] at hd
  have hd' : (bodyDeviceId body).textual = true := by
    rw [← toStr_isSome]
    cases h : (bodyDeviceId body).toStr with
    | none => exact absurd h hd
    | some t => rfl
  unfold buildReading at hr
  split at hr
  · rename_i v c p a hv hc hp ha
    exact ⟨argTextual_of_parseFloatArg hv, argTextual_of_parseFloatArg hc,
      argTextual_of_parseFloatArg hp, argTextual_of_parseIntArg ha, hd'⟩
  · exact absurd hr (by simp)

end EnergyMeter

namespace EnergyMeter

/-! ## Lemmas on the connection status -/

theorem updateConnectionStatus_not_live (now : Int) (s : Dashboard)
    (h : (s.status.usingESP32 && s.status.connected) = false) :
    updateConnectionStatus now s
      = { s with page := { s.page with
            connectionStatus := s.page.connectionStatus.map (fun _ => offlineEl) } } := by
  obtain ⟨st, pg⟩ := s
  obtain ⟨cs, _, _, _, _, _, _, _, _⟩ := pg
  unfold updateConnectionStatus
  cases cs with
  | none => rfl
  | some el =>
    simp only at h
    simp [h]

theorem markOffline_eq (s : Dashboard) :
    markOffline s
      = { status := { s.status with connected := false, usingESP32 := false }
          page := { s.page with
            connectionStatus := s.page.connectionStatus.map (fun _ => offlineEl) } } := by
  unfold markOffline
  rw [updateConnectionStatus_not_live _ _ (by simp)]

theorem fetchLatestReading_noData (poll : Poll) (t1 t2 : Int) (s : Dashboard)
    (h : noDataPoll poll = true) : fetchLatestReading poll t1 t2 s = markOffline s := by
  unfold fetchLatestReading
  unfold noDataPoll at h
  cases hp : pollData poll with
  | none => simp
  | some data =>
    rw [hp] at h
    simp only [Bool.not_eq_true'] at h
    simp [h]

theorem updateConnectionStatus_live (now t0 : Int) (s : Dashboard) (el : StatusEl)
    (hel : s.page.connectionStatus = some el)
    (hs : s.status = ⟨true, true, some t0⟩) (h0 : t0 ≠ 0) :
    updateConnectionStatus now s
      = if now - t0 < 10000 then
          { s with page := { s.page with connectionStatus := some liveEl } }
        else
          { status := ⟨false, false, some t0⟩
            page := { s.page with connectionStatus := some disconnectedEl } } := by
  unfold updateConnectionStatus
  simp only [hel, hs, Bool.and_self, if_true, timeSinceLastData, h0, ne_eq, not_false_eq_true,
    stillLive, stalenessWindow, decide_eq_true_eq]

end EnergyMeter

namespace EnergyMeter

theorem noDataPoll_kinds :
    noDataPoll .failed = true ∧
    (∀ status body, ¬ (200 ≤ status ∧ status ≤ 299) → noDataPoll (.answered status body) = true) ∧
    (∀ status, noDataPoll (.answered status none) = true) ∧
    (∀ status, noDataPoll (.answered status (some (.obj []))) = true) ∧
    (∀ status kvs, getField "voltage" kvs = none → getField "current" kvs = none →
      getField "power" kvs = none → noDataPoll (.answered status (some (.obj kvs))) = true) := by
  refine ⟨rfl, ?_, fun _ => rfl, ?_, ?_⟩
  · intro status body h
    cases body with
    | none => rfl
    | some d => simp [noDataPoll, pollData, h]
  · intro status
    by_cases h : 200 ≤ status ∧ status ≤ 299 <;> simp [noDataPoll, pollData, h, hasTelemetry, getField]
  · intro status kvs hv hc hp
    by_cases h : 200 ≤ status ∧ status ≤ 299 <;>
      simp [noDataPoll, pollData, h, hasTelemetry, hv, hc, hp]

theorem checks_keep_live (t0 : Int) (h0 : t0 ≠ 0) (checks : List Int) :
    ∀ s : Dashboard, s.status = ⟨true, true, some t0⟩ → s.page.connectionStatus.isSome = true →
      (∀ c ∈ checks, c < t0 + 10000) →
      (runEvents s (checks.map Event.statusCheck)).status = ⟨true, true, some t0⟩ ∧
      (runEvents s (checks.map Event.statusCheck)).page.connectionStatus.isSome = true := by
  induction checks with
  | nil => intro s hs hel _; exact ⟨hs, hel⟩
  | cons c rest ih =>
    intro s hs hel hc
    obtain ⟨el, hel'⟩ := Option.isSome_iff_exists.1 hel
    have hlt : c - t0 < 10000 := by
      have := hc c (by simp)
      omega
    have hstep : stepEvent s (.statusCheck c)
        = { s with page := { s.page with connectionStatus := some liveEl } } := by
      simp only [stepEvent, updateConnectionStatus_live c t0 s el hel' hs h0, hlt, if_true]
    have := ih (stepEvent s (.statusCheck c)) (by rw [hstep]; exact hs) (by rw [hstep]; rfl)
      (fun x hx => hc x (by simp [hx]))
    simpa [runEvents] using this

theorem stepEvent_offline (s : Dashboard) (e : Event) (he : e.bringsNoData = true)
    (hc : s.status.connected = false) (hu : s.status.usingESP32 = false) :
    (stepEvent s e).status = s.status := by
  cases e with
  | statusCheck now =>
    simp only [stepEvent]
    rw [updateConnectionStatus_not_live _ _ (by simp [hu])]
  | pollDone poll t1 t2 =>
    simp only [stepEvent]
    rw [fetchLatestReading_noData poll t1 t2 s he, markOffline_eq]
    obtain ⟨⟨c, u, l⟩, pg⟩ := s
    simp only at hc hu
    simp [hc, hu]

theorem runEvents_offline (events : List Event) :
    ∀ s : Dashboard, (∀ e ∈ events, e.bringsNoData = true) →
      s.status.connected = false → s.status.usingESP32 = false →
      (runEvents s events).status = s.status := by
  induction events with
  | nil => intro s _ _ _; rfl
  | cons e rest ih =>
    intro s he hc hu
    have h1 := stepEvent_offline s e (he e (by simp)) hc hu
    have := ih (stepEvent s e) (fun x hx => he x (by simp [hx])) (by rw [h1]; exact hc)
      (by rw [h1]; exact hu)
    rw [h1] at this
    simpa [runEvents] using this

theorem dashboardData_congr (a b : Json) (h : sameExceptTimestamp a b) :
    hasTelemetry a = hasTelemetry b ∧ dashboardData a = dashboardData b := by
  match a, b, h with
  | .obj k1, .obj k2, h =>
    simp only [sameExceptTimestamp] at h
    have hv := h "voltage" (by decide)
    have hc := h "current" (by decide)
    have hp := h "power" (by decide)
    simp only [hasTelemetry, dashboardData, dataField, hv, hc, hp, and_self]
  | .null, b, h | .bool _, b, h | .num _, b, h | .str _, b, h | .arr _, b, h =>
    simp only [sameExceptTimestamp] at h
    subst h
    exact ⟨rfl, rfl⟩
  | .obj _, .null, h | .obj _, .bool _, h | .obj _, .num _, h | .obj _, .str _, h
  | .obj _, .arr _, h =>
    simp only [sameExceptTimestamp] at h
    exact absurd h (by simp)

end EnergyMeter

namespace EnergyMeter

/-! ## Properties of the connection status -/

/-- C13, live to offline on absence or failure.  For every dashboard state, a
poll that brings no data (network failure, a status outside 200 to 299, a body
that is not JSON, the empty object, an object without `voltage`, `current` and
`power`) leaves `connected` and `usingESP32` false and `lastDataTimestamp` as
it was; the function returns, the widgets keep their text, and the status
element, when the page has one, shows Offline. -/
theorem poll_without_data_goes_offline (poll : Poll) (receivedAt checkedAt : Int)
    (s : Dashboard) (h : noDataPoll poll = true) :
    (fetchLatestReading poll receivedAt checkedAt s).status
      = ⟨false, false, s.status.lastDataTimestamp⟩ ∧
    (fetchLatestReading poll receivedAt checkedAt s).page
      = { s.page with
          connectionStatus := s.page.connectionStatus.map (fun _ => offlineEl) } := by
  rw [fetchLatestReading_noData poll receivedAt checkedAt s h, markOffline_eq]
  exact ⟨rfl, rfl⟩

/-- Witness of C13: a live dashboard receives the empty object. -/
theorem poll_without_data_goes_offline_witness :
    (fetchLatestReading (.answered 200 (some (.obj []))) 5000 5001
        ⟨⟨true, true, some 1000⟩,
          ⟨some liveEl, some "1.5", some "", some "", some "", some "", some "", some "",
            some ""⟩⟩).status = ⟨false, false, some 1000⟩ ∧
    (fetchLatestReading (.answered 200 (some (.obj []))) 5000 5001
        ⟨⟨true, true, some 1000⟩,
          ⟨some liveEl, some "1.5", some "", some "", some "", some "", some "", some "",
            some ""⟩⟩).page
      = ⟨some offlineEl, some "1.5", some "", some "", some "", some "", some "", some "",
          some ""⟩ :=
  poll_without_data_goes_offline (.answered 200 (some (.obj []))) 5000 5001
    ⟨⟨true, true, some 1000⟩,
      ⟨some liveEl, some "1.5", some "", some "", some "", some "", some "", some "", some ""⟩⟩
    (by decide)

/-- C14, staleness timing.  On a page with a status element, let a live
reading be observed at the wall-clock time `t0` (after the epoch) and no
further reading arrive: any status checks made at times earlier than
`t0 + 10000` leave the state live, and a following check at a time `t` with
`t0 + 10000 ≤ t` clears both flags and shows the device as disconnected. -/
theorem staleness_timing (s : Dashboard) (t0 : Int) (checks : List Int) (t : Int)
    (hel : s.page.connectionStatus.isSome = true)
    (hlive : s.status = ⟨true, true, some t0⟩) (h0 : 0 < t0)
    (hbefore : ∀ c ∈ checks, c < t0 + 10000) (hafter : t0 + 10000 ≤ t) :
    (runEvents s (checks.map Event.statusCheck)).status = ⟨true, true, some t0⟩ ∧
    (updateConnectionStatus t (runEvents s (checks.map Event.statusCheck))).status
      = ⟨false, false, some t0⟩ ∧
    (updateConnectionStatus t (runEvents s (checks.map Event.statusCheck))).page.connectionStatus
      = some disconnectedEl := by
  obtain ⟨hs, hel'⟩ := checks_keep_live t0 (by omega) checks s hlive hel hbefore
  obtain ⟨el, hel''⟩ := Option.isSome_iff_exists.1 hel'
  have hge : ¬ (t - t0 < 10000) := by omega
  rw [updateConnectionStatus_live t t0 _ el hel'' hs (by omega), if_neg hge]
  exact ⟨hs, rfl, rfl⟩

/-- Witness of C14: a reading at time 1000, checks at 3000 and 10999, then a
check at 11000. -/
theorem staleness_timing_witness :
    (runEvents ⟨⟨true, true, some 1000⟩,
        ⟨some liveEl, none, none, none, none, none, none, none, none⟩⟩
        ([3000, 10999].map Event.statusCheck)).status = ⟨true, true, some 1000⟩ ∧
    (updateConnectionStatus 11000 (runEvents ⟨⟨true, true, some 1000⟩,
        ⟨some liveEl, none, none, none, none, none, none, none, none⟩⟩
        ([3000, 10999].map Event.statusCheck))).status = ⟨false, false, some 1000⟩ ∧
    (updateConnectionStatus 11000 (runEvents ⟨⟨true, true, some 1000⟩,
        ⟨some liveEl, none, none, none, none, none, none, none, none⟩⟩
        ([3000, 10999].map Event.statusCheck))).page.connectionStatus
      = some disconnectedEl :=
  staleness_timing ⟨⟨true, true, some 1000⟩,
      ⟨some liveEl, none, none, none, none, none, none, none, none⟩⟩ 1000 [3000, 10999] 11000
    (by decide) rfl (by decide) (by decide) (by decide)

/-- C15 as stated fails: with the last data at time 1000, a status check at
time 11000, when exactly 10000 ms and not more have elapsed, already switches
to offline. -/
theorem staleness_boundary_counterexample :
    (updateConnectionStatus 11000 ⟨⟨true, true, some 1000⟩,
        ⟨some liveEl, none, none, none, none, none, none, none, none⟩⟩).status
      = ⟨false, false, some 1000⟩ ∧
    ¬ ((11000 : Int) - 1000 > 10000) := by
  constructor <;> decide

/-- C15, amended.  For every live state on a page with a status element,
`updateConnectionStatus` switches to offline if and only if at least 10000 ms
have elapsed since `lastDataTimestamp` (`now - lastDataTimestamp ≥ 10000`), a
`lastDataTimestamp` that is `null` or `0` counting as infinitely old. -/
theorem staleness_boundary (s : Dashboard) (now : Int)
    (hel : s.page.connectionStatus.isSome = true)
    (hc : s.status.connected = true) (hu : s.status.usingESP32 = true) :
    (updateConnectionStatus now s).status.connected = false ↔
      ∀ t0, s.status.lastDataTimestamp = some t0 → t0 ≠ 0 → 10000 ≤ now - t0 := by
  obtain ⟨el, hel'⟩ := Option.isSome_iff_exists.1 hel
  obtain ⟨⟨c, u, l⟩, pg⟩ := s
  simp only at hc hu hel'
  subst hc hu
  cases l with
  | none =>
    simp [updateConnectionStatus, hel', timeSinceLastData, stillLive]
  | some t0 =>
    by_cases h0 : t0 = 0
    · subst h0
      simp [updateConnectionStatus, hel', timeSinceLastData, stillLive]
    · rw [updateConnectionStatus_live now t0 _ el hel' rfl h0]
      by_cases hlt : now - t0 < 10000
      · simp only [hlt, if_true, Bool.true_eq_false, false_iff, not_forall]
        exact ⟨t0, by simp [h0]; omega⟩
      · simp only [hlt, if_false, true_iff]
        intro t hx _
        simp only [Option.some.injEq] at hx
        subst hx
        omega

/-- Witness of C15, amended: 9999 ms after the last data the state stays
live. -/
theorem staleness_boundary_witness :
    (updateConnectionStatus 10999 ⟨⟨true, true, some 1000⟩,
        ⟨some liveEl, none, none, none, none, none, none, none, none⟩⟩).status.connected = false ↔
      ∀ t0, (some 1000 : Option Int) = some t0 → t0 ≠ 0 → 10000 ≤ (10999 : Int) - t0 :=
  staleness_boundary ⟨⟨true, true, some 1000⟩,
      ⟨some liveEl, none, none, none, none, none, none, none, none⟩⟩ 10999 (by decide) rfl rfl

/-- C16, offline is initial and absorbing without data.  The initial
connection status has both flags false, and from every state with both flags
false, any finite sequence of status recomputations and of polls that bring no
data, at any clock values, leaves the connection status as it was. -/
theorem offline_is_absorbing (s : Dashboard) (events : List Event)
    (hc : s.status.connected = false) (hu : s.status.usingESP32 = false)
    (he : ∀ e ∈ events, e.bringsNoData = true) :
    ConnectionStatus.initial = ⟨false, false, none⟩ ∧
    (runEvents s events).status = s.status ∧
    (runEvents s events).status.connected = false ∧
    (runEvents s events).status.usingESP32 = false := by
  have h := runEvents_offline events s he hc hu
  exact ⟨rfl, h, by rw [h, hc], by rw [h, hu]⟩

/-- Witness of C16: from the initial state, a status check, an empty poll, a
failed poll and a poll answered with status 500. -/
theorem offline_is_absorbing_witness :
    ConnectionStatus.initial = ⟨false, false, none⟩ ∧
    (runEvents ⟨ConnectionStatus.initial,
        ⟨some offlineEl, none, none, none, none, none, none, none, none⟩⟩
      [.statusCheck 5, .pollDone (.answered 200 (some (.obj []))) 7 8,
       .pollDone .failed 9 9, .pollDone (.answered 500 none) 20000 20001,
       .statusCheck 40000]).status = ConnectionStatus.initial ∧
    (runEvents ⟨ConnectionStatus.initial,
        ⟨some offlineEl, none, none, none, none, none, none, none, none⟩⟩
      [.statusCheck 5, .pollDone (.answered 200 (some (.obj []))) 7 8,
       .pollDone .failed 9 9, .pollDone (.answered 500 none) 20000 20001,
       .statusCheck 40000]).status.connected = false ∧
    (runEvents ⟨ConnectionStatus.initial,
        ⟨some offlineEl, none, none, none, none, none, none, none, none⟩⟩
      [.statusCheck 5, .pollDone (.answered 200 (some (.obj []))) 7 8,
       .pollDone .failed 9 9, .pollDone (.answered 500 none) 20000 20001,
       .statusCheck 40000]).status.usingESP32 = false :=
  offline_is_absorbing ⟨ConnectionStatus.initial,
      ⟨some offlineEl, none, none, none, none, none, none, none, none⟩⟩
    [.statusCheck 5, .pollDone (.answered 200 (some (.obj []))) 7 8,
     .pollDone .failed 9 9, .pollDone (.answered 500 none) 20000 20001,
     .statusCheck 40000] rfl rfl (by decide)

/-- C17, the device timestamp does not influence the connection state.  For
every dashboard state, every pair of clock readings and every two poll
responses that differ at most in their `timestamp` member, `fetchLatestReading`
followed by any status recomputations ends in the same dashboard state, so in
the same `connected`, `usingESP32` and `lastDataTimestamp`. -/
theorem timestamp_does_not_influence (s : Dashboard) (status : Nat) (a b : Json)
    (receivedAt checkedAt : Int) (checks : List Int) (h : sameExceptTimestamp a b) :
    runEvents (fetchLatestReading (.answered status (some a)) receivedAt checkedAt s)
        (checks.map Event.statusCheck)
      = runEvents (fetchLatestReading (.answered status (some b)) receivedAt checkedAt s)
        (checks.map Event.statusCheck) := by
  obtain ⟨h1, h2⟩ := dashboardData_congr a b h
  have : fetchLatestReading (.answered status (some a)) receivedAt checkedAt s
      = fetchLatestReading (.answered status (some b)) receivedAt checkedAt s := by
    unfold fetchLatestReading pollData
    by_cases hs : 200 ≤ status ∧ status ≤ 299
    · simp only [hs, and_self, if_true, h1, h2]
    · simp only [hs, if_false]
  rw [this]

/-- Witness of C17: device timestamps 5 and 999999999, then two checks. -/
theorem timestamp_does_not_influence_witness :
    runEvents (fetchLatestReading (.answered 200 (some (.obj
        [("voltage", .num (.fin 120)), ("timestamp", .num (.fin 5))]))) 1000 1001
        ⟨ConnectionStatus.initial, ⟨some offlineEl, none, none, none, none, none, none, none,
          none⟩⟩) ([3000, 20000].map Event.statusCheck)
      = runEvents (fetchLatestReading (.answered 200 (some (.obj
        [("voltage", .num (.fin 120)), ("timestamp", .num (.fin 999999999))]))) 1000 1001
        ⟨ConnectionStatus.initial, ⟨some offlineEl, none, none, none, none, none, none, none,
          none⟩⟩) ([3000, 20000].map Event.statusCheck) :=
  timestamp_does_not_influence _ 200 _ _ 1000 1001 [3000, 20000] (by
    intro name hn
    simp [getField, hn, Ne.symm hn])

end EnergyMeter

namespace EnergyMeter

/-! ## Lemmas on `updateDashboard` -/

theorem toNumber_isSome (v : Json) : v.toNumber.isSome = v.textual := by
  rw [← toStr_isSome]
  cases v with
  | null => rfl
  | bool b => cases b <;> rfl
  | num x => rfl
  | str s => rfl
  | arr xs => simp [Json.toNumber]
  | obj kvs => simp [Json.toNumber]

theorem formatUnit_isSome (v : Option Json) (type : String) (h : argTextual v = true) :
    (formatUnit v type).isSome = true := by
  cases v with
  | none => rfl
  | some w =>
    simp only [argTextual] at h
    have h1 := toNumber_isSome w
    have h2 := toStr_isSome w
    rw [h] at h1 h2
    obtain ⟨x, hx⟩ := Option.isSome_iff_exists.1 h1
    obtain ⟨t, ht⟩ := Option.isSome_iff_exists.1 h2
    cases w <;> first | rfl | (simp only [formatUnit, hx, ht]; split_ifs <;> rfl)

theorem orZeroValue_textual (v : Option Json) (h : argTextual v = true) :
    (orZeroValue v).textual = true := by
  cases v with
  | none => rfl
  | some w =>
    unfold orZeroValue
    dsimp only
    split_ifs
    · exact h
    · rfl

theorem orElse_textual (a b : Option Json) (ha : argTextual a = true)
    (hb : argTextual b = true) : argTextual (orElse a b) = true := by
  cases a with
  | none => exact hb
  | some w =>
    unfold orElse
    dsimp only
    split_ifs
    · exact ha
    · exact hb

theorem showPower_connectionStatus {data : DashboardData} {p q : Page}
    (h : showPower data p = some q) : q.connectionStatus = p.connectionStatus := by
  unfold showPower at h
  split_ifs at h
  · split at h
    · exact absurd h (by simp)
    · simp only [Option.some.injEq] at h
      rw [← h]
  · simp only [Option.some.injEq] at h
    rw [← h]

theorem showCurrent_connectionStatus {data : DashboardData} {p q : Page}
    (h : showCurrent data p = some q) : q.connectionStatus = p.connectionStatus := by
  unfold showCurrent at h
  split_ifs at h
  · split at h
    · exact absurd h (by simp)
    · simp only [Option.some.injEq] at h
      rw [← h]
  · simp only [Option.some.injEq] at h
    rw [← h]

theorem showVoltage_connectionStatus {data : DashboardData} {p q : Page}
    (h : showVoltage data p = some q) : q.connectionStatus = p.connectionStatus := by
  unfold showVoltage at h
  split_ifs at h
  · split at h
    · exact absurd h (by simp)
    · split_ifs at h <;> (simp only [Option.some.injEq] at h; rw [← h])
  · simp only [Option.some.injEq] at h
    rw [← h]

theorem showEnergy_connectionStatus {data : DashboardData} {p q : Page}
    (h : showEnergy data p = some q) : q.connectionStatus = p.connectionStatus := by
  unfold showEnergy at h
  split_ifs at h
  · split at h
    · exact absurd h (by simp)
    · simp only [Option.some.injEq] at h
      rw [← h]
  · simp only [Option.some.injEq] at h
    rw [← h]

/-- The function `updateDashboard` never writes to the status element. -/
theorem updateDashboard_connectionStatus (data : DashboardData) (p : Page) :
    (updateDashboard data p).1.connectionStatus = p.connectionStatus := by
  cases h1 : showPower data p with
  | none => simp only [updateDashboard, h1]
  | some p1 =>
    have e1 := showPower_connectionStatus h1
    cases h2 : showCurrent data p1 with
    | none => simp only [updateDashboard, h1, h2]; exact e1
    | some p2 =>
      have e2 := showCurrent_connectionStatus h2
      cases h3 : showVoltage data p2 with
      | none => simp only [updateDashboard, h1, h2, h3]; exact e2.trans e1
      | some p3 =>
        have e3 := showVoltage_connectionStatus h3
        cases h4 : showEnergy data p3 with
        | none => simp only [updateDashboard, h1, h2, h3, h4]; exact e3.trans (e2.trans e1)
        | some p4 =>
          simp only [updateDashboard, h1, h2, h3, h4]
          exact (showEnergy_connectionStatus h4).trans (e3.trans (e2.trans e1))

theorem showPower_isSome (data : DashboardData) (p : Page)
    (h : argTextual data.totalPower = true) : (showPower data p).isSome = true := by
  unfold showPower
  split_ifs
  · obtain ⟨r, hr⟩ := Option.isSome_iff_exists.1 (formatUnit_isSome data.totalPower "power" h)
    simp [hr]
  · rfl

theorem showCurrent_isSome (data : DashboardData) (p : Page)
    (h : argTextual data.totalCurrent = true) : (showCurrent data p).isSome = true := by
  unfold showCurrent
  split_ifs
  · obtain ⟨r, hr⟩ :=
      Option.isSome_iff_exists.1 (formatUnit_isSome data.totalCurrent "current" h)
    simp [hr]
  · rfl

theorem showVoltage_isSome (data : DashboardData) (p : Page)
    (h : argTextual (orElse data.voltage data.lineVoltage) = true) :
    (showVoltage data p).isSome = true := by
  unfold showVoltage
  split_ifs
  · obtain ⟨x, hx⟩ := parseFloatArg_of_textual h
    simp only [hx]
    split_ifs <;> rfl
  · rfl

theorem showEnergy_isSome (data : DashboardData) (p : Page)
    (h : argTextual data.todayEnergy = true) : (showEnergy data p).isSome = true := by
  unfold showEnergy
  split_ifs
  · obtain ⟨r, hr⟩ :=
      Option.isSome_iff_exists.1 (formatUnit_isSome data.todayEnergy "energy" h)
    simp [hr]
  · rfl

/-- The function `updateDashboard` returns when the values it converts are
textual. -/
theorem updateDashboard_returns (data : DashboardData) (p : Page)
    (h1 : argTextual data.totalPower = true) (h2 : argTextual data.totalCurrent = true)
    (h3 : argTextual (orElse data.voltage data.lineVoltage) = true)
    (h4 : argTextual data.todayEnergy = true) : (updateDashboard data p).2 = true := by
  unfold updateDashboard
  obtain ⟨p1, e1⟩ := Option.isSome_iff_exists.1 (showPower_isSome data p h1)
  obtain ⟨p2, e2⟩ := Option.isSome_iff_exists.1 (showCurrent_isSome data p1 h2)
  obtain ⟨p3, e3⟩ := Option.isSome_iff_exists.1 (showVoltage_isSome data p2 h3)
  obtain ⟨p4, e4⟩ := Option.isSome_iff_exists.1 (showEnergy_isSome data p3 h4)
  simp only [e1, e2, e3, e4]

theorem dashboardData_returns (data : Json) (p : Page)
    (hv : argTextual (dataField "voltage" data) = true)
    (hc : argTextual (dataField "current" data) = true)
    (hp : argTextual (dataField "power" data) = true) :
    (updateDashboard (dashboardData data) p).2 = true := by
  apply updateDashboard_returns
  · exact orZeroValue_textual _ hp
  · exact orZeroValue_textual _ hc
  · exact orElse_textual _ _ (orZeroValue_textual _ hv) (orZeroValue_textual _ hv)
  · rfl

/-- A poll with data whose update returns sets the status to live at the
receipt time and recomputes the display. -/
theorem fetchLatestReading_data (status : Nat) (data : Json) (t1 t2 : Int) (s : Dashboard)
    (hst : 200 ≤ status ∧ status ≤ 299) (htel : hasTelemetry data = true)
    (hret : (updateDashboard (dashboardData data) s.page).2 = true) :
    fetchLatestReading (.answered status (some data)) t1 t2 s
      = updateConnectionStatus t2
          { status := ⟨true, true, some t1⟩
            page := (updateDashboard (dashboardData data) s.page).1 } := by
  unfold fetchLatestReading pollData
  simp only [hst, and_self, if_true, htel]
  cases hu : updateDashboard (dashboardData data) s.page with
  | mk p b =>
    rw [hu] at hret
    simp only at hret
    subst hret
    rfl

theorem updateConnectionStatus_status (now : Int) (s : Dashboard) :
    (updateConnectionStatus now s).status = s.status ∨
    (updateConnectionStatus now s).status = ⟨false, false, s.status.lastDataTimestamp⟩ := by
  unfold updateConnectionStatus
  cases s.page.connectionStatus with
  | none => exact Or.inl rfl
  | some el =>
    dsimp only
    split_ifs
    · exact Or.inl rfl
    · exact Or.inr rfl
    · exact Or.inl rfl

end EnergyMeter

namespace EnergyMeter

/-! ## Properties of polling -/

/-- C12 as stated fails: a poll response that is a non-empty object with
`voltage` present, but whose `voltage` is an object with a member named
`toString`, makes `updateDashboard` throw inside the `try` block, and the
`catch` block leaves the state offline. -/
theorem poll_with_data_goes_live_counterexample :
    hasTelemetry (.obj [("voltage", .obj [("toString", .num (.fin 1))])]) = true ∧
    (fetchLatestReading
        (.answered 200 (some (.obj [("voltage", .obj [("toString", .num (.fin 1))])])))
        1000 1001
        ⟨ConnectionStatus.initial,
          ⟨some offlineEl, some "", some "", some "", some "", some "", some "", some "",
            some ""⟩⟩).status = ⟨false, false, none⟩ := by
  constructor <;> decide!

/-- C12, amended.  On a page with a status element, for every connection state
and every poll answered in the range 200 to 299 with a body that has one of
`voltage`, `current`, `power` and in which these three are textual (missing,
or containing no object with a member named `toString`), with the response
received at a wall-clock time after the epoch and the status recomputed less
than 10000 ms later by the clock: `fetchLatestReading` sets `connected` and
`usingESP32` to true, `lastDataTimestamp` to the receipt time, and the status
shown is Live. -/
theorem poll_with_data_goes_live (s : Dashboard) (status : Nat) (data : Json)
    (receivedAt checkedAt : Int)
    (hst : 200 ≤ status ∧ status ≤ 299) (htel : hasTelemetry data = true)
    (hv : argTextual (dataField "voltage" data) = true)
    (hc : argTextual (dataField "current" data) = true)
    (hp : argTextual (dataField "power" data) = true)
    (hel : s.page.connectionStatus.isSome = true)
    (h0 : 0 < receivedAt) (hgap : checkedAt - receivedAt < 10000) :
    (fetchLatestReading (.answered status (some data)) receivedAt checkedAt s).status
      = ⟨true, true, some receivedAt⟩ ∧
    (fetchLatestReading (.answered status (some data)) receivedAt checkedAt s).page.connectionStatus
      = some liveEl := by
  have hret := dashboardData_returns data s.page hv hc hp
  rw [fetchLatestReading_data status data receivedAt checkedAt s hst htel hret]
  have hcs := updateDashboard_connectionStatus (dashboardData data) s.page
  obtain ⟨el, hel'⟩ := Option.isSome_iff_exists.1 hel
  rw [updateConnectionStatus_live checkedAt receivedAt _ el (by rw [hcs, hel']) rfl (by omega),
    if_pos hgap]
  exact ⟨rfl, rfl⟩

/-- Witness of C12, amended: an offline dashboard receives a reading. -/
theorem poll_with_data_goes_live_witness :
    (fetchLatestReading
        (.answered 200 (some (.obj [("voltage", .num (.fin 120)), ("power", .null)])))
        1700000000000 1700000000001
        ⟨ConnectionStatus.initial,
          ⟨some offlineEl, some "", some "", some "", some "", some "", some "", some "",
            some ""⟩⟩).status = ⟨true, true, some 1700000000000⟩ ∧
    (fetchLatestReading
        (.answered 200 (some (.obj [("voltage", .num (.fin 120)), ("power", .null)])))
        1700000000000 1700000000001
        ⟨ConnectionStatus.initial,
          ⟨some offlineEl, some "", some "", some "", some "", some "", some "", some "",
            some ""⟩⟩).page.connectionStatus = some liveEl :=
  poll_with_data_goes_live _ 200 _ 1700000000000 1700000000001 (by decide) (by decide)
    (by decide) (by decide) (by decide) (by decide) (by decide) (by decide)

theorem fetchLatestReading_status (poll : Poll) (t1 t2 : Int) (s : Dashboard) :
    (fetchLatestReading poll t1 t2 s).status = ⟨false, false, s.status.lastDataTimestamp⟩ ∨
    (fetchLatestReading poll t1 t2 s).status = ⟨true, true, some t1⟩ ∨
    (fetchLatestReading poll t1 t2 s).status = ⟨false, false, some t1⟩ := by
  unfold fetchLatestReading
  cases pollData poll with
  | none => exact Or.inl (by rw [markOffline_eq])
  | some data =>
    dsimp only
    split_ifs
    · cases hu : updateDashboard (dashboardData data) s.page with
      | mk p b =>
        cases b with
        | false => exact Or.inl (by dsimp only; rw [markOffline_eq])
        | true =>
          dsimp only
          rcases updateConnectionStatus_status t2
            { status := ⟨true, true, some t1⟩, page := p } with h | h
          · exact Or.inr (Or.inl h)
          · exact Or.inr (Or.inr h)
    · exact Or.inl (by rw [markOffline_eq])

/-- The invariant of the connection status. -/
theorem stepEvent_invariant (s : Dashboard) (e : Event) (he : e.receivedAfterEpoch = true)
    (h1 : s.status.connected = s.status.usingESP32)
    (h2 : s.status.connected = true → ∃ t, s.status.lastDataTimestamp = some t ∧ 0 < t) :
    (stepEvent s e).status.connected = (stepEvent s e).status.usingESP32 ∧
    ((stepEvent s e).status.connected = true →
      ∃ t, (stepEvent s e).status.lastDataTimestamp = some t ∧ 0 < t) := by
  cases e with
  | statusCheck now =>
    simp only [stepEvent]
    rcases updateConnectionStatus_status now s with h | h <;> rw [h]
    · exact ⟨h1, h2⟩
    · exact ⟨rfl, fun hc => absurd hc (by simp)⟩
  | pollDone poll t1 t2 =>
    simp only [stepEvent]
    simp only [Event.receivedAfterEpoch, decide_eq_true_eq] at he
    rcases fetchLatestReading_status poll t1 t2 s with h | h | h <;> rw [h]
    · exact ⟨rfl, fun hc => absurd hc (by simp)⟩
    · exact ⟨rfl, fun _ => ⟨t1, rfl, he⟩⟩
    · exact ⟨rfl, fun hc => absurd hc (by simp)⟩

/-- C27, the connection-state invariant.  In every state reached from the
initial state by any sequence of polls (with data, empty or failed, received
at wall-clock times after the epoch) and status recomputations, `connected`
equals `usingESP32`, and whenever `connected` is true `lastDataTimestamp` is a
non-null, non-zero time, so that `updateConnectionStatus` computes
`now - lastDataTimestamp` and never substitutes `Infinity`. -/
theorem connection_invariant (page : Page) (events : List Event)
    (he : ∀ e ∈ events, e.receivedAfterEpoch = true) :
    (runEvents ⟨ConnectionStatus.initial, page⟩ events).status.connected
      = (runEvents ⟨ConnectionStatus.initial, page⟩ events).status.usingESP32 ∧
    ((runEvents ⟨ConnectionStatus.initial, page⟩ events).status.connected = true →
      ∃ t, (runEvents ⟨ConnectionStatus.initial, page⟩ events).status.lastDataTimestamp
          = some t ∧
        ∀ now, timeSinceLastData now
          (runEvents ⟨ConnectionStatus.initial, page⟩ events).status.lastDataTimestamp
            = some (now - t)) := by
  have key : ∀ (evs : List Event) (s : Dashboard), (∀ e ∈ evs, e.receivedAfterEpoch = true) →
      s.status.connected = s.status.usingESP32 →
      (s.status.connected = true → ∃ t, s.status.lastDataTimestamp = some t ∧ 0 < t) →
      (runEvents s evs).status.connected = (runEvents s evs).status.usingESP32 ∧
      ((runEvents s evs).status.connected = true →
        ∃ t, (runEvents s evs).status.lastDataTimestamp = some t ∧ 0 < t) := by
    intro evs
    induction evs with
    | nil => intro s _ h1 h2; exact ⟨h1, h2⟩
    | cons e rest ih =>
      intro s hev h1 h2
      obtain ⟨i1, i2⟩ := stepEvent_invariant s e (hev e (by simp)) h1 h2
      have := ih (stepEvent s e) (fun x hx => hev x (by simp [hx])) i1 i2
      simpa [runEvents] using this
  obtain ⟨k1, k2⟩ := key events ⟨ConnectionStatus.initial, page⟩ he rfl
    (fun hc => absurd hc (by simp [ConnectionStatus.initial]))
  refine ⟨k1, fun hc => ?_⟩
  obtain ⟨t, ht, hpos⟩ := k2 hc
  refine ⟨t, ht, fun now => ?_⟩
  rw [ht]
  simp [timeSinceLastData, hpos.ne']

/-- Witness of C27: a poll with data, a check, a failed poll and a second poll
with data. -/
theorem connection_invariant_witness :
    (runEvents ⟨ConnectionStatus.initial,
        ⟨some offlineEl, none, none, none, none, none, none, none, none⟩⟩
      [.pollDone (.answered 200 (some (.obj [("power", .num (.fin 5))]))) 1000 1001,
       .statusCheck 3000, .pollDone .failed 4000 4001,
       .pollDone (.answered 200 (some (.obj [("power", .num (.fin 6))]))) 5000 5001]).status.connected
      = (runEvents ⟨ConnectionStatus.initial,
        ⟨some offlineEl, none, none, none, none, none, none, none, none⟩⟩
      [.pollDone (.answered 200 (some (.obj [("power", .num (.fin 5))]))) 1000 1001,
       .statusCheck 3000, .pollDone .failed 4000 4001,
       .pollDone (.answered 200 (some (.obj [("power", .num (.fin 6))]))) 5000 5001]).status.usingESP32 :=
  (connection_invariant ⟨some offlineEl, none, none, none, none, none, none, none, none⟩
      [.pollDone (.answered 200 (some (.obj [("power", .num (.fin 5))]))) 1000 1001,
       .statusCheck 3000, .pollDone .failed 4000 4001,
       .pollDone (.answered 200 (some (.obj [("power", .num (.fin 6))]))) 5000 5001]
      (by decide)).1

end EnergyMeter

namespace EnergyMeter

/-! ## Further properties of the store -/

/-- C11 as stated fails: a push whose `deviceId` is the empty string, the
number 5 or `null` is stored with that `deviceId`. -/
theorem stored_device_id_counterexample :
    (buildReading 1000 [("deviceId", .str "")]).map Reading.deviceId = some (.str "") ∧
    (buildReading 1000 [("deviceId", .num (.fin 5))]).map Reading.deviceId
      = some (.num (.fin 5)) ∧
    (buildReading 1000 [("deviceId", .null)]).map Reading.deviceId = some .null := by
  refine ⟨?_, ?_, ?_⟩ <;> decide!

/-- C11, amended.  In every stored reading the `deviceId` field is the
`deviceId` of the payload as received, or `esp32_1` when the payload has none;
so it is a non-empty string for every payload that omits `deviceId` or
carries a non-empty string. -/
theorem stored_device_id (now : Nat) (body : List (String × Json)) (r : Reading)
    (h : buildReading now body = some r) :
    (getField "deviceId" body = none → r.deviceId = .str "esp32_1") ∧
    (∀ v, getField "deviceId" body = some v → r.deviceId = v) ∧
    ((getField "deviceId" body = none ∨
        ∃ d : String, d ≠ "" ∧ getField "deviceId" body = some (.str d)) →
      ∃ d : String, d ≠ "" ∧ r.deviceId = .str d) := by
  have hid := buildReading_deviceId h
  have h1 : getField "deviceId" body = none → r.deviceId = .str "esp32_1" := by
    intro hn
    rw [hid, bodyDeviceId, hn]
    rfl
  have h2 : ∀ v, getField "deviceId" body = some v → r.deviceId = v := by
    intro v hv
    rw [hid, bodyDeviceId, hv]
  refine ⟨h1, h2, ?_⟩
  rintro (hn | ⟨d, hd, hv⟩)
  · exact ⟨"esp32_1", by decide, h1 hn⟩
  · exact ⟨d, hd, h2 _ hv⟩

/-- Witness of C11, amended: a payload without `deviceId`. -/
theorem stored_device_id_witness :
    ∃ d : String, d ≠ "" ∧
      (⟨.str "esp32_1", .fin 0, .fin 0, .fin 0, .fin 0, .num (.fin 1000)⟩ : Reading).deviceId
        = .str d :=
  (stored_device_id 1000 [] ⟨.str "esp32_1", .fin 0, .fin 0, .fin 0, .fin 0, .num (.fin 1000)⟩
    (by decide!)).2.2 (Or.inl (by decide))

theorem mapSet_length (k : Key) (r : Reading) (m : List (Key × Reading)) :
    (mapSet k r m).length = if mapGet k m = none then m.length + 1 else m.length := by
  induction m with
  | nil => simp [mapSet, mapGet]
  | cons e rest ih =>
    obtain ⟨k', r'⟩ := e
    by_cases hk : k' = k
    · simp [mapSet, mapGet, hk]
    · simp only [mapSet, mapGet, hk, if_false, List.length_cons, ih]
      split_ifs <;> rfl

/-- C29, the per-key frame.  For every store state and every push whose
reading is stored under the key `k` of its `deviceId`: the entry of every
other key is unchanged, the number of entries grows by exactly one when `k`
had no entry and by zero when it had one, so by at most one. -/
theorem push_frame (now : Nat) (body : List (String × Json)) (st : Store) (r : Reading)
    (h : buildReading now body = some r) :
    (∀ k', k' ≠ keyOf st.nextRef (bodyDeviceId body) →
      mapGet k' (postReadings now body st).1.latestReadings = mapGet k' st.latestReadings) ∧
    (mapGet (keyOf st.nextRef (bodyDeviceId body)) st.latestReadings = none →
      (postReadings now body st).1.latestReadings.length = st.latestReadings.length + 1) ∧
    (mapGet (keyOf st.nextRef (bodyDeviceId body)) st.latestReadings ≠ none →
      (postReadings now body st).1.latestReadings.length = st.latestReadings.length) ∧
    (postReadings now body st).1.latestReadings.length ≤ st.latestReadings.length + 1 := by
  have he := postReadings_entries st h
  rw [buildReading_deviceId h] at he
  rw [he]
  refine ⟨fun k' hk => mapGet_mapSet_other _ _ _ _ (Ne.symm hk), ?_, ?_, ?_⟩
  · intro hn
    rw [mapSet_length, if_pos hn]
  · intro hn
    rw [mapSet_length, if_neg hn]
  · rw [mapSet_length]
    split_ifs <;> omega

/-- Witness of C29: a second device is added next to a first one, whose entry
stays. -/
theorem push_frame_witness :
    (postReadings 2000 [("deviceId", .str "m2")]
        (postReadings 1000 [("deviceId", .str "m1")] Store.empty).1).1.latestReadings.length
      = (postReadings 1000 [("deviceId", .str "m1")] Store.empty).1.latestReadings.length + 1 :=
  (push_frame 2000 [("deviceId", .str "m2")]
    (postReadings 1000 [("deviceId", .str "m1")] Store.empty).1
    ⟨.str "m2", .fin 0, .fin 0, .fin 0, .fin 0, .num (.fin 2000)⟩ (by decide!)).2.1
    (by decide!)

/-- A push that throws before storing leaves the store as it was. -/
theorem push_frame_of_throw (now : Nat) (body : List (String × Json)) (st : Store)
    (h : buildReading now body = none) : (postReadings now body st).1 = st := by
  rw [postReadings_of_none st h]

theorem wireNum_textual (x : JSNum) : (wireNum x).textual = true := by
  unfold wireNum
  split_ifs <;> rfl

/-- C28, every stored reading makes the dashboard live.  For every push with a
non-empty string `deviceId` that `POST /readings` answers (also one without
any telemetry field), the `GET /latest` response for that device contains
`voltage`, `current` and `power`; and on a page with a status element, a poll
answered with that response, received at a wall-clock time after the epoch
and checked less than 10000 ms later, sets the connection state to live. -/
theorem stored_reading_makes_live (now : Nat) (body : List (String × Json)) (st : Store)
    (d : String) (hd : d ≠ "") (hid : getField "deviceId" body = some (.str d))
    (hok : (postReadings now body st).2 = .sent okBody)
    (s : Dashboard) (receivedAt checkedAt : Int)
    (hel : s.page.connectionStatus.isSome = true)
    (h0 : 0 < receivedAt) (hgap : checkedAt - receivedAt < 10000) :
    hasTelemetry (getLatest (some d) (postReadings now body st).1).2 = true ∧
    (dataField "voltage" (getLatest (some d) (postReadings now body st).1).2).isSome = true ∧
    (dataField "current" (getLatest (some d) (postReadings now body st).1).2).isSome = true ∧
    (dataField "power" (getLatest (some d) (postReadings now body st).1).2).isSome = true ∧
    (fetchLatestReading
        (.answered 200 (some (getLatest (some d) (postReadings now body st).1).2))
        receivedAt checkedAt s).status = ⟨true, true, some receivedAt⟩ := by
  obtain ⟨r, hr, _, _⟩ := postReadings_sent hok
  have hbid : bodyDeviceId body = .str d := by simp [bodyDeviceId, hid]
  have hresp : (getLatest (some d) (postReadings now body st).1).2 = r.toJson := by
    simp only [getLatest, queryDeviceId_some hd, mapGet_after_post st d hr hbid]
  rw [hresp]
  have hv : dataField "voltage" r.toJson = some (wireNum r.voltage) := by
    simp [dataField, Reading.toJson, getField]
  have hc : dataField "current" r.toJson = some (wireNum r.current) := by
    simp [dataField, Reading.toJson, getField]
  have hp : dataField "power" r.toJson = some (wireNum r.power) := by
    simp [dataField, Reading.toJson, getField]
  have htel : hasTelemetry r.toJson = true := by
    simp [hasTelemetry, Reading.toJson, getField]
  refine ⟨htel, by rw [hv]; rfl, by rw [hc]; rfl, by rw [hp]; rfl, ?_⟩
  have hret := dashboardData_returns r.toJson s.page (by rw [hv]; exact wireNum_textual _)
    (by rw [hc]; exact wireNum_textual _) (by rw [hp]; exact wireNum_textual _)
  rw [fetchLatestReading_data 200 r.toJson receivedAt checkedAt s (by decide) htel hret]
  have hcs := updateDashboard_connectionStatus (dashboardData r.toJson) s.page
  obtain ⟨el, hel'⟩ := Option.isSome_iff_exists.1 hel
  rw [updateConnectionStatus_live checkedAt receivedAt _ el (by rw [hcs, hel']) rfl (by omega),
    if_pos hgap]

/-- Witness of C28: a push without any telemetry field, then a poll. -/
theorem stored_reading_makes_live_witness :
    hasTelemetry (getLatest (some "m1")
      (postReadings 1000 [("deviceId", .str "m1")] Store.empty).1).2 = true ∧
    (fetchLatestReading
        (.answered 200 (some (getLatest (some "m1")
          (postReadings 1000 [("deviceId", .str "m1")] Store.empty).1).2))
        5000 5001
        ⟨ConnectionStatus.initial,
          ⟨some offlineEl, some "", some "", some "", some "", some "", some "", some "",
            some ""⟩⟩).status = ⟨true, true, some 5000⟩ :=
  ⟨(stored_reading_makes_live 1000 [("deviceId", .str "m1")] Store.empty "m1" (by decide)
      (by decide) (by decide!)
      ⟨ConnectionStatus.initial,
        ⟨some offlineEl, some "", some "", some "", some "", some "", some "", some "",
          some ""⟩⟩ 5000 5001 (by decide) (by decide) (by decide)).1,
   (stored_reading_makes_live 1000 [("deviceId", .str "m1")] Store.empty "m1" (by decide)
      (by decide) (by decide!)
      ⟨ConnectionStatus.initial,
        ⟨some offlineEl, some "", some "", some "", some "", some "", some "", some "",
          some ""⟩⟩ 5000 5001 (by decide) (by decide) (by decide)).2.2.2.2⟩

end EnergyMeter

namespace EnergyMeter

/-! ## Lemmas on number formatting -/

theorem ofNat_digit (d : Nat) (h : d < 10) :
    isDecDigit (Char.ofNat (48 + d)) = true ∧ (Char.ofNat (48 + d)).toNat - 48 = d := by
  interval_cases d <;> exact ⟨by decide, by decide⟩

theorem digitsAux_all_digits (fuel : Nat) :
    ∀ (n : Nat) (acc : List Char), (∀ c ∈ acc, isDecDigit c = true) →
      ∀ c ∈ digitsAux fuel n acc, isDecDigit c = true := by
  induction fuel with
  | zero => intro n acc h; simpa [digitsAux] using h
  | succ f ih =>
    intro n acc h
    unfold digitsAux
    split_ifs with hn
    · intro c hc
      rcases List.mem_cons.1 hc with he | hm
      · rw [he]; exact (ofNat_digit n hn).1
      · exact h c hm
    · apply ih
      intro c hc
      rcases List.mem_cons.1 hc with he | hm
      · rw [he]; exact (ofNat_digit (n % 10) (Nat.mod_lt _ (by norm_num))).1
      · exact h c hm

theorem numeralValue_cons (c : Char) (cs : List Char) :
    numeralValue (c :: cs) = (c.toNat - 48) * 10 ^ cs.length + numeralValue cs := by
  rw [numeralValue]

theorem digitsAux_value (fuel : Nat) :
    ∀ (n : Nat) (acc : List Char), n < fuel →
      numeralValue (digitsAux fuel n acc) = n * 10 ^ acc.length + numeralValue acc := by
  induction fuel with
  | zero => intro n acc h; exact absurd h (by omega)
  | succ f ih =>
    intro n acc h
    unfold digitsAux
    split_ifs with hn
    · rw [numeralValue_cons, (ofNat_digit n hn).2]
    · have hlt : n / 10 < f := by omega
      rw [ih (n / 10) _ hlt, numeralValue_cons,
        (ofNat_digit (n % 10) (Nat.mod_lt _ (by norm_num))).2, List.length_cons, pow_succ]
      have := Nat.div_add_mod n 10
      conv_rhs => rw [← this]
      ring

theorem digitsAux_ne_nil (fuel : Nat) :
    ∀ (n : Nat) (acc : List Char), (acc ≠ [] ∨ 0 < fuel) → digitsAux fuel n acc ≠ [] := by
  induction fuel with
  | zero =>
    intro n acc h
    rcases h with h | h
    · simpa [digitsAux] using h
    · exact absurd h (by omega)
  | succ f ih =>
    intro n acc _
    unfold digitsAux
    split_ifs
    · simp
    · exact ih _ _ (Or.inl (by simp))

theorem natDigits_spec (n : Nat) :
    natDigits n ≠ [] ∧ (∀ c ∈ natDigits n, isDecDigit c = true) ∧
    numeralValue (natDigits n) = n := by
  refine ⟨digitsAux_ne_nil _ _ _ (Or.inr (by omega)),
    digitsAux_all_digits _ _ _ (by simp), ?_⟩
  have := digitsAux_value (n + 1) n [] (by omega)
  simpa [natDigits, numeralValue] using this

theorem numeralValue_zeros (k : Nat) (m : List Char) :
    numeralValue (List.replicate k '0' ++ m) = numeralValue m := by
  induction k with
  | zero => rfl
  | succ k ih =>
    rw [List.replicate_succ, List.cons_append, numeralValue_cons, ih]
    simp

/-- The text of `fixedDigits` is an integer part, a point and `fd` fraction
digits that together denote `n / 10 ^ fd`. -/
theorem fixedDigits_spec (fd n : Nat) (hfd : 0 < fd) :
    ∃ ip fp : List Char, fixedDigits fd n = ip ++ '.' :: fp ∧ ip ≠ [] ∧
      (∀ c ∈ ip, isDecDigit c = true) ∧ (∀ c ∈ fp, isDecDigit c = true) ∧
      fp.length = fd ∧ numeralValue ip * 10 ^ fd + numeralValue fp = n := by
  obtain ⟨hne, hdig, hval⟩ := natDigits_spec n
  have hlen : 0 < (natDigits n).length := List.length_pos.2 hne
  let padded := List.replicate (fd + 1 - (natDigits n).length) '0' ++ natDigits n
  have hpl : fd + 1 ≤ padded.length := by
    simp only [padded, List.length_append, List.length_replicate]
    omega
  have hpd : ∀ c ∈ padded, isDecDigit c = true := by
    intro c hc
    rcases List.mem_append.1 hc with h | h
    · rw [(List.mem_replicate.1 h).2]; decide
    · exact hdig c h
  have hpv : numeralValue padded = n := by
    simp only [padded, numeralValue_zeros, hval]
  refine ⟨padded.take (padded.length - fd), padded.drop (padded.length - fd), ?_, ?_, ?_, ?_,
    ?_, ?_⟩
  · simp only [fixedDigits, (Nat.pos_iff_ne_zero.1 hfd), if_false]
  · intro h
    have hl := congrArg List.length h
    simp only [List.length_take, List.length_nil] at hl
    omega
  · intro c hc
    exact hpd c (List.mem_of_mem_take hc)
  · intro c hc
    exact hpd c (List.mem_of_mem_drop hc)
  · simp only [List.length_drop]
    omega
  · have hsplit := numeralValue_append (padded.take (padded.length - fd))
      (padded.drop (padded.length - fd))
    rw [List.take_append_drop, hpv] at hsplit
    have hdl : (padded.drop (padded.length - fd)).length = fd := by
      simp only [List.length_drop]
      omega
    rw [hdl] at hsplit
    exact hsplit.symm

/-- The integer `nearestScaled fd x` is a nearest integer to `x * 10 ^ fd`. -/
theorem nearestScaled_nearest (fd : Nat) (x : ℚ) (hx : 0 ≤ x) (m : ℤ) :
    |(nearestScaled fd x : ℚ) / 10 ^ fd - x| ≤ |(m : ℚ) / 10 ^ fd - x| := by
  have hp : (0 : ℚ) < 10 ^ fd := by positivity
  set y := x * 10 ^ fd with hy
  have hy0 : 0 ≤ y := by positivity
  have hfl0 : 0 ≤ ⌊y + 1 / 2⌋ := Int.floor_nonneg.2 (by linarith)
  have hn : ((nearestScaled fd x : ℕ) : ℚ) = ((⌊y + 1 / 2⌋ : ℤ) : ℚ) := by
    unfold nearestScaled
    rw [← hy]
    have : ((⌊y + 1 / 2⌋.toNat : ℕ) : ℤ) = ⌊y + 1 / 2⌋ := Int.toNat_of_nonneg hfl0
    exact_mod_cast this
  rw [hn]
  have h1 : ((⌊y + 1 / 2⌋ : ℤ) : ℚ) ≤ y + 1 / 2 := Int.floor_le _
  have h2 : y + 1 / 2 < ((⌊y + 1 / 2⌋ : ℤ) : ℚ) + 1 := Int.lt_floor_add_one _
  have e1 : ∀ k : ℤ, (k : ℚ) / 10 ^ fd - x = ((k : ℚ) - y) / 10 ^ fd := by
    intro k
    rw [hy]
    field_simp
    ring
  rw [e1, e1, abs_div, abs_div, abs_of_pos hp]
  apply div_le_div_of_nonneg_right _ hp.le
  have hnear : |((⌊y + 1 / 2⌋ : ℤ) : ℚ) - y| ≤ 1 / 2 := by
    rw [abs_le]
    constructor <;> linarith
  by_cases hm : m = ⌊y + 1 / 2⌋
  · rw [hm]
  · have hdiff : (1 : ℚ) ≤ |(m : ℚ) - ((⌊y + 1 / 2⌋ : ℤ) : ℚ)| := by
      have : (1 : ℤ) ≤ |m - ⌊y + 1 / 2⌋| := Int.one_le_abs (sub_ne_zero.2 hm)
      exact_mod_cast this
    have htri : |(m : ℚ) - ((⌊y + 1 / 2⌋ : ℤ) : ℚ)|
        ≤ |(m : ℚ) - y| + |((⌊y + 1 / 2⌋ : ℤ) : ℚ) - y| := by
      have := abs_sub_le (m : ℚ) y ((⌊y + 1 / 2⌋ : ℤ) : ℚ)
      rw [abs_sub_comm y] at this
      exact this
    linarith

end EnergyMeter

namespace EnergyMeter

theorem decimal_of_parts (neg : Bool) (ip fp : List Char) (hne : ip ≠ [])
    (hip : ∀ c ∈ ip, isDecDigit c = true) (hfp : ∀ c ∈ fp, isDecDigit c = true)
    (hfn : fp ≠ []) :
    Decimal.wellFormed ⟨neg, ip, fp⟩ = true ∧
    Decimal.chars ⟨neg, ip, fp⟩ = (if neg then ['-'] else []) ++ (ip ++ '.' :: fp) := by
  constructor
  · simp only [Decimal.wellFormed, Bool.and_eq_true, Bool.not_eq_true', List.all_eq_true,
      List.isEmpty_eq_false]
    exact ⟨⟨hne, hip⟩, hfp⟩
  · have : fp.isEmpty = false := by
      cases fp with
      | nil => exact absurd rfl hfn
      | cons _ _ => rfl
    simp only [Decimal.chars, this, Bool.false_eq_true, if_false]

/-- Below `10 ^ 21` in magnitude, `toFixed(fd)` writes a numeral with `fd`
digits after the point that denotes a nearest multiple of `10 ^ (-fd)`. -/
theorem toFixed_roundsTo (fd : Nat) (hfd : 0 < fd) (q : ℚ) (hq : |q| < 10 ^ 21) :
    RoundsTo fd q (toFixed fd (.fin q)) := by
  have h21 : ¬ ((10 : ℚ) ^ 21 ≤ |q|) := not_le.2 hq
  have hp : (0 : ℚ) < 10 ^ fd := by positivity
  unfold toFixed
  simp only [h21, if_false]
  by_cases hneg : q < 0
  · simp only [hneg, if_true]
    obtain ⟨ip, fp, htext, hne, hip, hfp, hlen, hval⟩ :=
      fixedDigits_spec fd (nearestScaled fd (-q)) hfd
    have hfn : fp ≠ [] := by
      intro h
      rw [h] at hlen
      simp at hlen
      omega
    obtain ⟨hw, hc⟩ := decimal_of_parts true ip fp hne hip hfp hfn
    refine ⟨⟨true, ip, fp⟩, hw, hlen, ?_, ?_⟩
    · rw [hc, htext]
      rfl
    · intro m
      have hv : Decimal.value ⟨true, ip, fp⟩
          = -((nearestScaled fd (-q) : ℚ) / 10 ^ fd) := by
        simp only [Decimal.value, if_true, hlen]
        rw [← hval]
        push_cast
        field_simp
      rw [hv]
      have := nearestScaled_nearest fd (-q) (by linarith) (-m)
      have e1 : -((nearestScaled fd (-q) : ℚ) / 10 ^ fd) - q
          = -((nearestScaled fd (-q) : ℚ) / 10 ^ fd - -q) := by ring
      have e2 : (m : ℚ) / 10 ^ fd - q = -(((-m : ℤ) : ℚ) / 10 ^ fd - -q) := by
        push_cast
        ring
      rw [e1, e2, abs_neg, abs_neg]
      exact this
  · simp only [hneg, if_false]
    obtain ⟨ip, fp, htext, hne, hip, hfp, hlen, hval⟩ :=
      fixedDigits_spec fd (nearestScaled fd q) hfd
    have hfn : fp ≠ [] := by
      intro h
      rw [h] at hlen
      simp at hlen
      omega
    obtain ⟨hw, hc⟩ := decimal_of_parts false ip fp hne hip hfp hfn
    refine ⟨⟨false, ip, fp⟩, hw, hlen, ?_, ?_⟩
    · rw [hc, htext]
      rfl
    · intro m
      have hv : Decimal.value ⟨false, ip, fp⟩ = (nearestScaled fd q : ℚ) / 10 ^ fd := by
        simp only [Decimal.value, Bool.false_eq_true, if_false, hlen]
        rw [← hval]
        push_cast
        field_simp
      rw [hv]
      exact nearestScaled_nearest fd q (not_lt.1 hneg) m

theorem roundsTo_hasDecimals {fd : Nat} {x : ℚ} {s : List Char} (h : RoundsTo fd x s) :
    HasDecimals fd s := by
  obtain ⟨d, hw, hl, hs, _⟩ := h
  exact ⟨d, hw, hl, hs⟩

end EnergyMeter

namespace EnergyMeter

/-! ## Properties of `formatUnit` -/

theorem formatUnit_num (q : ℚ) (type : String) (h : readsBack q) :
    formatUnit (some (.num (.fin q))) type
      = some (String.mk (toFixed 1 (scaleUnit type (.fin q)).1), (scaleUnit type (.fin q)).2) := by
  unfold readsBack at h
  simp only [formatUnit, Json.toNumber, Json.toStr, h, reduceCtorEq, if_false]

theorem chars_allowed (d : Decimal) (h : d.wellFormed = true) :
    ∀ c ∈ d.chars, isDecDigit c = true ∨ c = '-' ∨ c = '.' := by
  simp only [Decimal.wellFormed, Bool.and_eq_true, Bool.not_eq_true', List.all_eq_true] at h
  obtain ⟨⟨_, hip⟩, hfp⟩ := h
  intro c hc
  simp only [Decimal.chars, List.mem_append] at hc
  rcases hc with hc | hc | hc
  · split_ifs at hc
    · simp only [List.mem_singleton] at hc
      exact Or.inr (Or.inl hc)
    · simp at hc
  · exact Or.inl (hip c hc)
  · split_ifs at hc
    · simp at hc
    · rcases List.mem_cons.1 hc with he | hm
      · exact Or.inr (Or.inr he)
      · exact Or.inl (hfp c hm)

/-- A text with a character other than a digit, a minus sign or a point is
not a decimal numeral. -/
theorem not_hasDecimals (fd : Nat) (s : List Char) (c : Char) (hc : c ∈ s)
    (hbad : isDecDigit c = false ∧ c ≠ '-' ∧ c ≠ '.') : ¬ HasDecimals fd s := by
  rintro ⟨d, hw, _, hs⟩
  rw [hs] at hc
  rcases chars_allowed d hw c hc with h | h | h
  · rw [h] at hbad
    exact absurd hbad.1 (by simp)
  · exact hbad.2.1 h
  · exact hbad.2.2 h

end EnergyMeter

namespace EnergyMeter

theorem scaleUnit_power (q : ℚ) :
    scaleUnit "power" (.fin q)
      = if 1000 ≤ q then (roundDouble (q / 1000), "kW") else (.fin q, "W") := by
  simp only [scaleUnit, JSNum.ge, JSNum.divBy, if_true, decide_eq_true_eq]

theorem scaleUnit_current (q : ℚ) :
    scaleUnit "current" (.fin q)
      = if 1000 ≤ q then (roundDouble (q / 1000), "A") else (.fin q, "mA") := by
  have h : ¬ ("current" = "power") := by decide
  simp only [scaleUnit, JSNum.ge, JSNum.divBy, h, if_false, if_true, decide_eq_true_eq]

theorem scaleUnit_voltage (x : JSNum) : scaleUnit "voltage" x = (x, "V") := by
  have h1 : ¬ ("voltage" = "power") := by decide
  have h2 : ¬ ("voltage" = "current") := by decide
  simp only [scaleUnit, h1, h2, if_false, if_true]

theorem scaleUnit_energy (q : ℚ) :
    scaleUnit "energy" (.fin q)
      = if 1000000 ≤ q then (roundDouble (q / 1000000), "kWh")
        else if 1000 ≤ q then (roundDouble (q / 1000), "Wh") else (.fin q, "mWh") := by
  have h1 : ¬ ("energy" = "power") := by decide
  have h2 : ¬ ("energy" = "current") := by decide
  have h3 : ¬ ("energy" = "voltage") := by decide
  simp only [scaleUnit, JSNum.ge, JSNum.divBy, h1, h2, h3, if_false, if_true,
    decide_eq_true_eq]

/-- C18 as stated fails: a power of `10 ^ 24` watts is shown as `1e+21` with
unit `kW`, which is not a numeral with one decimal place. -/
theorem power_formatting_counterexample :
    formatUnit (some (.num (.fin (10 ^ 24)))) "power" = some ("1e+21", "kW") ∧
    ¬ HasDecimals 1 "1e+21".toList := by
  refine ⟨by decide!, not_hasDecimals 1 _ 'e' (by decide) (by decide)⟩

/-- C18, amended.  For every finite power value `v` in watts (a binary64
value): when `v ≥ 1000` the unit is `kW` and the value string is the binary64
quotient `v / 1000` rounded to one decimal place, provided that quotient is
below `10 ^ 21`; otherwise the unit is `W` and the value string is `v` rounded
to one decimal place, provided `v` is below `10 ^ 21` in magnitude. -/
theorem power_formatting (q : ℚ) (hrb : readsBack q) :
    (1000 ≤ q → ∃ text, formatUnit (some (.num (.fin q))) "power" = some (text, "kW") ∧
      ∀ x, roundDouble (q / 1000) = .fin x → |x| < 10 ^ 21 → RoundsTo 1 x text.toList) ∧
    (q < 1000 → ∃ text, formatUnit (some (.num (.fin q))) "power" = some (text, "W") ∧
      (|q| < 10 ^ 21 → RoundsTo 1 q text.toList)) := by
  rw [formatUnit_num q "power" hrb, scaleUnit_power]
  constructor
  · intro h
    rw [if_pos h]
    refine ⟨_, rfl, fun x hx hlt => ?_⟩
    simp only [hx]
    exact toFixed_roundsTo 1 (by norm_num) x hlt
  · intro h
    rw [if_neg (not_le.2 h)]
    exact ⟨_, rfl, fun hlt => toFixed_roundsTo 1 (by norm_num) q hlt⟩

/-- Witness of C18, amended: 500 W is shown as `500.0` `W` and 1500 W as `1.5`
`kW`. -/
theorem power_formatting_witness :
    formatUnit (some (.num (.fin 500))) "power" = some ("500.0", "W") ∧
    formatUnit (some (.num (.fin 1500))) "power" = some ("1.5", "kW") ∧
    ∃ text, formatUnit (some (.num (.fin 1500))) "power" = some (text, "kW") ∧
      ∀ x, roundDouble ((1500 : ℚ) / 1000) = .fin x → |x| < 10 ^ 21 →
        RoundsTo 1 x text.toList :=
  ⟨by decide!, by decide!,
    (power_formatting 1500 (by unfold readsBack; decide!)).1 (by norm_num)⟩

/-- C19 as stated fails: a current of `10 ^ 24` milliamps is shown as `1e+21`
with unit `A`. -/
theorem current_formatting_counterexample :
    formatUnit (some (.num (.fin (10 ^ 24)))) "current" = some ("1e+21", "A") ∧
    ¬ HasDecimals 1 "1e+21".toList := by
  refine ⟨by decide!, not_hasDecimals 1 _ 'e' (by decide) (by decide)⟩

/-- C19, amended.  For every finite current value `v` in milliamps (a binary64
value): when `v ≥ 1000` the unit is `A` and the value string is the binary64
quotient `v / 1000` rounded to one decimal place, provided that quotient is
below `10 ^ 21`; otherwise the unit is `mA` and the value string is `v`
rounded to one decimal place, provided `v` is below `10 ^ 21` in magnitude. -/
theorem current_formatting (q : ℚ) (hrb : readsBack q) :
    (1000 ≤ q → ∃ text, formatUnit (some (.num (.fin q))) "current" = some (text, "A") ∧
      ∀ x, roundDouble (q / 1000) = .fin x → |x| < 10 ^ 21 → RoundsTo 1 x text.toList) ∧
    (q < 1000 → ∃ text, formatUnit (some (.num (.fin q))) "current" = some (text, "mA") ∧
      (|q| < 10 ^ 21 → RoundsTo 1 q text.toList)) := by
  rw [formatUnit_num q "current" hrb, scaleUnit_current]
  constructor
  · intro h
    rw [if_pos h]
    refine ⟨_, rfl, fun x hx hlt => ?_⟩
    simp only [hx]
    exact toFixed_roundsTo 1 (by norm_num) x hlt
  · intro h
    rw [if_neg (not_le.2 h)]
    exact ⟨_, rfl, fun hlt => toFixed_roundsTo 1 (by norm_num) q hlt⟩

/-- Witness of C19, amended: the boundary, 999 mA is shown as `999.0` `mA` and
1000 mA as `1.0` `A`. -/
theorem current_formatting_witness :
    formatUnit (some (.num (.fin 999))) "current" = some ("999.0", "mA") ∧
    formatUnit (some (.num (.fin 1000))) "current" = some ("1.0", "A") ∧
    ∃ text, formatUnit (some (.num (.fin 999))) "current" = some (text, "mA") ∧
      (|(999 : ℚ)| < 10 ^ 21 → RoundsTo 1 999 text.toList) :=
  ⟨by decide!, by decide!,
    (current_formatting 999 (by unfold readsBack; decide!)).2 (by norm_num)⟩

/-- C20 as stated fails: an energy of `10 ^ 27` milliwatt-hours is shown as
`1e+21` with unit `kWh`. -/
theorem energy_formatting_counterexample :
    formatUnit (some (.num (.fin (10 ^ 27)))) "energy" = some ("1e+21", "kWh") ∧
    ¬ HasDecimals 1 "1e+21".toList := by
  refine ⟨by decide!, not_hasDecimals 1 _ 'e' (by decide) (by decide)⟩

/-- C20, amended.  For every finite energy value `v` in milliwatt-hours (a
binary64 value): the unit is `kWh` with the binary64 quotient `v / 1000000`
when `v ≥ 1000000`, `Wh` with the binary64 quotient `v / 1000` when
`1000 ≤ v < 1000000`, and `mWh` with `v` itself when `v < 1000`; the value
string is that number rounded to one decimal place, provided it is below
`10 ^ 21` in magnitude. -/
theorem energy_formatting (q : ℚ) (hrb : readsBack q) :
    (1000000 ≤ q → ∃ text, formatUnit (some (.num (.fin q))) "energy" = some (text, "kWh") ∧
      ∀ x, roundDouble (q / 1000000) = .fin x → |x| < 10 ^ 21 → RoundsTo 1 x text.toList) ∧
    (1000 ≤ q → q < 1000000 →
      ∃ text, formatUnit (some (.num (.fin q))) "energy" = some (text, "Wh") ∧
        ∀ x, roundDouble (q / 1000) = .fin x → |x| < 10 ^ 21 → RoundsTo 1 x text.toList) ∧
    (q < 1000 → ∃ text, formatUnit (some (.num (.fin q))) "energy" = some (text, "mWh") ∧
      (|q| < 10 ^ 21 → RoundsTo 1 q text.toList)) := by
  rw [formatUnit_num q "energy" hrb, scaleUnit_energy]
  refine ⟨?_, ?_, ?_⟩
  · intro h
    rw [if_pos h]
    refine ⟨_, rfl, fun x hx hlt => ?_⟩
    simp only [hx]
    exact toFixed_roundsTo 1 (by norm_num) x hlt
  · intro h1 h2
    rw [if_neg (not_le.2 h2), if_pos h1]
    refine ⟨_, rfl, fun x hx hlt => ?_⟩
    simp only [hx]
    exact toFixed_roundsTo 1 (by norm_num) x hlt
  · intro h
    rw [if_neg (not_le.2 (by linarith)), if_neg (not_le.2 h)]
    exact ⟨_, rfl, fun hlt => toFixed_roundsTo 1 (by norm_num) q hlt⟩

/-- Witness of C20, amended: 2500000 mWh is shown as `2.5` `kWh`. -/
theorem energy_formatting_witness :
    formatUnit (some (.num (.fin 2500000))) "energy" = some ("2.5", "kWh") ∧
    ∃ text, formatUnit (some (.num (.fin 2500000))) "energy" = some (text, "kWh") ∧
      ∀ x, roundDouble ((2500000 : ℚ) / 1000000) = .fin x → |x| < 10 ^ 21 →
        RoundsTo 1 x text.toList :=
  ⟨by decide!, (energy_formatting 2500000 (by unfold readsBack; decide!)).1 (by norm_num)⟩

/-- C21 as stated fails: a voltage of `10 ^ 21` volts is shown as `1e+21`. -/
theorem voltage_formatting_counterexample :
    formatUnit (some (.num (.fin (10 ^ 21)))) "voltage" = some ("1e+21", "V") ∧
    ¬ HasDecimals 1 "1e+21".toList := by
  refine ⟨by decide!, not_hasDecimals 1 _ 'e' (by decide) (by decide)⟩

/-- C21, amended.  For every finite voltage value `v` (a binary64 value) the
unit is `V`, with no scaling, and the value string is `v` itself rounded to
one decimal place provided `v` is below `10 ^ 21` in magnitude. -/
theorem voltage_formatting (q : ℚ) (hrb : readsBack q) :
    ∃ text, formatUnit (some (.num (.fin q))) "voltage" = some (text, "V") ∧
      text.toList = toFixed 1 (.fin q) ∧
      (|q| < 10 ^ 21 → RoundsTo 1 q text.toList) := by
  rw [formatUnit_num q "voltage" hrb, scaleUnit_voltage]
  exact ⟨_, rfl, rfl, fun hlt => toFixed_roundsTo 1 (by norm_num) q hlt⟩

/-- Witness of C21, amended: 5000 V stays in volts. -/
theorem voltage_formatting_witness :
    ∃ text, formatUnit (some (.num (.fin 5000))) "voltage" = some (text, "V") ∧
      text.toList = toFixed 1 (.fin 5000) ∧
      (|(5000 : ℚ)| < 10 ^ 21 → RoundsTo 1 5000 text.toList) :=
  voltage_formatting 5000 (by unfold readsBack; decide!)

/-- C22, missing values.  For every quantity type, `formatUnit` of
`undefined`, of `null` and of `NaN` returns the value string `0.0` with the
empty unit. -/
theorem format_of_missing (type : String) :
    formatUnit none type = some ("0.0", "") ∧
    formatUnit (some .null) type = some ("0.0", "") ∧
    formatUnit (some (.num .nan)) type = some ("0.0", "") :=
  ⟨rfl, rfl, by simp [formatUnit, Json.toNumber, Json.toStr]⟩

/-- C30 as stated fails for a large magnitude: `-10 ^ 21` watts keeps the base
unit `W`, but its value string is `-1e+21`, not a numeral with one decimal
place. -/
theorem negative_formatting_counterexample :
    formatUnit (some (.num (.fin (-10 ^ 21)))) "power" = some ("-1e+21", "W") ∧
    ¬ HasDecimals 1 "-1e+21".toList := by
  refine ⟨by decide!, not_hasDecimals 1 _ 'e' (by decide) (by decide)⟩

/-- C30, amended.  For every negative finite value `v` (a binary64 value),
however large its magnitude, `formatUnit` returns the base unit (`W` for
power, `mA` for current, `mWh` for energy) and formats the unscaled `v`; the
value string is `v` rounded to one decimal place when `v` is below `10 ^ 21`
in magnitude. -/
theorem negative_never_promoted (q : ℚ) (hneg : q < 0) (hrb : readsBack q) :
    formatUnit (some (.num (.fin q))) "power" = some (String.mk (toFixed 1 (.fin q)), "W") ∧
    formatUnit (some (.num (.fin q))) "current" = some (String.mk (toFixed 1 (.fin q)), "mA") ∧
    formatUnit (some (.num (.fin q))) "energy" = some (String.mk (toFixed 1 (.fin q)), "mWh") ∧
    (|q| < 10 ^ 21 → RoundsTo 1 q (toFixed 1 (.fin q))) := by
  have h1 : ¬ (1000 ≤ q) := by linarith
  have h2 : ¬ (1000000 ≤ q) := by linarith
  refine ⟨?_, ?_, ?_, fun hlt => toFixed_roundsTo 1 (by norm_num) q hlt⟩
  · rw [formatUnit_num q "power" hrb, scaleUnit_power, if_neg h1]
  · rw [formatUnit_num q "current" hrb, scaleUnit_current, if_neg h1]
  · rw [formatUnit_num q "energy" hrb, scaleUnit_energy, if_neg h2, if_neg h1]

/-- Witness of C30, amended: `-5000` is shown as `-5000.0` in the base unit. -/
theorem negative_never_promoted_witness :
    formatUnit (some (.num (.fin (-5000)))) "power"
      = some (String.mk (toFixed 1 (.fin (-5000))), "W") ∧
    String.mk (toFixed 1 (.fin (-5000))) = "-5000.0" :=
  ⟨(negative_never_promoted (-5000) (by norm_num) (by unfold readsBack; decide!)).1,
    by decide!⟩

end EnergyMeter

namespace EnergyMeter

/-! ## Properties of `updateDashboard` -/

theorem showPower_frame {data : DashboardData} {p q : Page} (h : showPower data p = some q) :
    q = { p with totalPower := q.totalPower, totalPowerLabel := q.totalPowerLabel } := by
  unfold showPower at h
  split_ifs at h
  · split at h
    · exact absurd h (by simp)
    · simp only [Option.some.injEq] at h
      rw [← h]
  · simp only [Option.some.injEq] at h
    rw [← h]

theorem showCurrent_frame {data : DashboardData} {p q : Page}
    (h : showCurrent data p = some q) :
    q = { p with totalCurrent := q.totalCurrent, totalCurrentLabel := q.totalCurrentLabel } := by
  unfold showCurrent at h
  split_ifs at h
  · split at h
    · exact absurd h (by simp)
    · simp only [Option.some.injEq] at h
      rw [← h]
  · simp only [Option.some.injEq] at h
    rw [← h]

theorem showVoltage_frame {data : DashboardData} {p q : Page}
    (h : showVoltage data p = some q) :
    q = { p with lineVoltage := q.lineVoltage, lineVoltageLabel := q.lineVoltageLabel } := by
  unfold showVoltage at h
  split_ifs at h
  · split at h
    · exact absurd h (by simp)
    · split_ifs at h <;> (simp only [Option.some.injEq] at h; rw [← h])
  · simp only [Option.some.injEq] at h
    rw [← h]

theorem showEnergy_frame {data : DashboardData} {p q : Page} (h : showEnergy data p = some q) :
    q = { p with todayEnergy := q.todayEnergy, todayEnergyLabel := q.todayEnergyLabel } := by
  unfold showEnergy at h
  split_ifs at h
  · split at h
    · exact absurd h (by simp)
    · simp only [Option.some.injEq] at h
      rw [← h]
  · simp only [Option.some.injEq] at h
    rw [← h]

theorem showPower_value {data : DashboardData} {p q : Page} (h : showPower data p = some q)
    (hel : p.totalPower.isSome = true) (hd : data.totalPower.isSome = true) :
    ∃ r, formatUnit data.totalPower "power" = some r ∧ q.totalPower = some r.1 ∧
      q.totalPowerLabel = setText p.totalPowerLabel ("Total Power (" ++ r.2 ++ ")") := by
  unfold showPower at h
  rw [if_pos ⟨hel, hd⟩] at h
  split at h
  · exact absurd h (by simp)
  · rename_i r hr
    simp only [Option.some.injEq] at h
    exact ⟨r, hr, by rw [← h], by rw [← h]⟩

theorem showCurrent_value {data : DashboardData} {p q : Page}
    (h : showCurrent data p = some q)
    (hel : p.totalCurrent.isSome = true) (hd : data.totalCurrent.isSome = true) :
    ∃ r, formatUnit data.totalCurrent "current" = some r ∧ q.totalCurrent = some r.1 ∧
      q.totalCurrentLabel = setText p.totalCurrentLabel ("Total Current (" ++ r.2 ++ ")") := by
  unfold showCurrent at h
  rw [if_pos ⟨hel, hd⟩] at h
  split at h
  · exact absurd h (by simp)
  · rename_i r hr
    simp only [Option.some.injEq] at h
    exact ⟨r, hr, by rw [← h], by rw [← h]⟩

theorem showEnergy_value {data : DashboardData} {p q : Page} (h : showEnergy data p = some q)
    (hel : p.todayEnergy.isSome = true) (hd : data.todayEnergy.isSome = true) :
    ∃ r, formatUnit data.todayEnergy "energy" = some r ∧ q.todayEnergy = some r.1 ∧
      q.todayEnergyLabel
        = setText p.todayEnergyLabel ("Today\x27s Energy Usage (" ++ r.2 ++ ")") := by
  unfold showEnergy at h
  rw [if_pos ⟨hel, hd⟩] at h
  split at h
  · exact absurd h (by simp)
  · rename_i r hr
    simp only [Option.some.injEq] at h
    exact ⟨r, hr, by rw [← h], by rw [← h]⟩

theorem orElse_isSome {a b v : Option Json} {w : Json} (h : orElse a b = some w)
    (_ : v = a) : b.isSome = true ∨ a.isSome = true := by
  cases a with
  | none =>
    simp only [orElse] at h
    exact Or.inl (by rw [h]; rfl)
  | some x => exact Or.inr rfl

theorem showVoltage_value (data : DashboardData) (p : Page) (q : ℚ)
    (hv : orElse data.voltage data.lineVoltage = some (.num (.fin q)))
    (hrb : readsBack q) (hel : p.lineVoltage.isSome = true) :
    showVoltage data p
      = some { p with lineVoltage := some (String.mk (toFixed 2 (.fin q)))
                      lineVoltageLabel := setText p.lineVoltageLabel "Line Voltage (V)" } := by
  have hdef := orElse_isSome hv rfl
  unfold readsBack at hrb
  unfold showVoltage
  rw [if_pos ⟨hel, hdef⟩, hv]
  simp only [parseFloatArg, argToStr, Json.toStr, Option.map_some', hrb, reduceCtorEq, if_false]

end EnergyMeter

namespace EnergyMeter

theorem updateConnectionStatus_page (now : Int) (s : Dashboard) :
    (updateConnectionStatus now s).page
      = { s.page with
          connectionStatus := (updateConnectionStatus now s).page.connectionStatus } := by
  unfold updateConnectionStatus
  cases h : s.page.connectionStatus with
  | none =>
    dsimp only
  | some el =>
    dsimp only
    split_ifs <;> rfl

theorem orElse_number (data : DashboardData) (q : ℚ)
    (hv : (data.voltage = some (.num (.fin q)) ∧ q ≠ 0) ∨
          (data.voltage = none ∧ data.lineVoltage = some (.num (.fin q)))) :
    orElse data.voltage data.lineVoltage = some (.num (.fin q)) := by
  rcases hv with ⟨h, hne⟩ | ⟨h, h2⟩
  · rw [h]
    simp [orElse, Json.truthy, JSNum.truthy, hne]
  · rw [h, h2]
    rfl

/-- C24 as stated fails: a voltage of `10 ^ 21` is shown as `1e+21` in the
line-voltage widget, which has no decimals. -/
theorem line_voltage_counterexample :
    (updateDashboard
        ⟨none, none, some (.num (.fin (10 ^ 21))), none, none⟩
        ⟨none, some "--", some "--", some "--", some "--", some "", some "", some "",
          some ""⟩).1.lineVoltage = some "1e+21" ∧
    ¬ HasDecimals 2 "1e+21".toList := by
  refine ⟨by decide!, not_hasDecimals 2 _ 'e' (by decide) (by decide)⟩

/-- C24, amended.  For every data object whose `voltage` is a non-zero number
`v`, or whose `voltage` is absent and whose `lineVoltage` is the number `v`,
with `v` a binary64 value below `10 ^ 21` in magnitude, on a page that has the
line-voltage widget, and with `totalPower`, `totalCurrent`, `todayEnergy`
textual: `updateDashboard` returns, the line-voltage widget shows `v` rounded
to two decimal places and its label, when present, reads `Line Voltage (V)`;
and each of the power, current and energy widgets, when it and its field are
present, shows the value string of `formatUnit` (one decimal place). -/
theorem line_voltage_two_decimals (data : DashboardData) (p : Page) (q : ℚ)
    (hv : (data.voltage = some (.num (.fin q)) ∧ q ≠ 0) ∨
          (data.voltage = none ∧ data.lineVoltage = some (.num (.fin q))))
    (hrb : readsBack q) (hq : |q| < 10 ^ 21) (hel : p.lineVoltage.isSome = true)
    (hP : argTextual data.totalPower = true) (hC : argTextual data.totalCurrent = true)
    (hE : argTextual data.todayEnergy = true) :
    (updateDashboard data p).2 = true ∧
    (∃ text, (updateDashboard data p).1.lineVoltage = some text ∧
      RoundsTo 2 q text.toList) ∧
    (updateDashboard data p).1.lineVoltageLabel
      = setText p.lineVoltageLabel "Line Voltage (V)" ∧
    (p.totalPower.isSome = true → data.totalPower.isSome = true →
      ∃ r, formatUnit data.totalPower "power" = some r ∧
        (updateDashboard data p).1.totalPower = some r.1) ∧
    (p.totalCurrent.isSome = true → data.totalCurrent.isSome = true →
      ∃ r, formatUnit data.totalCurrent "current" = some r ∧
        (updateDashboard data p).1.totalCurrent = some r.1) ∧
    (p.todayEnergy.isSome = true → data.todayEnergy.isSome = true →
      ∃ r, formatUnit data.todayEnergy "energy" = some r ∧
        (updateDashboard data p).1.todayEnergy = some r.1) := by
  have hor := orElse_number data q hv
  obtain ⟨p1, e1⟩ := Option.isSome_iff_exists.1 (showPower_isSome data p hP)
  obtain ⟨p2, e2⟩ := Option.isSome_iff_exists.1 (showCurrent_isSome data p1 hC)
  have f1 := showPower_frame e1
  have f2 := showCurrent_frame e2
  have hel2 : p2.lineVoltage.isSome = true := by
    rw [congrArg Page.lineVoltage f2, congrArg Page.lineVoltage f1]
    exact hel
  obtain ⟨p3, hp3⟩ : ∃ p3 : Page, p3 = { p2 with
      lineVoltage := some (String.mk (toFixed 2 (.fin q)))
      lineVoltageLabel := setText p2.lineVoltageLabel "Line Voltage (V)" } := ⟨_, rfl⟩
  have e3 : showVoltage data p2 = some p3 := by
    rw [hp3]
    exact showVoltage_value data p2 q hor hrb hel2
  obtain ⟨p4, e4⟩ := Option.isSome_iff_exists.1 (showEnergy_isSome data p3 hE)
  have f4 := showEnergy_frame e4
  have hu : updateDashboard data p = (p4, true) := by
    simp only [updateDashboard, e1, e2, e3, e4]
  rw [hu]
  refine ⟨rfl, ⟨String.mk (toFixed 2 (.fin q)), ?_, toFixed_roundsTo 2 (by norm_num) q hq⟩,
    ?_, ?_, ?_, ?_⟩
  · rw [congrArg Page.lineVoltage f4, hp3]
  · rw [congrArg Page.lineVoltageLabel f4, hp3]
    show setText p2.lineVoltageLabel _ = _
    rw [congrArg Page.lineVoltageLabel f2, congrArg Page.lineVoltageLabel f1]
  · intro h1 h2
    obtain ⟨r, hr, hr1, _⟩ := showPower_value e1 h1 h2
    refine ⟨r, hr, ?_⟩
    rw [congrArg Page.totalPower f4, hp3]
    show p2.totalPower = _
    rw [congrArg Page.totalPower f2]
    exact hr1
  · intro h1 h2
    have h1b : p1.totalCurrent.isSome = true := by
      rw [congrArg Page.totalCurrent f1]
      exact h1
    obtain ⟨r, hr, hr1, _⟩ := showCurrent_value e2 h1b h2
    refine ⟨r, hr, ?_⟩
    rw [congrArg Page.totalCurrent f4, hp3]
    exact hr1
  · intro h1 h2
    have h1b : p3.todayEnergy.isSome = true := by
      rw [hp3]
      show p2.todayEnergy.isSome = true
      rw [congrArg Page.todayEnergy f2, congrArg Page.todayEnergy f1]
      exact h1
    obtain ⟨r, hr, hr1, _⟩ := showEnergy_value e4 h1b h2
    exact ⟨r, hr, hr1⟩

/-- Witness of C24, amended: a voltage of 230.125 on a page with all widgets,
where the line-voltage widget then shows `230.13`. -/
theorem line_voltage_two_decimals_witness :
    (updateDashboard
        ⟨some (.num (.fin 1500)), some (.num (.fin 1500)), some (.num (.fin (1841 / 8))),
          none, some (.num (.fin 0))⟩
        ⟨none, some "--", some "--", some "--", some "--", some "", some "", some "",
          some ""⟩).1.lineVoltage = some "230.13" ∧
    (updateDashboard
        ⟨some (.num (.fin 1500)), some (.num (.fin 1500)), some (.num (.fin (1841 / 8))),
          none, some (.num (.fin 0))⟩
        ⟨none, some "--", some "--", some "--", some "--", some "", some "", some "",
          some ""⟩).2 = true :=
  ⟨by decide!,
    (line_voltage_two_decimals
      ⟨some (.num (.fin 1500)), some (.num (.fin 1500)), some (.num (.fin (1841 / 8))),
        none, some (.num (.fin 0))⟩
      ⟨none, some "--", some "--", some "--", some "--", some "", some "", some "", some ""⟩
      (1841 / 8) (Or.inl ⟨rfl, by norm_num⟩) (by unfold readsBack; decide!)
      (by rw [abs_of_pos] <;> norm_num) rfl rfl rfl rfl).1⟩

end EnergyMeter

namespace EnergyMeter

/-- C25 as stated fails: on a poll response that is a non-empty object whose
`power` is an object with a member named `toString`, `updateDashboard` throws
in the power widget, and the today-energy widget keeps its former text. -/
theorem today_energy_counterexample :
    hasTelemetry (.obj [("power", .obj [("toString", .null)])]) = true ∧
    (fetchLatestReading
        (.answered 200 (some (.obj [("power", .obj [("toString", .null)])])))
        1000 1001
        ⟨ConnectionStatus.initial,
          ⟨some offlineEl, some "--", some "--", some "--", some "7.5", some "", some "",
            some "", some "Energy"⟩⟩).page.todayEnergy = some "7.5" := by
  constructor <;> decide!

/-- C25, amended.  For every poll answered in the range 200 to 299 with a body
that has one of `voltage`, `current`, `power` and in which these three are
textual (missing, or containing no object with a member named `toString`):
the data object built for `updateDashboard` has `todayEnergy` equal to 0,
which `formatUnit` renders as `0.0` with unit `mWh`; and on a page with the
today-energy widget, after `fetchLatestReading` that widget shows `0.0` and
its label, when present, reads `Today's Energy Usage (mWh)`. -/
theorem today_energy_placeholder (status : Nat) (data : Json) (t1 t2 : Int) (s : Dashboard)
    (hst : 200 ≤ status ∧ status ≤ 299) (htel : hasTelemetry data = true)
    (hv : argTextual (dataField "voltage" data) = true)
    (hc : argTextual (dataField "current" data) = true)
    (hp : argTextual (dataField "power" data) = true) :
    (dashboardData data).todayEnergy = some (.num (.fin 0)) ∧
    formatUnit (dashboardData data).todayEnergy "energy" = some ("0.0", "mWh") ∧
    (s.page.todayEnergy.isSome = true →
      (fetchLatestReading (.answered status (some data)) t1 t2 s).page.todayEnergy
        = some "0.0" ∧
      (fetchLatestReading (.answered status (some data)) t1 t2 s).page.todayEnergyLabel
        = setText s.page.todayEnergyLabel "Today\x27s Energy Usage (mWh)") := by
  have hfmt : formatUnit (some (.num (.fin 0))) "energy" = some ("0.0", "mWh") := by decide!
  refine ⟨rfl, hfmt, fun hel => ?_⟩
  have hret := dashboardData_returns data s.page hv hc hp
  rw [fetchLatestReading_data status data t1 t2 s hst htel hret, updateConnectionStatus_page]
  show (updateDashboard (dashboardData data) s.page).1.todayEnergy = _ ∧
    (updateDashboard (dashboardData data) s.page).1.todayEnergyLabel = _
  obtain ⟨p1, e1⟩ := Option.isSome_iff_exists.1
    (showPower_isSome (dashboardData data) s.page (orZeroValue_textual _ hp))
  obtain ⟨p2, e2⟩ := Option.isSome_iff_exists.1
    (showCurrent_isSome (dashboardData data) p1 (orZeroValue_textual _ hc))
  obtain ⟨p3, e3⟩ := Option.isSome_iff_exists.1
    (showVoltage_isSome (dashboardData data) p2
      (orElse_textual _ _ (orZeroValue_textual _ hv) (orZeroValue_textual _ hv)))
  obtain ⟨p4, e4⟩ := Option.isSome_iff_exists.1
    (showEnergy_isSome (dashboardData data) p3 rfl)
  have f1 := showPower_frame e1
  have f2 := showCurrent_frame e2
  have f3 := showVoltage_frame e3
  have hu : updateDashboard (dashboardData data) s.page = (p4, true) := by
    simp only [updateDashboard, e1, e2, e3, e4]
  have h3 : p3.todayEnergy = s.page.todayEnergy := by
    rw [congrArg Page.todayEnergy f3, congrArg Page.todayEnergy f2,
      congrArg Page.todayEnergy f1]
  have h3l : p3.todayEnergyLabel = s.page.todayEnergyLabel := by
    rw [congrArg Page.todayEnergyLabel f3, congrArg Page.todayEnergyLabel f2,
      congrArg Page.todayEnergyLabel f1]
  obtain ⟨r, hr, hr1, hr2⟩ := showEnergy_value e4 (by rw [h3]; exact hel) rfl
  have hr0 : r = ("0.0", "mWh") := by
    have : formatUnit (some (.num (.fin 0))) "energy" = some r := hr
    rw [hfmt] at this
    exact (Option.some.inj this).symm
  rw [hu]
  subst hr0
  exact ⟨hr1, by rw [hr2, h3l]; rfl⟩

/-- Witness of C25, amended: a poll response with a current of 12.5 on a page
whose today-energy widget showed `7.5`. -/
theorem today_energy_placeholder_witness :
    hasTelemetry (.obj [("current", .num (.fin (25 / 2)))]) = true ∧
    (fetchLatestReading (.answered 200 (some (.obj [("current", .num (.fin (25 / 2)))])))
        1000 1001
        ⟨ConnectionStatus.initial,
          ⟨some offlineEl, some "--", some "--", some "--", some "7.5", some "", some "",
            some "", some "Energy"⟩⟩).page.todayEnergy = some "0.0" :=
  ⟨by decide!,
    ((today_energy_placeholder 200 (.obj [("current", .num (.fin (25 / 2)))]) 1000 1001
      ⟨ConnectionStatus.initial,
        ⟨some offlineEl, some "--", some "--", some "--", some "7.5", some "", some "",
          some "", some "Energy"⟩⟩
      (by decide) (by decide!) (by decide!) (by decide!) (by decide!)).2.2 rfl).1⟩

/-- C26: the precedence of `voltage` over `lineVoltage` fails for a `voltage`
equal to 0.  With `voltage` 0 and `lineVoltage` 5 the line-voltage widget
shows `5.00`, the value of `lineVoltage`; with `voltage` 0 and `lineVoltage`
absent the widget keeps its former text, so a measured 0 is shown nowhere;
a non-zero `voltage` of 230 with `lineVoltage` 5 is shown as `230.00`. -/
theorem zero_voltage_falls_through :
    (updateDashboard ⟨none, none, some (.num (.fin 0)), some (.num (.fin 5)), none⟩
        ⟨none, some "--", some "--", some "--", some "--", some "", some "", some "",
          some ""⟩).1.lineVoltage = some "5.00" ∧
    (updateDashboard ⟨none, none, some (.num (.fin 0)), none, none⟩
        ⟨none, some "--", some "--", some "--", some "--", some "", some "", some "",
          some ""⟩).1.lineVoltage = some "--" ∧
    (updateDashboard ⟨none, none, some (.num (.fin 230)), some (.num (.fin 5)), none⟩
        ⟨none, some "--", some "--", some "--", some "--", some "", some "", some "",
          some ""⟩).1.lineVoltage = some "230.00" := by
  refine ⟨by decide!, by decide!, by decide!⟩

end EnergyMeter

namespace EnergyMeter

/-! ## `formatUnit` by class of input -/

theorem trimStart_final (cs : List Char) : trimStart cs <:+ cs := by
  induction cs with
  | nil => exact List.suffix_refl _
  | cons c cs ih =>
    unfold trimStart
    split_ifs
    · exact ih.trans (List.suffix_cons c cs)
    · exact List.suffix_refl _

theorem trimEnd_initial (cs : List Char) : trimEnd cs <+: cs := by
  unfold trimEnd
  have h2 := List.reverse_prefix.2 (trimStart_final cs.reverse)
  rwa [List.reverse_reverse] at h2

theorem trimStart_ne_nil (cs : List Char) (c : Char) (hc : c ∈ cs)
    (hs : isJsSpace c = false) : trimStart cs ≠ [] := by
  induction cs with
  | nil => simp at hc
  | cons d ds ih =>
    unfold trimStart
    split_ifs with hd
    · rcases List.mem_cons.1 hc with h | h
      · subst h
        rw [hs] at hd
        exact absurd hd (by simp)
      · exact ih h
    · simp

theorem trimEnd_cons (c : Char) (rest : List Char) (hc : isJsSpace c = false) :
    ∃ t, trimEnd (c :: rest) = c :: t ∧ t <+: rest := by
  have hp := trimEnd_initial (c :: rest)
  have hne : trimEnd (c :: rest) ≠ [] := by
    unfold trimEnd
    intro h
    exact trimStart_ne_nil _ c (by simp) hc (List.reverse_eq_nil_iff.1 h)
  cases ht : trimEnd (c :: rest) with
  | nil => exact absurd ht hne
  | cons a t =>
    rw [ht] at hp
    obtain ⟨rfl, hp2⟩ := List.cons_prefix_cons.1 hp
    exact ⟨t, rfl, hp2⟩

theorem trimStart_head (cs : List Char) (c : Char) (rest : List Char)
    (h : trimStart cs = c :: rest) : isJsSpace c = false := by
  induction cs with
  | nil => simp [trimStart] at h
  | cons d ds ih =>
    unfold trimStart at h
    split_ifs at h with hd
    · exact ih h
    · simp only [List.cons.injEq] at h
      rw [← h.1]
      simpa using hd

theorem trimStart_idem (cs : List Char) : trimStart (trimStart cs) = trimStart cs := by
  cases h : trimStart cs with
  | nil => rfl
  | cons c rest => exact trimStart_cons rest (trimStart_head cs c rest h)

theorem startsInfinity_extends {t u : List Char} (h : t <+: u)
    (ht : startsInfinity t = true) : startsInfinity u = true := by
  obtain ⟨x, rfl⟩ := h
  unfold startsInfinity at ht
  split at ht
  · rfl
  · exact absurd ht (by simp)

/-- A text that does not start a number: its prefixes hold no `Infinity`, no
integer digits and no fraction digits. -/
theorem scan_of_not_numeric (b b2 : List Char)
    (h : (match b2 with
      | [] => false
      | c :: rest =>
        isDecDigit c || startsInfinity (c :: rest) ||
          (c == '.' && (match rest with
            | d :: _ => isDecDigit d
            | [] => false))) = false)
    (hp : b <+: b2) :
    startsInfinity b = false ∧ (spanDigits b).1 = [] ∧
    (match (spanDigits b).2 with
      | '.' :: r => spanDigits r
      | r => ([], r)).1 = [] := by
  cases b with
  | nil => exact ⟨rfl, rfl, rfl⟩
  | cons c r =>
    cases b2 with
    | nil => exact absurd hp (by simp)
    | cons c2 r2 =>
      obtain ⟨rfl, hp2⟩ := List.cons_prefix_cons.1 hp
      simp only [Bool.or_eq_false_iff, Bool.and_eq_false_iff] at h
      obtain ⟨⟨hdig, hinf⟩, hdot⟩ := h
      have h1 : startsInfinity (c :: r) = false := by
        cases hs : startsInfinity (c :: r) with
        | false => rfl
        | true =>
          rw [startsInfinity_extends hp hs] at hinf
          exact absurd hinf (by simp)
      refine ⟨h1, by rw [spanDigits_of_not_digit c r hdig], ?_⟩
      rw [spanDigits_of_not_digit c r hdig]
      dsimp only
      by_cases hc : c = '.'
      · subst hc
        cases r with
        | nil => rfl
        | cons d r3 =>
          cases r2 with
          | nil => exact absurd hp2 (by simp)
          | cons d2 r4 =>
            obtain ⟨rfl, _⟩ := List.cons_prefix_cons.1 hp2
            rcases hdot with hdot | hdot
            · exact absurd hdot (by decide)
            · simp only at hdot
              show (spanDigits (d :: r3)).1 = []
              rw [spanDigits_of_not_digit d r3 hdot]
      · split
        · rename_i heq
          simp only [List.cons.injEq] at heq
          exact absurd heq.1 hc
        · rfl

theorem takeSign_extends (c : Char) (t rest : List Char) (hp : t <+: rest) :
    (takeSign (c :: t)).2 <+: (takeSign (c :: rest)).2 := by
  by_cases h1 : c = '-'
  · subst h1
    exact hp
  · by_cases h2 : c = '+'
    · subst h2
      exact hp
    · have e1 : ∀ l, takeSign (c :: l) = (false, c :: l) := by
        intro l
        unfold takeSign
        split
        · rename_i heq
          simp only [List.cons.injEq] at heq
          exact absurd heq.1 h1
        · rename_i heq
          simp only [List.cons.injEq] at heq
          exact absurd heq.1 h2
        · rfl
      rw [e1, e1]
      exact List.cons_prefix_cons.2 ⟨rfl, hp⟩

/-- A text that is not blank and does not start a number is NaN to
`StringToNumber`. -/
theorem stringToNumber_of_not_numeric (cs : List Char) (h : startsNumeric cs = false)
    (hne : trimStart cs ≠ []) : stringToNumber cs = .nan := by
  cases hu : trimStart cs with
  | nil => exact absurd hu hne
  | cons c rest =>
    have hc := trimStart_head cs c rest hu
    obtain ⟨t, ht, hpre⟩ := trimEnd_cons c rest hc
    unfold startsNumeric at h
    rw [hu] at h
    obtain ⟨s1, s2, s3⟩ := scan_of_not_numeric _ _ h (takeSign_extends c t rest hpre)
    have hzero : c ≠ '0' := by
      intro h0
      subst h0
      simp [takeSign, isDecDigit] at h
    have hnd : nonDecimalLiteral (c :: t) = none := by
      unfold nonDecimalLiteral
      split
      · rename_i heq
        simp only [List.cons.injEq] at heq
        exact absurd heq.1 hzero
      · rfl
    have had : afterDecimalLiteral (c :: t) = none := by
      unfold afterDecimalLiteral
      dsimp only
      rw [s1]
      simp only [Bool.false_eq_true, if_false, s2, s3, and_self, if_true]
    unfold stringToNumber
    dsimp only
    rw [hu, ht, had, hnd]
    simp

end EnergyMeter

namespace EnergyMeter

theorem trimEnd_of_last (init : List Char) (last : Char) (h : isJsSpace last = false) :
    trimEnd (init ++ [last]) = init ++ [last] := by
  unfold trimEnd
  rw [List.reverse_append, List.reverse_singleton, List.singleton_append,
    trimStart_cons _ h, List.reverse_cons, List.reverse_reverse]

theorem ends_with_digit (pre ds : List Char) (hne : ds ≠ [])
    (hds : ∀ c ∈ ds, isDecDigit c = true) :
    ∃ init last, pre ++ ds = init ++ [last] ∧ isDecDigit last = true := by
  rcases List.eq_nil_or_concat ds with h | ⟨L, b, h⟩
  · exact absurd h hne
  · subst h
    exact ⟨pre ++ L, b, by simp, hds b (by simp)⟩

theorem decimal_chars_trim (d : Decimal) (h : d.wellFormed = true) :
    d.chars ≠ [] ∧ trimStart d.chars = d.chars ∧ trimEnd d.chars = d.chars := by
  obtain ⟨neg, ip, fp⟩ := d
  simp only [Decimal.wellFormed, Bool.and_eq_true, Bool.not_eq_true', List.all_eq_true,
    List.isEmpty_eq_false] at h
  obtain ⟨⟨hne, hip⟩, hfp⟩ := h
  have hlast : ∃ init last, Decimal.chars ⟨neg, ip, fp⟩ = init ++ [last] ∧
      isDecDigit last = true := by
    cases fp with
    | nil =>
      obtain ⟨init, last, e, hl⟩ := ends_with_digit (if neg then ['-'] else []) ip hne hip
      exact ⟨init, last, by simpa [Decimal.chars] using e, hl⟩
    | cons f fs =>
      obtain ⟨init, last, e, hl⟩ :=
        ends_with_digit ((if neg then ['-'] else []) ++ (ip ++ ['.'])) (f :: fs) (by simp) hfp
      exact ⟨init, last, by simpa [Decimal.chars] using e, hl⟩
  obtain ⟨init, last, e, hl⟩ := hlast
  refine ⟨?_, ?_, ?_⟩
  · rw [e]
    simp
  · cases ip with
    | nil => exact absurd rfl hne
    | cons c ip2 =>
      cases neg with
      | true =>
        simp only [Decimal.chars, if_true, List.singleton_append]
        exact trimStart_cons _ (by decide)
      | false =>
        simp only [Decimal.chars, Bool.false_eq_true, if_false, List.nil_append,
          List.cons_append]
        exact trimStart_cons _ (not_space_of_digit (hip c (by simp)))
  · rw [e]
    exact trimEnd_of_last init last (not_space_of_digit hl)

theorem afterDecimalLiteral_decimal (d : Decimal) (h : d.wellFormed = true) :
    afterDecimalLiteral d.chars = some [] := by
  obtain ⟨neg, ip, fp⟩ := d
  simp only [Decimal.wellFormed, Bool.and_eq_true, Bool.not_eq_true', List.all_eq_true] at h
  obtain ⟨⟨hne, hip⟩, hfp⟩ := h
  cases ip with
  | nil => simp at hne
  | cons c ip2 =>
    have hc : isDecDigit c = true := hip c (by simp)
    have htail : ∀ x tl, (if fp.isEmpty then [] else '.' :: fp) = x :: tl →
        isDecDigit x = false := by
      intro x tl hx
      split_ifs at hx with he
      cases hx
      decide
    have hspan := spanDigits_append (c :: ip2) _ hip htail
    have hsign : takeSign (Decimal.chars ⟨neg, c :: ip2, fp⟩)
        = (neg, (c :: ip2) ++ (if fp.isEmpty then [] else '.' :: fp)) := by
      cases neg with
      | true =>
        simp only [Decimal.chars, if_true, List.singleton_append]
        rfl
      | false =>
        simp only [Decimal.chars, Bool.false_eq_true, if_false, List.nil_append,
          List.cons_append]
        rw [takeSign_digit _ hc]
    unfold afterDecimalLiteral
    dsimp only
    rw [hsign]
    dsimp only
    rw [hspan]
    dsimp only
    rw [decimal_fraction_scan fp hfp]
    dsimp only
    rw [List.cons_append, startsInfinity_digit _ hc]
    simp [afterExponent]

/-- On a decimal-number string `StringToNumber` returns the number it
denotes, as `parseFloat` does. -/
theorem stringToNumber_decimal (d : Decimal) (h : d.wellFormed = true) :
    stringToNumber d.chars = d.number := by
  obtain ⟨hne, hs, he⟩ := decimal_chars_trim d h
  unfold stringToNumber
  dsimp only
  rw [hs, he, if_neg hne, afterDecimalLiteral_decimal d h]
  exact parseFloatChars_decimal d h

theorem formatUnit_decimal (d : Decimal) (type : String) (h : d.wellFormed = true) :
    formatUnit (some (.str d.text)) type
      = some (String.mk (toFixed 1 (scaleUnit type d.number).1),
          (scaleUnit type d.number).2) := by
  have hn : d.number ≠ .nan := roundDouble_ne_nan _
  have ht : d.text.toList = d.chars := rfl
  simp only [formatUnit, Json.toNumber, Json.toStr, ht, stringToNumber_decimal d h,
    parseFloatChars_decimal d h, hn, if_false]

theorem formatUnit_not_numeric (s : String) (type : String)
    (h : startsNumeric s.toList = false) (hne : trimStart s.toList ≠ []) :
    formatUnit (some (.str s)) type = some ("0.0", "") := by
  simp only [formatUnit, Json.toNumber, Json.toStr, stringToNumber_of_not_numeric _ h hne,
    if_true]

theorem scaleUnit_inf (type : String) (neg : Bool) :
    (scaleUnit type (.inf neg)).1 = .inf neg := by
  unfold scaleUnit
  split_ifs <;> rfl

theorem scaleUnit_below (type : String) (q : ℚ) (h : q < 1000) :
    (scaleUnit type (.fin q)).1 = .fin q := by
  have h1 : ¬ ((1000 : ℚ) ≤ q) := not_le.2 h
  have h2 : ¬ ((1000000 : ℚ) ≤ q) := fun h3 => h1 (le_trans (by norm_num) h3)
  unfold scaleUnit
  simp only [JSNum.ge, h1, h2, decide_False, Bool.false_eq_true, if_false]
  split_ifs <;> rfl

theorem toFixed_shape (fd : Nat) (hfd : 0 < fd) (x : ℚ) :
    (|x| < 10 ^ 21 → RoundsTo fd x (toFixed fd (.fin x))) ∧
    ((10 : ℚ) ^ 21 ≤ |x| → toFixed fd (.fin x) = numToString (.fin x)) := by
  refine ⟨toFixed_roundsTo fd hfd x, fun hq => ?_⟩
  unfold toFixed
  dsimp only
  rw [if_pos hq]

theorem formatUnit_inf (type : String) (neg : Bool) :
    formatUnit (some (.num (.inf neg))) type
      = some (if neg then "-Infinity" else "Infinity", (scaleUnit type (.inf neg)).2) := by
  have hp : parseFloatChars (numToString (.inf neg)) = .inf neg := by
    cases neg <;> decide
  have hf : String.mk (toFixed 1 (.inf neg)) = if neg then "-Infinity" else "Infinity" := by
    cases neg <;> decide
  simp only [formatUnit, Json.toNumber, Json.toStr, hp, reduceCtorEq, if_false,
    scaleUnit_inf, hf]

end EnergyMeter

namespace EnergyMeter

/-- The guard of `formatUnit` tests `isNaN(value)` but the function formats
`parseFloat(value)`: a boolean and the empty string are numbers to the first
and NaN to the second, and they are shown as `NaN`.  The line-voltage widget
tests `isNaN` on the parsed number instead and is left as it was. -/
theorem guard_before_parse_examples :
    formatUnit (some (.bool true)) "power" = some ("NaN", "W") ∧
    formatUnit (some (.str "")) "voltage" = some ("NaN", "V") ∧
    (updateDashboard ⟨none, none, some (.bool true), none, none⟩
        ⟨none, some "--", some "--", some "--", some "--", some "", some "", some "",
          some ""⟩).1.lineVoltage = some "--" := by
  refine ⟨by decide!, by decide!, by decide!⟩

/-- C23 as stated fails: an infinity, which the claim lists among the inputs,
is shown as `Infinity`, and a number of `10 ^ 22` as `1e+22`; neither is a
numeral with one digit after the point. -/
theorem one_decimal_counterexample :
    formatUnit (some (.num (.inf false))) "current" = some ("Infinity", "A") ∧
    formatUnit (some (.num (.fin (10 ^ 22)))) "voltage" = some ("1e+22", "V") ∧
    ¬ HasDecimals 1 "Infinity".toList ∧ ¬ HasDecimals 1 "1e+22".toList := by
  refine ⟨by decide!, by decide!,
    not_hasDecimals 1 _ 'I' (by decide) (by decide),
    not_hasDecimals 1 _ 'e' (by decide) (by decide)⟩

/-- C23, amended.  For every quantity type, by class of input.  A finite
number (a binary64 value) and a decimal-number string are shown as the number,
after the scaling of the type, rounded to one decimal place, that is as a
decimal numeral with exactly one digit after the point, when the scaled number
is below `10 ^ 21` in magnitude, and as the text of `Number::toString` from
`10 ^ 21` on; a number below 1000 is never scaled.  A string that is not blank
and does not start a number, and the number NaN, are shown as `0.0` with the
empty unit.  An infinity is shown as `Infinity` or `-Infinity`. -/
theorem one_decimal_by_class (type : String) :
    (∀ q : ℚ, readsBack q →
      ∃ text, formatUnit (some (.num (.fin q))) type
          = some (text, (scaleUnit type (.fin q)).2) ∧
        (q < 1000 → |q| < 10 ^ 21 → RoundsTo 1 q text.toList) ∧
        ∀ x, (scaleUnit type (.fin q)).1 = .fin x →
          (|x| < 10 ^ 21 → RoundsTo 1 x text.toList) ∧
          ((10 : ℚ) ^ 21 ≤ |x| → text.toList = numToString (.fin x))) ∧
    (∀ d : Decimal, d.wellFormed = true →
      ∃ text, formatUnit (some (.str d.text)) type
          = some (text, (scaleUnit type d.number).2) ∧
        ∀ x, (scaleUnit type d.number).1 = .fin x →
          (|x| < 10 ^ 21 → RoundsTo 1 x text.toList) ∧
          ((10 : ℚ) ^ 21 ≤ |x| → text.toList = numToString (.fin x))) ∧
    (∀ s : String, startsNumeric s.toList = false → trimStart s.toList ≠ [] →
      formatUnit (some (.str s)) type = some ("0.0", "")) ∧
    formatUnit (some (.num .nan)) type = some ("0.0", "") ∧
    (∀ neg : Bool, ∃ unit, formatUnit (some (.num (.inf neg))) type
      = some (if neg then "-Infinity" else "Infinity", unit)) := by
  refine ⟨fun q hrb => ?_, fun d hw => ?_, fun s h hne => formatUnit_not_numeric s type h hne,
    ?_, fun neg => ⟨_, formatUnit_inf type neg⟩⟩
  · refine ⟨_, formatUnit_num q type hrb, fun hlt hq => ?_, fun x hx => ?_⟩
    · rw [scaleUnit_below type q hlt]
      exact toFixed_roundsTo 1 (by norm_num) q hq
    · rw [hx]
      exact toFixed_shape 1 (by norm_num) x
  · refine ⟨_, formatUnit_decimal d type hw, fun x hx => ?_⟩
    rw [hx]
    exact toFixed_shape 1 (by norm_num) x
  · simp only [formatUnit, Json.toNumber, Json.toStr, if_true]

/-- Witness of C23, amended: the number 230.46875 as a voltage is shown as
`230.5`, and the string `abc` as `0.0`. -/
theorem one_decimal_by_class_witness :
    formatUnit (some (.num (.fin (14750 / 64)))) "voltage" = some ("230.5", "V") ∧
    (∃ text, formatUnit (some (.num (.fin (14750 / 64)))) "voltage"
        = some (text, (scaleUnit "voltage" (.fin (14750 / 64))).2) ∧
      (((14750 : ℚ) / 64) < 1000 → |((14750 : ℚ) / 64)| < 10 ^ 21 →
        RoundsTo 1 (14750 / 64) text.toList) ∧
      ∀ x, (scaleUnit "voltage" (.fin (14750 / 64))).1 = .fin x →
        (|x| < 10 ^ 21 → RoundsTo 1 x text.toList) ∧
        ((10 : ℚ) ^ 21 ≤ |x| → text.toList = numToString (.fin x))) ∧
    formatUnit (some (.str "abc")) "voltage" = some ("0.0", "") :=
  ⟨by decide!,
    (one_decimal_by_class "voltage").1 (14750 / 64) (by unfold readsBack; decide!),
    (one_decimal_by_class "voltage").2.2.1 "abc" (by decide) (by decide)⟩

end EnergyMeter
